import Mathlib

/-!
# slotgame: a verification development

A shallow embedding of the transactional wallet-and-spin engine of
`apolunin/slotgame` (`internal/model`, `internal/service`, `internal/storage`).

* Go `int64` values are `Int`s; every arithmetic operation of the source is followed by
  `wrapInt64`, the reduction modulo `2^64` into `[-2^63, 2^63)`.
* Go `error` values are the inductive `Error`; `fmt.Errorf` with `%w` is `Error.wrapped`.
* Stateful code is explicit state passing over `World σ`: the state `σ` of the external
  collaborators (the pgx connection pool and the combination generator) together with a
  ghost `trace` of every call made to them.
* A Go closure that assigns captured variables is a function that takes and returns the
  captured values.
-/

namespace SlotGame

/-! ## 64-bit integers -/

/-- The least `int64`. -/
def minInt64 : Int := -9223372036854775808

/-- The greatest `int64`. -/
def maxInt64 : Int := 9223372036854775807

/-- The values representable as a Go `int64`. -/
def isInt64 (x : Int) : Prop := minInt64 ≤ x ∧ x ≤ maxInt64

instance (x : Int) : Decidable (isInt64 x) := by
  unfold isInt64; infer_instance

/-- Two's complement wrap-around of an exact result into the `int64` range. -/
def wrapInt64 (x : Int) : Int :=
  (x + 9223372036854775808) % 18446744073709551616 - 9223372036854775808

/-! ## Errors -/

/-- Go `error` values occurring in the program. The sentinels are the package-level
`errors.New` variables; `other` is any further leaf error (a driver failure, a
`fmt.Errorf` without `%w`); `wrapped` is `fmt.Errorf` with a `%w` verb. -/
inductive Error where
  /-- The variable `service.ErrInvalidBetAmount`. -/
  | ErrInvalidBetAmount
  /-- The variable `service.ErrUserNotFound`. -/
  | ErrUserNotFound
  /-- The variable `service.ErrInvalidCredentials`. -/
  | ErrInvalidCredentials
  /-- The variable `service.ErrInsufficientFunds`. -/
  | ErrInsufficientFunds
  /-- The variable `storage.ErrUserExists`. -/
  | storageErrUserExists
  /-- The variable `storage.ErrUserNotFound`. -/
  | storageErrUserNotFound
  /-- The variable `pgx.ErrNoRows`. -/
  | pgxErrNoRows
  /-- A nil interface value was dereferenced (a Go run-time panic). -/
  | nilDereference
  /-- Any other leaf error. -/
  | other (msg : String)
  /-- The result of `fmt.Errorf(format, ..., inner)` with one `%w` verb. -/
  | wrapped (format : String) (inner : Error)
  deriving DecidableEq, Repr

/-- Go `errors.Is(err, target)`: `target` occurs on the unwrap chain of `err`. -/
def errorsIs : Error → Error → Bool
  | .wrapped format inner, target =>
      decide (Error.wrapped format inner = target) || errorsIs inner target
  | e, target => decide (e = target)

/-! ## `internal/model` -/

/-- Go `model.SpinResult` (`Lose = 0`, `Win = 1`, `SuperWin = 2`). -/
inductive SpinResult where
  | Lose
  | Win
  | SuperWin
  deriving DecidableEq, Repr

/-- The byte value of a `model.SpinResult` constant (`Lose SpinResult = iota`, `Win`,
`SuperWin`). -/
def SpinResult.code : SpinResult → Fin 256
  | SpinResult.Lose => 0
  | SpinResult.Win => 1
  | SpinResult.SuperWin => 2

/-- Go `SpinResult.String`, on the byte that a `model.SpinResult` is: the `switch` over
the three constants, and the `panic` after it as `Except.error` with the panic message. -/
def SpinResult.String (sr : Fin 256) : Except String String :=
  if sr = SpinResult.code SpinResult.Lose then Except.ok "Lose"
  else if sr = SpinResult.code SpinResult.Win then Except.ok "Win"
  else if sr = SpinResult.code SpinResult.SuperWin then Except.ok "SuperWin"
  else Except.error ("unknown spin result type: " ++ Nat.repr sr.val)

/-- Go `model.User`. -/
structure User where
  ID : String
  FirstName : String
  LastName : String
  Login : String
  Password : String
  Balance : Int
  deriving DecidableEq, Repr

/-- Go `model.Spin`; `CreatedAt` is a timestamp chosen by the store. -/
structure Spin where
  ID : String
  UserID : String
  Combination : String
  Result : SpinResult
  BetAmount : Int
  WinAmount : Int
  CreatedAt : Nat
  deriving DecidableEq, Repr

/-! ## Combinations (`internal/service/slotmachine.go`) -/

/-- Go `byte`. -/
abbrev Byte := Fin 256

/-- Go `type Combination [3]byte`. -/
structure Combination where
  s0 : Byte
  s1 : Byte
  s2 : Byte
  deriving DecidableEq, Repr

/-- The symbol at position `i`, Go `c[i]`. -/
def Combination.get (c : Combination) : Fin 3 → Byte
  | 0 => c.s0
  | 1 => c.s1
  | 2 => c.s2

/-- The combination with symbol `g i` at position `i`. -/
def Combination.ofFn (g : Fin 3 → Byte) : Combination := ⟨g 0, g 1, g 2⟩

/-- The symbols in the order `for _, n := range c` visits them. -/
def Combination.toList (c : Combination) : List Byte := [c.s0, c.s1, c.s2]

/-- The statement `set[n] = struct{}{}` on a `map[byte]struct{}`, kept as the list of
its keys. -/
def setInsert (set : List Byte) (n : Byte) : List Byte :=
  if n ∈ set then set else set ++ [n]

/-- Go `Combination.Type`: the number of keys of the set of symbols decides. -/
def Combination.type (c : Combination) : SpinResult :=
  let set := c.toList.foldl setInsert []
  match set.length with
  | 1 => SpinResult.SuperWin
  | 2 => SpinResult.Win
  | _ => SpinResult.Lose

/-- Go `Combination.String`: `fmt.Sprint` of each byte, joined with commas. -/
def Combination.String (c : Combination) : String :=
  String.intercalate "," [Nat.repr c.s0.val, Nat.repr c.s1.val, Nat.repr c.s2.val]

/-- The number that a list of decimal digits denotes. -/
def decodeDigits (cs : List Char) : Nat :=
  cs.foldl (fun acc ch => 10 * acc + (ch.toNat - 48)) 0

/-! ## The world: external state and the trace of calls -/

/-- A transaction handle (`pgx.Tx`). -/
abbrev Tx := Nat

/-- SQL statements issued through a transaction handle. -/
inductive Sql where
  /-- The statement `SELECT balance FROM "user" WHERE login = $1`. -/
  | selectBalance (login : String)
  /-- The statement `UPDATE "user" SET balance = $1 WHERE login = $2`. -/
  | updateBalance (newBalance : Int) (login : String)
  /-- The statement `INSERT INTO "spin_result" (...) VALUES (...) RETURNING id, created_at`. -/
  | insertSpin (userID combination : String) (result : SpinResult) (betAmount winAmount : Int)
  /-- The statement `SELECT id, ... FROM "user" WHERE login = $1`. -/
  | selectUser (login : String)
  /-- The statement `INSERT INTO "user" (...) VALUES (...) RETURNING id`. -/
  | insertUser (firstName lastName login password : String) (balance : Int)
  deriving DecidableEq, Repr

/-- Calls of the repository methods of `Storage` that the services use. -/
inductive Call where
  | GetUserBalanceByLogin (login : String)
  | SetUserBalanceByLogin (login : String) (newBalance : Int)
  | CreateSpin (userID combination : String) (result : SpinResult) (betAmount winAmount : Int)
  | GetUserByLogin (login : String)
  | CreateUser (login password firstName lastName : String) (balance : Int)
  deriving DecidableEq, Repr

/-- One entry of the ghost trace. -/
inductive Event where
  /-- The generator `sm.generate()` was invoked. -/
  | generate
  /-- A call `s.conn.Begin(ctx)`. -/
  | begin
  /-- A call `tx.Commit(ctx)`. -/
  | commit (tx : Tx)
  /-- A call `tx.Rollback(ctx)`. -/
  | rollback (tx : Tx)
  /-- A statement sent through `tx.QueryRow` or `tx.Exec`. -/
  | sql (tx : Tx) (stmt : Sql)
  /-- Entry into a repository method of `Storage`. -/
  | call (c : Call)
  /-- A record written with `slog ... .Error`. -/
  | logError (msg : String) (err : Error)
  /-- A record written with `slog ... .Debug`. -/
  | logDebug (msg : String)
  deriving DecidableEq, Repr

/-- The state of the external collaborators and the trace of calls so far. -/
structure World (σ : Type) where
  env : σ
  trace : List Event

/-- Append an event to the trace. -/
def World.emit {σ : Type} (w : World σ) (e : Event) : World σ :=
  { w with trace := w.trace ++ [e] }

/-! ## The slot machine (`internal/service/slotmachine.go`) -/

/-- Go `GenerateFn func() (Combination, error)`, an effect on the external state. -/
abbrev GenerateFn (σ : Type) := σ → (Combination × Option Error) × σ

/-- Go `SlotMachine`. -/
structure SlotMachine (σ : Type) where
  generate : GenerateFn σ

/-- The call `sm.generate()`, recorded in the trace. -/
def SlotMachine.callGenerate {σ : Type} (sm : SlotMachine σ) (w : World σ) :
    (Combination × Option Error) × World σ :=
  let r := sm.generate w.env
  (r.1, { env := r.2, trace := w.trace ++ [Event.generate] })

/-- Go `(*SlotMachine).Spin`. -/
def SlotMachine.Spin {σ : Type} (sm : SlotMachine σ) (betAmount : Int) (w : World σ) :
    (Combination × Int × Option Error) × World σ :=
  if betAmount ≤ 0 then
    ((⟨0, 0, 0⟩, 0,
      some (Error.wrapped "%w: bet amount must be positive" Error.ErrInvalidBetAmount)), w)
  else
    match sm.callGenerate w with
    | ((c, some err), w1) =>
        ((c, 0, some (Error.wrapped "failed to generate combination: %w" err)), w1)
    | ((c, none), w1) =>
        let winAmount : Int :=
          match c.type with
          | SpinResult.Lose => wrapInt64 (-betAmount)
          | SpinResult.Win => wrapInt64 (2 * betAmount)
          | SpinResult.SuperWin => wrapInt64 (10 * betAmount)
        ((c, winAmount, none), w1)

/-- A generator that always returns the given pair, as the test suite injects. -/
def constGenerate {σ : Type} (c : Combination) (err : Option Error) : GenerateFn σ :=
  fun s => ((c, err), s)

/-- The random source behind `rand.Int(rand.Reader, max)`: a value below `max`, or an
error, as an effect on the external state. -/
abbrev RandSource (σ : Type) := Nat → σ → Except Error Nat × σ

/-- The conversion `byte(n.Int64() + 1)` of `randomNum`. -/
def symbolOf (n : Nat) : Byte := Fin.ofNat (n + 1)

/-- Go `randomNum`: one draw below 9, shifted to start at 1. -/
def randomNum {σ : Type} (rand : RandSource σ) (s : σ) : (Byte × Option Error) × σ :=
  match rand 9 s with
  | (Except.error err, s1) => ((0, some err), s1)
  | (Except.ok n, s1) => ((symbolOf n, none), s1)

/-- The assignment `res[i] = r`. -/
def Combination.set (c : Combination) (i : Nat) (r : Byte) : Combination :=
  match i with
  | 0 => { c with s0 := r }
  | 1 => { c with s1 := r }
  | 2 => { c with s2 := r }
  | _ => c

/-- The loop `for i := 0; i < len(res); i++` of `randomCombination`, with `remaining`
iterations to go, so that `i = 3 - remaining`. -/
def randomCombinationLoop {σ : Type} (rand : RandSource σ) :
    Nat → Combination → σ → (Combination × Option Error) × σ
  | 0, res, s => ((res, none), s)
  | remaining + 1, res, s =>
      match randomNum rand s with
      | ((_, some err), s1) =>
          ((res, some (Error.wrapped "failed to generate random number: %w" err)), s1)
      | ((r, none), s1) => randomCombinationLoop rand remaining (res.set (3 - (remaining + 1)) r) s1

/-- Go `randomCombination`. -/
def randomCombination {σ : Type} (rand : RandSource σ) : GenerateFn σ :=
  fun s => randomCombinationLoop rand 3 ⟨0, 0, 0⟩ s

/-- Go `NewSlotMachine`, over the given random source. -/
def NewSlotMachine {σ : Type} (rand : RandSource σ) : SlotMachine σ :=
  { generate := randomCombination rand }

/-! ## Transactions (`internal/storage/storage.go`) -/

/-- The part of a `context.Context` the program reads: the value stored under `txKey{}`. -/
structure Context where
  tx : Option Tx
  deriving DecidableEq, Repr

/-- Go `context.WithValue(ctx, txKey{}, tx)`. -/
def Context.WithValue (ctx : Context) (tx : Tx) : Context := { ctx with tx := some tx }

/-- Go `txFromContext`: the handle stored in the context, `nil` when there is none. -/
def txFromContext (ctx : Context) : Option Tx := ctx.tx

/-- The operations of the pgx connection pool and of its transaction handles that the
program uses, as effects on the external state. `updateBalance` returns
`cmd.RowsAffected()`; `insertSpin` returns the scanned `id` and `created_at`;
`insertUser` returns the scanned `id`. -/
structure Pool (σ : Type) where
  Begin : σ → Except Error Tx × σ
  Commit : Tx → σ → Option Error × σ
  Rollback : Tx → σ → Option Error × σ
  selectBalance : Tx → String → σ → Except Error Int × σ
  updateBalance : Tx → Int → String → σ → Except Error Nat × σ
  insertSpin : Tx → String → String → SpinResult → Int → Int → σ → Except Error (String × Nat) × σ
  selectUser : Tx → String → σ → Except Error User × σ
  insertUser : Tx → String → String → String → String → Int → σ → Except Error String × σ

/-- Go `Storage`. -/
structure Storage (σ : Type) where
  conn : Pool σ

/-- Go `TxFn func(ctx context.Context) error`, with the variables the closure captures
passed in and out as a value of type `κ`. -/
abbrev TxFn (σ κ : Type) := Context → κ → World σ → (Option Error × κ) × World σ

/-- The call `s.conn.Begin(ctx)`, recorded in the trace. -/
def Storage.connBegin {σ : Type} (s : Storage σ) (w : World σ) : Except Error Tx × World σ :=
  let r := s.conn.Begin w.env
  (r.1, { env := r.2, trace := w.trace ++ [Event.begin] })

/-- The call `tx.Commit(ctx)`, recorded in the trace. -/
def Storage.txCommit {σ : Type} (s : Storage σ) (tx : Tx) (w : World σ) :
    Option Error × World σ :=
  let r := s.conn.Commit tx w.env
  (r.1, { env := r.2, trace := w.trace ++ [Event.commit tx] })

/-- The call `tx.Rollback(ctx)`, recorded in the trace. -/
def Storage.txRollback {σ : Type} (s : Storage σ) (tx : Tx) (w : World σ) :
    Option Error × World σ :=
  let r := s.conn.Rollback tx w.env
  (r.1, { env := r.2, trace := w.trace ++ [Event.rollback tx] })

/-- Lines 260-274 of `RunTx`: the handle lookup and the `if tx == nil` block. The result
is the early return of a failed `Begin`, or the values of `tx`, `txOwner` and `ctx` with
which the function goes on. -/
def Storage.runTxOpen {σ : Type} (s : Storage σ) (ctx : Context) (w : World σ) :
    Except Error (Tx × Bool × Context) × World σ :=
  match txFromContext ctx with
  | none =>
      match s.connBegin w with
      | (Except.error err, w1) =>
          (Except.error (Error.wrapped "failed to begin transaction: %w" err), w1)
      | (Except.ok tx, w1) => (Except.ok (tx, true, ctx.WithValue tx), w1)
  | some tx => (Except.ok (tx, false, ctx), w)

/-- Go `(*Storage).RunTx`; `k` holds the captured variables before the call. -/
def Storage.RunTx {σ κ : Type} (s : Storage σ) (ctx : Context) (f : TxFn σ κ) (k : κ)
    (w : World σ) : (Option Error × κ) × World σ :=
  match s.runTxOpen ctx w with
  | (Except.error err, w1) => ((some err, k), w1)
  | (Except.ok (tx, txOwner, ctx1), w1) =>
      match f ctx1 k w1 with
      | ((some err, k2), w2) =>
          if txOwner then
            match s.txRollback tx w2 with
            | (some rbErr, w3) =>
                ((some err, k2), w3.emit (Event.logError "failed to rollback transaction" rbErr))
            | (none, w3) => ((some err, k2), w3)
          else ((some err, k2), w2)
      | ((none, k2), w2) =>
          if txOwner then
            match s.txCommit tx w2 with
            | (r, w3) => ((r, k2), w3)
          else ((none, k2), w2)

/-- A statement run through the handle found in the context: `tx := txFromContext(ctx)`
followed by a method call on `tx`. A nil handle makes that call panic. -/
def Storage.withTx {σ α : Type} (ctx : Context) (stmt : Tx → Sql) (run : Tx → σ → Except Error α × σ)
    (w : World σ) : Except Error α × World σ :=
  match txFromContext ctx with
  | none => (Except.error Error.nilDereference, w)
  | some tx =>
      let r := run tx w.env
      (r.1, { env := r.2, trace := w.trace ++ [Event.sql tx (stmt tx)] })

/-- Go `(*Storage).GetUserBalanceByLogin`. -/
def Storage.GetUserBalanceByLogin {σ : Type} (s : Storage σ) (ctx : Context) (login : String)
    (w : World σ) : (Int × Option Error) × World σ :=
  match s.RunTx ctx
      (fun ctx balance w =>
        match Storage.withTx ctx (fun _ => Sql.selectBalance login)
            (fun tx => s.conn.selectBalance tx login) w with
        | (Except.ok b, w1) => ((none, b), w1)
        | (Except.error err, w1) =>
            if errorsIs err Error.pgxErrNoRows then
              ((some Error.storageErrUserNotFound, balance), w1)
            else ((some err, balance), w1))
      0 (w.emit (Event.call (Call.GetUserBalanceByLogin login))) with
  | ((some err, _), w1) => ((0, some err), w1)
  | ((none, balance), w1) => ((balance, none), w1)

/-- Go `(*Storage).SetUserBalanceByLogin`. -/
def Storage.SetUserBalanceByLogin {σ : Type} (s : Storage σ) (ctx : Context) (login : String)
    (newBalance : Int) (w : World σ) : Option Error × World σ :=
  match s.RunTx ctx
      (fun ctx (u : Unit) w =>
        match Storage.withTx ctx (fun _ => Sql.updateBalance newBalance login)
            (fun tx => s.conn.updateBalance tx newBalance login) w with
        | (Except.error err, w1) =>
            ((some (Error.wrapped "error updating user balance: %w" err), u), w1)
        | (Except.ok rowsAffected, w1) =>
            if rowsAffected = 0 then ((some Error.storageErrUserNotFound, u), w1)
            else ((none, u), w1))
      () (w.emit (Event.call (Call.SetUserBalanceByLogin login newBalance))) with
  | ((r, _), w1) => (r, w1)

/-- Go `(*Storage).CreateSpin`. -/
def Storage.CreateSpin {σ : Type} (s : Storage σ) (ctx : Context) (userID combination : String)
    (result : SpinResult) (betAmount winAmount : Int) (w : World σ) :
    (Option Spin × Option Error) × World σ :=
  let spin : Spin :=
    { ID := "", UserID := userID, Combination := combination, Result := result,
      BetAmount := betAmount, WinAmount := winAmount, CreatedAt := 0 }
  match s.RunTx ctx
      (fun ctx (spin : Spin) w =>
        match Storage.withTx ctx
            (fun _ => Sql.insertSpin userID combination result betAmount winAmount)
            (fun tx => s.conn.insertSpin tx userID combination result betAmount winAmount) w with
        | (Except.ok (id, createdAt), w1) =>
            ((none, { spin with ID := id, CreatedAt := createdAt }), w1)
        | (Except.error err, w1) => ((some err, spin), w1))
      spin (w.emit (Event.call (Call.CreateSpin userID combination result betAmount winAmount))) with
  | ((some err, _), w1) => ((none, some err), w1)
  | ((none, spin), w1) => ((some spin, none), w1)

/-- Go `(*Storage).GetUserByLogin`: a missing row is `(nil, nil)`. -/
def Storage.GetUserByLogin {σ : Type} (s : Storage σ) (ctx : Context) (login : String)
    (w : World σ) : (Option User × Option Error) × World σ :=
  let usr : User :=
    { ID := "", FirstName := "", LastName := "", Login := "", Password := "", Balance := 0 }
  match s.RunTx ctx
      (fun ctx (usr : Option User) w =>
        match Storage.withTx ctx (fun _ => Sql.selectUser login)
            (fun tx => s.conn.selectUser tx login) w with
        | (Except.ok u, w1) => ((none, some u), w1)
        | (Except.error err, w1) =>
            if errorsIs err Error.pgxErrNoRows then ((none, none), w1)
            else ((some err, usr), w1))
      (some usr) (w.emit (Event.call (Call.GetUserByLogin login))) with
  | ((some err, _), w1) => ((none, some err), w1)
  | ((none, usr), w1) => ((usr, none), w1)

/-- The closure that `(*Storage).CreateUser` passes to `RunTx`; the captured variable is
`usr`, whose `ID` the insert fills in. -/
def Storage.createUserWork {σ : Type} (s : Storage σ)
    (login password firstName lastName : String) (balance : Int) : TxFn σ User :=
  fun ctx usr w =>
    match s.GetUserByLogin ctx login w with
    | ((_, some err), w1) =>
        ((some (Error.wrapped "failed to check if user already exists: %w" err), usr), w1)
    | ((some _, none), w1) =>
        ((some (Error.wrapped "cannot create user %q: %w" Error.storageErrUserExists), usr), w1)
    | ((none, none), w1) =>
        match Storage.withTx ctx
            (fun _ => Sql.insertUser firstName lastName login password balance)
            (fun tx => s.conn.insertUser tx firstName lastName login password balance) w1 with
        | (Except.ok id, w2) => ((none, { usr with ID := id }), w2)
        | (Except.error err, w2) => ((some err, usr), w2)

/-- Go `(*Storage).CreateUser`. -/
def Storage.CreateUser {σ : Type} (s : Storage σ) (ctx : Context)
    (login password firstName lastName : String) (balance : Int) (w : World σ) :
    (Option User × Option Error) × World σ :=
  let usr : User :=
    { ID := "", FirstName := firstName, LastName := lastName, Login := login,
      Password := password, Balance := balance }
  match s.RunTx ctx (s.createUserWork login password firstName lastName balance) usr
      (w.emit (Event.call (Call.CreateUser login password firstName lastName balance))) with
  | ((some err, _), w1) => ((none, some err), w1)
  | ((none, usr), w1) => ((some usr, none), w1)

/-! ## The services (`internal/service/slotservice.go`, `userservice.go`) -/

/-- Go `SlotService`, with `Storage` as the repository. -/
structure SlotService (σ : Type) where
  storage : Storage σ
  slotMachine : SlotMachine σ

/-- The closure that `(*SlotService).Spin` passes to `RunTx`; the captured variables are
`newBalance` and `spin`. -/
def SlotService.spinWork {σ : Type} (ss : SlotService σ) (user : User) (betAmount : Int) :
    TxFn σ (Int × Option SlotGame.Spin) :=
  fun ctx cap w =>
    match ss.storage.GetUserBalanceByLogin ctx user.Login w with
    | ((_, some err), w1) =>
        if errorsIs err Error.storageErrUserNotFound then
          ((some Error.ErrUserNotFound, cap), w1)
        else ((some err, cap), w1)
    | ((currentBalance, none), w1) =>
        if currentBalance < betAmount then ((some Error.ErrInsufficientFunds, cap), w1)
        else
          match ss.slotMachine.Spin betAmount w1 with
          | ((_, _, some err), w2) => ((some err, cap), w2)
          | ((combination, winAmount, none), w2) =>
              let newBalance := wrapInt64 (currentBalance + winAmount)
              match ss.storage.SetUserBalanceByLogin ctx user.Login newBalance w2 with
              | (some err, w3) => ((some err, (newBalance, cap.2)), w3)
              | (none, w3) =>
                  match ss.storage.CreateSpin ctx user.ID combination.String
                      combination.type betAmount winAmount w3 with
                  | ((spin, err), w4) => ((err, (newBalance, spin)), w4)

/-- Go `(*SlotService).Spin`. -/
def SlotService.Spin {σ : Type} (ss : SlotService σ) (ctx : Context) (user : User)
    (betAmount : Int) (w : World σ) :
    (Option SlotGame.Spin × Int × Option Error) × World σ :=
  match ss.storage.RunTx ctx (ss.spinWork user betAmount) (0, none) w with
  | ((some err, _), w1) => ((none, 0, some err), w1)
  | ((none, (newBalance, spin)), w1) => ((spin, newBalance, none), w1)

/-- Go `UserService`, with `Storage` as the repository (the `auth` collaborator is not
used by the wallet operations). -/
structure UserService (σ : Type) where
  storage : Storage σ

/-- The closure that `DepositFunds` passes to `RunTx`; the captured variable is
`balance`. -/
def UserService.depositWork {σ : Type} (us : UserService σ) (login : String) (amount : Int) :
    TxFn σ Int :=
  fun ctx balance w =>
    match us.storage.GetUserBalanceByLogin ctx login w with
    | ((_, some err), w1) =>
        if errorsIs err Error.storageErrUserNotFound then
          ((some Error.ErrUserNotFound, balance), w1)
        else ((some err, balance), w1)
    | ((currentBalance, none), w1) =>
        let balance := wrapInt64 (currentBalance + amount)
        match us.storage.SetUserBalanceByLogin ctx login balance w1 with
        | (some err, w2) =>
            if errorsIs err Error.storageErrUserNotFound then
              ((some Error.ErrUserNotFound, balance), w2)
            else ((some err, balance), w2)
        | (none, w2) => ((none, balance), w2)

/-- Go `(*UserService).DepositFunds`; the deferred log record is written last. -/
def UserService.DepositFunds {σ : Type} (us : UserService σ) (ctx : Context) (login : String)
    (amount : Int) (w : World σ) : (Int × Option Error) × World σ :=
  let r : (Int × Option Error) × World σ :=
    match us.storage.RunTx ctx (us.depositWork login amount) 0
        (w.emit (Event.logDebug "funds deposit started")) with
    | ((some err, _), w1) => ((0, some err), w1)
    | ((none, balance), w1) => ((balance, none), w1)
  (r.1, r.2.emit (Event.logDebug "funds deposit completed"))

/-- The closure that `WithdrawFunds` passes to `RunTx`; the captured variable is
`balance`. -/
def UserService.withdrawWork {σ : Type} (us : UserService σ) (login : String) (amount : Int) :
    TxFn σ Int :=
  fun ctx balance w =>
    match us.storage.GetUserBalanceByLogin ctx login w with
    | ((_, some err), w1) =>
        if errorsIs err Error.storageErrUserNotFound then
          ((some Error.ErrUserNotFound, balance), w1)
        else ((some err, balance), w1)
    | ((currentBalance, none), w1) =>
        if currentBalance < amount then ((some Error.ErrInsufficientFunds, balance), w1)
        else
          let balance := wrapInt64 (currentBalance - amount)
          match us.storage.SetUserBalanceByLogin ctx login balance w1 with
          | (some err, w2) =>
              if errorsIs err Error.storageErrUserNotFound then
                ((some Error.ErrUserNotFound, balance), w2)
              else ((some err, balance), w2)
          | (none, w2) => ((none, balance), w2)

/-- Go `(*UserService).WithdrawFunds`; the deferred log record is written last. -/
def UserService.WithdrawFunds {σ : Type} (us : UserService σ) (ctx : Context) (login : String)
    (amount : Int) (w : World σ) : (Int × Option Error) × World σ :=
  let r : (Int × Option Error) × World σ :=
    match us.storage.RunTx ctx (us.withdrawWork login amount) 0
        (w.emit (Event.logDebug "funds withdrawal started")) with
    | ((some err, _), w1) => ((0, some err), w1)
    | ((none, balance), w1) => ((balance, none), w1)
  (r.1, r.2.emit (Event.logDebug "funds withdrawal completed"))

/-! ## Reading a trace -/

/-- The repository calls recorded in a trace, in order. -/
def callsOf (trace : List Event) : List Call :=
  trace.filterMap (fun e => match e with
    | Event.call c => some c
    | _ => none)

/-- The calls on the connection and on transaction handles (`Begin`, `Commit`,
`Rollback`) recorded in a trace, in order. -/
def txEventsOf (trace : List Event) : List Event :=
  trace.filter (fun e => match e with
    | Event.begin => true
    | Event.commit _ => true
    | Event.rollback _ => true
    | _ => false)

/-- The statements sent to the store recorded in a trace, in order. -/
def sqlOf (trace : List Event) : List Sql :=
  trace.filterMap (fun e => match e with
    | Event.sql _ stmt => some stmt
    | _ => none)

/-- The number of generator invocations recorded in a trace. -/
def generateCount (trace : List Event) : Nat := trace.count Event.generate

/-- The trace `after` extends `before` by events among which there is no `Begin`,
`Commit` or `Rollback`. -/
def extendsQuietly (before after : List Event) : Prop :=
  ∃ mid : List Event, after = before ++ mid ∧ txEventsOf mid = []

/-! ## A transactional store

The laws a store obeys when writes become observable only on a successful `Commit`, and an
in-memory store with scripted failures that obeys them. -/

/-- The store `p` with generator `gen` is transactional for the observation `view` of
the committed data: only a `Commit` that succeeds changes what is observed. -/
structure Transactional {σ κ : Type} (p : Pool σ) (gen : GenerateFn σ) (view : σ → κ) : Prop where
  begin_keeps : ∀ s, view (p.Begin s).2 = view s
  rollback_keeps : ∀ tx s, view (p.Rollback tx s).2 = view s
  commit_error_keeps : ∀ tx s e, (p.Commit tx s).1 = some e → view (p.Commit tx s).2 = view s
  selectBalance_keeps : ∀ tx login s, view (p.selectBalance tx login s).2 = view s
  updateBalance_keeps : ∀ tx b login s, view (p.updateBalance tx b login s).2 = view s
  insertSpin_keeps : ∀ tx u c r b a s, view (p.insertSpin tx u c r b a s).2 = view s
  selectUser_keeps : ∀ tx login s, view (p.selectUser tx login s).2 = view s
  insertUser_keeps : ∀ tx f l g q b s, view (p.insertUser tx f l g q b s).2 = view s
  generate_keeps : ∀ s, view (gen s).2 = view s

/-- The two relations of the store, `user` and `spin_result`. -/
structure Db where
  users : List User
  spins : List Spin
  deriving DecidableEq, Repr

/-- An in-memory store: the committed relations, the working copy of every open
transaction, the next handle, the scripted outcomes of the coming store calls (`some e`
makes the call fail with `e`) and the scripted results of the coming generator calls. -/
structure MemStore where
  committed : Db
  pending : List (Tx × Db)
  nextTx : Nat
  faults : List (Option Error)
  draws : List (Combination × Option Error)
  deriving DecidableEq, Repr

/-- Consume the scripted outcome of one store call. -/
def MemStore.step (m : MemStore) : Option Error × MemStore :=
  match m.faults with
  | [] => (none, m)
  | f :: rest => (f, { m with faults := rest })

/-- The working copy of an open transaction. -/
def MemStore.working (m : MemStore) (tx : Tx) : Option Db := m.pending.lookup tx

/-- Replace the working copy of a transaction. -/
def MemStore.setWorking (m : MemStore) (tx : Tx) (db : Db) : MemStore :=
  { m with pending := m.pending.map (fun p => if p.1 = tx then (tx, db) else p) }

/-- Forget a transaction. -/
def MemStore.close (m : MemStore) (tx : Tx) : MemStore :=
  { m with pending := m.pending.filter (fun p => decide (p.1 ≠ tx)) }

/-- One statement of an open transaction: fails as scripted, or with a closed handle,
and otherwise runs `body` on the working copy. -/
def MemStore.statement {α : Type} (m : MemStore) (tx : Tx)
    (body : Db → Except Error α × Db) : Except Error α × MemStore :=
  match m.step with
  | (some e, m1) => (Except.error e, m1)
  | (none, m1) =>
      match m1.working tx with
      | none => (Except.error (Error.other "tx is closed"), m1)
      | some db =>
          let r := body db
          (r.1, m1.setWorking tx r.2)

/-- The in-memory store as a connection pool. -/
def memPool : Pool MemStore where
  Begin := fun m =>
    match m.step with
    | (some e, m1) => (Except.error e, m1)
    | (none, m1) =>
        (Except.ok m1.nextTx,
          { m1 with pending := (m1.nextTx, m1.committed) :: m1.pending, nextTx := m1.nextTx + 1 })
  Commit := fun tx m =>
    match m.step with
    | (some e, m1) => (some e, m1.close tx)
    | (none, m1) =>
        match m1.working tx with
        | none => (some (Error.other "tx is closed"), m1)
        | some db => (none, { (m1.close tx) with committed := db })
  Rollback := fun tx m =>
    match m.step with
    | (some e, m1) => (some e, m1.close tx)
    | (none, m1) =>
        match m1.working tx with
        | none => (some (Error.other "tx is closed"), m1)
        | some _ => (none, m1.close tx)
  selectBalance := fun tx login m =>
    m.statement tx (fun db =>
      match db.users.find? (fun u => decide (u.Login = login)) with
      | none => (Except.error Error.pgxErrNoRows, db)
      | some u => (Except.ok u.Balance, db))
  updateBalance := fun tx newBalance login m =>
    m.statement tx (fun db =>
      (Except.ok (db.users.filter (fun u => decide (u.Login = login))).length,
        { db with users := (db.users.map
            (fun u => if u.Login = login then { u with Balance := newBalance } else u)) }))
  insertSpin := fun tx userID combination result betAmount winAmount m =>
    m.statement tx (fun db =>
      let id := Nat.repr db.spins.length
      let createdAt := db.spins.length
      (Except.ok (id, createdAt),
        { db with spins := (db.spins ++
            [{ ID := id, UserID := userID, Combination := combination, Result := result,
               BetAmount := betAmount, WinAmount := winAmount, CreatedAt := createdAt }]) }))
  selectUser := fun tx login m =>
    m.statement tx (fun db =>
      match db.users.find? (fun u => decide (u.Login = login)) with
      | none => (Except.error Error.pgxErrNoRows, db)
      | some u => (Except.ok u, db))
  insertUser := fun tx firstName lastName login password balance m =>
    m.statement tx (fun db =>
      let id := Nat.repr db.users.length
      (Except.ok id,
        { db with users := (db.users ++
            [{ ID := id, FirstName := firstName, LastName := lastName, Login := login,
               Password := password, Balance := balance }]) }))

/-- The scripted generator of the in-memory store. -/
def memGenerate : GenerateFn MemStore := fun m =>
  match m.draws with
  | [] => ((⟨0, 0, 0⟩, some (Error.other "no entropy")), m)
  | d :: rest => (d, { m with draws := rest })

/-- The storage over the in-memory store. -/
def memStorage : Storage MemStore := { conn := memPool }

/-- The slot service over the in-memory store. -/
def memSlotService : SlotService MemStore :=
  { storage := memStorage, slotMachine := { generate := memGenerate } }

/-- The user service over the in-memory store. -/
def memUserService : UserService MemStore := { storage := memStorage }

/-- A store holding one account with the given login and balance and no history. -/
def memInit (login : String) (balance : Int) (faults : List (Option Error))
    (draws : List (Combination × Option Error)) : World MemStore :=
  { env :=
      { committed :=
          { users := [{ ID := "u1", FirstName := "", LastName := "", Login := login,
                        Password := "", Balance := balance }],
            spins := [] },
        pending := [], nextTx := 0, faults := faults, draws := draws },
    trace := [] }

/-- The account of the initial store of `memInit`. -/
def memUser (login : String) (balance : Int) : User :=
  { ID := "u1", FirstName := "", LastName := "", Login := login, Password := "",
    Balance := balance }

/-- The in-memory store in which the account disappears before the balance write: the
`UPDATE` succeeds and affects no row. -/
def memPoolVanished : Pool MemStore :=
  { memPool with updateBalance := fun _ _ _ m => (Except.ok 0, m) }

/-- A random source that replays the given values. -/
def replayRand : RandSource (List Nat) := fun max s =>
  match s with
  | [] => (Except.error (Error.other "no entropy"), [])
  | n :: rest => (Except.ok (n % max), rest)

/-! ## Theorems -/

/-! ### Arithmetic and classification lemmas -/

theorem wrapInt64_of_isInt64 {x : Int} (h : isInt64 x) : wrapInt64 x = x := by
  unfold isInt64 minInt64 maxInt64 at h
  unfold wrapInt64
  rw [Int.emod_eq_of_lt (by omega) (by omega)]
  omega

theorem Combination.type_eq (c : Combination) :
    c.type =
      if c.s0 = c.s1 ∧ c.s1 = c.s2 then SpinResult.SuperWin
      else if c.s0 = c.s1 ∨ c.s1 = c.s2 ∨ c.s0 = c.s2 then SpinResult.Win
      else SpinResult.Lose := by
  rcases c with ⟨a, b, d⟩
  simp only [Combination.type, Combination.toList, List.foldl, setInsert]
  by_cases hab : a = b <;> by_cases hbd : b = d <;> by_cases had : a = d <;>
    simp_all [eq_comm]

theorem Combination.image_get (c : Combination) :
    Finset.univ.image c.get = {c.s0, c.s1, c.s2} := by
  ext x
  simp [Fin.exists_fin_succ, Combination.get, eq_comm]

theorem Combination.type_eq_card (c : Combination) :
    c.type =
      match (Finset.univ.image c.get).card with
      | 1 => SpinResult.SuperWin
      | 2 => SpinResult.Win
      | _ => SpinResult.Lose := by
  rw [Combination.image_get, Combination.type_eq]
  rcases c with ⟨a, b, d⟩
  by_cases hab : a = b <;> by_cases hbd : b = d <;> by_cases had : a = d <;>
    simp_all [Finset.card_insert_of_not_mem, eq_comm]

/-! ### The slot machine -/

/-- C1 (counterexample): with the bet `2^62` and the generated combination `{5,7,7}`, a
Win, `SlotMachine.Spin` returns the win amount `-2^63`, which is not `2 * bet`. -/
theorem SlotMachine.spin_win_amount_overflow :
    (0 : Int) < 4611686018427387904 ∧ isInt64 4611686018427387904 ∧
    (⟨5, 7, 7⟩ : Combination).type = SpinResult.Win ∧
    (SlotMachine.Spin (⟨constGenerate ⟨5, 7, 7⟩ none⟩ : SlotMachine Unit) 4611686018427387904
        ⟨(), []⟩).1 = (⟨5, 7, 7⟩, -9223372036854775808, none) ∧
    (-9223372036854775808 : Int) ≠ 2 * 4611686018427387904 := by
  refine ⟨by decide, by decide, by decide, by decide, by decide⟩

/-- C1 (amended): for every `int64` bet `b > 0` and every combination `c` that the
generator returns without error, `SlotMachine.Spin b` returns `(c, w, nil)` with the
combination unchanged, where `w = -b` for a Lose, `w` is the `int64` product `2 * b` for a
Win and `10 * b` for a SuperWin, and these products are the exact ones whenever they do
not exceed the greatest `int64`. -/
theorem SlotMachine.spin_payout {σ : Type} (sm : SlotMachine σ) (b : Int) (w : World σ)
    (c : Combination) (hb : 0 < b) (hb64 : isInt64 b)
    (hgen : (sm.generate w.env).1 = (c, none)) :
    ∃ win : Int, (sm.Spin b w).1 = (c, win, none) ∧
      (c.type = SpinResult.Lose → win = -b) ∧
      (c.type = SpinResult.Win →
        win = wrapInt64 (2 * b) ∧ (2 * b ≤ maxInt64 → win = 2 * b)) ∧
      (c.type = SpinResult.SuperWin →
        win = wrapInt64 (10 * b) ∧ (10 * b ≤ maxInt64 → win = 10 * b)) := by
  have hnot : ¬ b ≤ 0 := by omega
  have hcall : sm.callGenerate w =
      ((c, none), { env := (sm.generate w.env).2, trace := w.trace ++ [Event.generate] }) := by
    simp [SlotMachine.callGenerate, hgen]
  unfold isInt64 minInt64 maxInt64 at hb64
  cases hty : c.type
  · refine ⟨wrapInt64 (-b), ?_, ?_, ?_, ?_⟩
    · simp [SlotMachine.Spin, hnot, hcall, hty]
    · intro _
      exact wrapInt64_of_isInt64 (by unfold isInt64 minInt64 maxInt64; omega)
    · intro h; cases h
    · intro h; cases h
  · refine ⟨wrapInt64 (2 * b), ?_, ?_, ?_, ?_⟩
    · simp [SlotMachine.Spin, hnot, hcall, hty]
    · intro h; cases h
    · intro _
      refine ⟨rfl, fun h => wrapInt64_of_isInt64 ?_⟩
      unfold isInt64 minInt64; unfold maxInt64 at *; omega
    · intro h; cases h
  · refine ⟨wrapInt64 (10 * b), ?_, ?_, ?_, ?_⟩
    · simp [SlotMachine.Spin, hnot, hcall, hty]
    · intro h; cases h
    · intro h; cases h
    · intro _
      refine ⟨rfl, fun h => wrapInt64_of_isInt64 ?_⟩
      unfold isInt64 minInt64; unfold maxInt64 at *; omega

/-- C1 (witness): the amended claim at the test case "super win": bet 100 on `{7,7,7}`. -/
theorem SlotMachine.spin_payout_witness :
    ∃ win : Int,
      (SlotMachine.Spin (⟨constGenerate ⟨7, 7, 7⟩ none⟩ : SlotMachine Unit) 100 ⟨(), []⟩).1 =
        (⟨7, 7, 7⟩, win, none) ∧
      ((⟨7, 7, 7⟩ : Combination).type = SpinResult.Lose → win = -100) ∧
      ((⟨7, 7, 7⟩ : Combination).type = SpinResult.Win →
        win = wrapInt64 (2 * 100) ∧ (2 * 100 ≤ maxInt64 → win = 2 * 100)) ∧
      ((⟨7, 7, 7⟩ : Combination).type = SpinResult.SuperWin →
        win = wrapInt64 (10 * 100) ∧ (10 * 100 ≤ maxInt64 → win = 10 * 100)) :=
  SlotMachine.spin_payout (⟨constGenerate ⟨7, 7, 7⟩ none⟩ : SlotMachine Unit) 100 ⟨(), []⟩ ⟨7, 7, 7⟩
    (by decide) (by decide) rfl

/-- C2: `Combination.Type` returns SuperWin exactly when the three symbols are equal, Win
exactly when exactly two distinct values occur, and Lose exactly when the symbols are
pairwise distinct, for all byte values. -/
theorem Combination.type_classification (c : Combination) :
    (c.type = SpinResult.SuperWin ↔ c.s0 = c.s1 ∧ c.s1 = c.s2) ∧
    (c.type = SpinResult.Win ↔ ({c.s0, c.s1, c.s2} : Finset Byte).card = 2) ∧
    (c.type = SpinResult.Lose ↔ c.s0 ≠ c.s1 ∧ c.s1 ≠ c.s2 ∧ c.s0 ≠ c.s2) := by
  rw [Combination.type_eq]
  rcases c with ⟨a, b, d⟩
  by_cases hab : a = b <;> by_cases hbd : b = d <;> by_cases had : a = d <;>
    simp_all [Finset.card_insert_of_not_mem, eq_comm]

/-- C3: `Combination.Type` is unchanged by every permutation of the three positions
combined with every injective renaming of the symbol values; `{5,7,7}`, `{7,5,7}` and
`{7,7,5}` are all Win. -/
theorem Combination.type_perm_rename (c : Combination) (p : Equiv.Perm (Fin 3))
    (f : Byte → Byte) (hf : Function.Injective f) :
    (Combination.ofFn (fun i => f (c.get (p i)))).type = c.type ∧
    (⟨5, 7, 7⟩ : Combination).type = SpinResult.Win ∧
    (⟨7, 5, 7⟩ : Combination).type = SpinResult.Win ∧
    (⟨7, 7, 5⟩ : Combination).type = SpinResult.Win := by
  refine ⟨?_, by decide, by decide, by decide⟩
  have hget : (Combination.ofFn (fun i => f (c.get (p i)))).get = fun i => f (c.get (p i)) := by
    funext i
    fin_cases i <;> rfl
  have himg : Finset.univ.image (fun i => f (c.get (p i))) =
      (Finset.univ.image c.get).image f := by
    ext x
    simp only [Finset.mem_image, Finset.mem_univ, true_and]
    constructor
    · rintro ⟨i, rfl⟩
      exact ⟨c.get (p i), ⟨p i, rfl⟩, rfl⟩
    · rintro ⟨y, ⟨j, rfl⟩, rfl⟩
      exact ⟨p.symm j, by simp⟩
  rw [Combination.type_eq_card, Combination.type_eq_card c, hget, himg,
    Finset.card_image_of_injective _ hf]

/-- C3 (witness): swapping the first two positions of `{5,7,7}` and renaming every
symbol `x` to `x + 1` gives `{8,6,8}`, again a Win. -/
theorem Combination.type_perm_rename_witness :
    (Combination.ofFn (fun i => (fun x : Byte => x + 1)
        ((⟨5, 7, 7⟩ : Combination).get (Equiv.swap (0 : Fin 3) 1 i)))).type =
      (⟨5, 7, 7⟩ : Combination).type ∧
    (⟨5, 7, 7⟩ : Combination).type = SpinResult.Win ∧
    (⟨7, 5, 7⟩ : Combination).type = SpinResult.Win ∧
    (⟨7, 7, 5⟩ : Combination).type = SpinResult.Win :=
  Combination.type_perm_rename ⟨5, 7, 7⟩ (Equiv.swap (0 : Fin 3) 1) (fun x : Byte => x + 1)
    (add_left_injective (1 : Byte))

/-- C4: for every bet `b ≤ 0` and every generator, `SlotMachine.Spin b` returns the zero
combination, the win amount 0 and an error that is `ErrInvalidBetAmount`, and leaves the
world as it was: the generator is not invoked. -/
theorem SlotMachine.spin_invalid_bet {σ : Type} (sm : SlotMachine σ) (b : Int) (w : World σ)
    (hb : b ≤ 0) :
    ∃ err : Error, sm.Spin b w = ((⟨0, 0, 0⟩, 0, some err), w) ∧
      errorsIs err Error.ErrInvalidBetAmount = true ∧
      Event.generate ∉ (sm.Spin b w).2.trace.drop w.trace.length := by
  refine ⟨Error.wrapped "%w: bet amount must be positive" Error.ErrInvalidBetAmount, ?_, ?_, ?_⟩
  · simp [SlotMachine.Spin, hb]
  · simp [errorsIs]
  · simp [SlotMachine.Spin, hb]

/-- C4 (witness): the test case "invalid bet amount", bet 0, with a generator that would
return `{7,7,7}`. -/
theorem SlotMachine.spin_invalid_bet_witness :
    ∃ err : Error,
      SlotMachine.Spin (⟨constGenerate ⟨7, 7, 7⟩ none⟩ : SlotMachine Unit) 0 ⟨(), []⟩ =
        ((⟨0, 0, 0⟩, 0, some err), ⟨(), []⟩) ∧
      errorsIs err Error.ErrInvalidBetAmount = true ∧
      Event.generate ∉
        (SlotMachine.Spin (⟨constGenerate ⟨7, 7, 7⟩ none⟩ : SlotMachine Unit) 0 ⟨(), []⟩).2.trace.drop
          (⟨(), []⟩ : World Unit).trace.length :=
  SlotMachine.spin_invalid_bet (⟨constGenerate ⟨7, 7, 7⟩ none⟩ : SlotMachine Unit) 0 ⟨(), []⟩ (by decide)


/-! ### The transaction runner -/

theorem Storage.runTxOpen_some {σ : Type} (s : Storage σ) (ctx : Context) (w : World σ)
    (tx : Tx) (h : txFromContext ctx = some tx) :
    s.runTxOpen ctx w = (Except.ok (tx, false, ctx), w) := by
  simp [Storage.runTxOpen, h]

theorem Storage.runTxOpen_ok {σ : Type} (s : Storage σ) (ctx : Context) (w : World σ)
    (tx : Tx) (txOwner : Bool) (ctx1 : Context) (w1 : World σ)
    (h : s.runTxOpen ctx w = (Except.ok (tx, txOwner, ctx1), w1)) :
    txFromContext ctx1 = some tx ∧
    (txOwner = true ↔ txFromContext ctx = none) ∧
    (txOwner = true → ctx1 = ctx.WithValue tx ∧ w1.trace = w.trace ++ [Event.begin] ∧
      s.conn.Begin w.env = (Except.ok tx, w1.env)) ∧
    (txOwner = false → ctx1 = ctx ∧ w1 = w) := by
  unfold Storage.runTxOpen at h
  cases hctx : txFromContext ctx with
  | none =>
      rw [hctx] at h
      simp only [Storage.connBegin] at h
      cases hb : s.conn.Begin w.env with
      | mk r env1 =>
        rw [hb] at h
        cases r with
        | error err => simp at h
        | ok t =>
          simp only [Prod.mk.injEq, Except.ok.injEq] at h
          obtain ⟨⟨rfl, rfl, rfl⟩, rfl⟩ := h
          simp [txFromContext, Context.WithValue]
  | some t =>
      rw [hctx] at h
      simp only [Prod.mk.injEq, Except.ok.injEq] at h
      obtain ⟨⟨rfl, rfl, rfl⟩, rfl⟩ := h
      simp [hctx]

theorem Storage.runTx_some {σ κ : Type} (s : Storage σ) (ctx : Context) (f : TxFn σ κ) (k : κ)
    (w : World σ) (tx : Tx) (h : txFromContext ctx = some tx) :
    s.RunTx ctx f k w = f ctx k w := by
  unfold Storage.RunTx
  rw [Storage.runTxOpen_some s ctx w tx h]
  rcases hf : f ctx k w with ⟨⟨_ | err, k2⟩, w2⟩ <;> simp [hf]

theorem Storage.runTxOpen_trace {σ : Type} (s : Storage σ) (ctx : Context) (w : World σ)
    (tx : Tx) (txOwner : Bool) (ctx1 : Context) (w1 : World σ)
    (h : s.runTxOpen ctx w = (Except.ok (tx, txOwner, ctx1), w1)) :
    w1.trace = w.trace ++ (if txOwner then [Event.begin] else []) := by
  have h2 := Storage.runTxOpen_ok s ctx w tx txOwner ctx1 w1 h
  cases txOwner with
  | false => simp [(h2.2.2.2 rfl).2]
  | true => simpa using (h2.2.2.1 rfl).2.1

/-- C9: when the work function of a `RunTx` call returns an error `e`, `RunTx` returns
exactly `e` (with the captured variables as the work function left them); `txOwner` holds
exactly when the context carried no handle, in which case this call issued the `Begin`;
the calls issued after the work function are one `Rollback` if `txOwner` and none
otherwise, never a `Commit`; and a failing `Rollback` only adds a log record. -/
theorem Storage.runTx_work_error {σ κ : Type} (s : Storage σ) (ctx : Context) (f : TxFn σ κ)
    (k : κ) (w : World σ) (tx : Tx) (txOwner : Bool) (ctx1 : Context) (w1 : World σ)
    (e : Error) (k2 : κ) (w2 : World σ)
    (hopen : s.runTxOpen ctx w = (Except.ok (tx, txOwner, ctx1), w1))
    (hwork : f ctx1 k w1 = ((some e, k2), w2)) :
    (s.RunTx ctx f k w).1 = (some e, k2) ∧
    (txOwner = true ↔ txFromContext ctx = none) ∧
    w1.trace = w.trace ++ (if txOwner then [Event.begin] else []) ∧
    (∃ rest : List Event,
      (s.RunTx ctx f k w).2.trace = w2.trace ++ rest ∧
      txEventsOf rest = (if txOwner then [Event.rollback tx] else [])) ∧
    (∀ rbErr : Error, txOwner = true → (s.conn.Rollback tx w2.env).1 = some rbErr →
      (s.RunTx ctx f k w).1 = (some e, k2) ∧
      (s.RunTx ctx f k w).2.trace = w2.trace ++
        [Event.rollback tx, Event.logError "failed to rollback transaction" rbErr]) := by
  have hown := (Storage.runTxOpen_ok s ctx w tx txOwner ctx1 w1 hopen).2.1
  have htr := Storage.runTxOpen_trace s ctx w tx txOwner ctx1 w1 hopen
  unfold Storage.RunTx
  rw [hopen]
  simp only [hwork]
  cases txOwner with
  | false =>
      refine ⟨rfl, hown, htr, ⟨[], by simp, by simp [txEventsOf]⟩, ?_⟩
      intro rbErr h
      cases h
  | true =>
      simp only [if_true, Storage.txRollback]
      cases hrb : (s.conn.Rollback tx w2.env).1 with
      | none =>
          refine ⟨rfl, by simpa using hown, by simpa using htr,
            ⟨[Event.rollback tx], rfl, by simp [txEventsOf]⟩, ?_⟩
          intro rbErr _ h
          cases h
      | some rbErr =>
          refine ⟨rfl, by simpa using hown, by simpa using htr,
            ⟨[Event.rollback tx, Event.logError "failed to rollback transaction" rbErr],
              by simp [World.emit], by simp [txEventsOf]⟩, ?_⟩
          intro rbErr2 _ h
          cases h
          exact ⟨rfl, by simp [World.emit]⟩

/-- C9 (witness): on the in-memory store, from a context without a handle, with a work
function that fails with "boom" and a scripted rollback failure. -/
theorem Storage.runTx_work_error_witness :
    (memStorage.RunTx ⟨none⟩ (fun _ (k : Unit) w => ((some (Error.other "boom"), k), w)) ()
        (memInit "bob" 40 [none, some (Error.other "rb")] [])).1 =
      (some (Error.other "boom"), ()) ∧
    (true = true ↔ txFromContext ⟨none⟩ = none) ∧
    (memStorage.runTxOpen ⟨none⟩
        (memInit "bob" 40 [none, some (Error.other "rb")] [])).2.trace =
      (memInit "bob" 40 [none, some (Error.other "rb")] []).trace ++
        (if true then [Event.begin] else []) ∧
    (∃ rest : List Event,
      (memStorage.RunTx ⟨none⟩ (fun _ (k : Unit) w => ((some (Error.other "boom"), k), w)) ()
          (memInit "bob" 40 [none, some (Error.other "rb")] [])).2.trace =
        (memStorage.runTxOpen ⟨none⟩
          (memInit "bob" 40 [none, some (Error.other "rb")] [])).2.trace ++ rest ∧
      txEventsOf rest = (if true then [Event.rollback 0] else [])) ∧
    (∀ rbErr : Error, true = true →
      (memStorage.conn.Rollback 0 (memStorage.runTxOpen ⟨none⟩
          (memInit "bob" 40 [none, some (Error.other "rb")] [])).2.env).1 = some rbErr →
      (memStorage.RunTx ⟨none⟩ (fun _ (k : Unit) w => ((some (Error.other "boom"), k), w)) ()
          (memInit "bob" 40 [none, some (Error.other "rb")] [])).1 =
        (some (Error.other "boom"), ()) ∧
      (memStorage.RunTx ⟨none⟩ (fun _ (k : Unit) w => ((some (Error.other "boom"), k), w)) ()
          (memInit "bob" 40 [none, some (Error.other "rb")] [])).2.trace =
        (memStorage.runTxOpen ⟨none⟩
          (memInit "bob" 40 [none, some (Error.other "rb")] [])).2.trace ++
          [Event.rollback 0, Event.logError "failed to rollback transaction" rbErr]) :=
  Storage.runTx_work_error memStorage ⟨none⟩
    (fun _ (k : Unit) w => ((some (Error.other "boom"), k), w)) ()
    (memInit "bob" 40 [none, some (Error.other "rb")] []) 0 true ⟨some 0⟩
    (memStorage.runTxOpen ⟨none⟩ (memInit "bob" 40 [none, some (Error.other "rb")] [])).2
    (Error.other "boom") ()
    (memStorage.runTxOpen ⟨none⟩ (memInit "bob" 40 [none, some (Error.other "rb")] [])).2
    rfl rfl

/-- C10: a `RunTx` call on a context without a transaction handle whose `Begin` succeeds
with `tx` calls `Begin` once, runs the work function on the derived context, from which
`txFromContext` returns `tx`, and, when the work function succeeds, calls `Commit` on `tx`
once and returns exactly the result of that `Commit`. -/
theorem Storage.runTx_owner_commit {σ κ : Type} (s : Storage σ) (ctx : Context) (f : TxFn σ κ)
    (k : κ) (w : World σ) (tx : Tx) (env1 : σ) (k2 : κ) (w2 : World σ)
    (hctx : txFromContext ctx = none)
    (hbegin : s.conn.Begin w.env = (Except.ok tx, env1))
    (hwork : f (ctx.WithValue tx) k { env := env1, trace := w.trace ++ [Event.begin] } =
      ((none, k2), w2)) :
    s.runTxOpen ctx w =
      (Except.ok (tx, true, ctx.WithValue tx),
        { env := env1, trace := w.trace ++ [Event.begin] }) ∧
    txFromContext (ctx.WithValue tx) = some tx ∧
    s.RunTx ctx f k w =
      (((s.conn.Commit tx w2.env).1, k2),
        { env := (s.conn.Commit tx w2.env).2, trace := w2.trace ++ [Event.commit tx] }) := by
  have hopen : s.runTxOpen ctx w =
      (Except.ok (tx, true, ctx.WithValue tx),
        { env := env1, trace := w.trace ++ [Event.begin] }) := by
    simp [Storage.runTxOpen, hctx, Storage.connBegin, hbegin]
  refine ⟨hopen, rfl, ?_⟩
  unfold Storage.RunTx
  rw [hopen]
  simp only [hwork, if_true, Storage.txCommit]

/-- C10 (witness): on the in-memory store with a scripted commit failure, the work
function succeeds and `RunTx` returns the commit error. -/
theorem Storage.runTx_owner_commit_witness :
    memStorage.runTxOpen ⟨none⟩ (memInit "bob" 40 [none, some (Error.other "commit")] []) =
      (Except.ok (0, true, (⟨none⟩ : Context).WithValue 0),
        { env := (memPool.Begin
            (memInit "bob" 40 [none, some (Error.other "commit")] []).env).2,
          trace := [] ++ [Event.begin] }) ∧
    txFromContext ((⟨none⟩ : Context).WithValue 0) = some 0 ∧
    (memStorage.RunTx ⟨none⟩ (fun _ (k : Unit) w => ((none, k), w)) ()
        (memInit "bob" 40 [none, some (Error.other "commit")] [])).1 =
      (some (Error.other "commit"), ()) :=
  have h := Storage.runTx_owner_commit memStorage ⟨none⟩ (fun _ (k : Unit) w => ((none, k), w)) ()
    (memInit "bob" 40 [none, some (Error.other "commit")] []) 0
    (memPool.Begin (memInit "bob" 40 [none, some (Error.other "commit")] []).env).2 ()
    { env := (memPool.Begin (memInit "bob" 40 [none, some (Error.other "commit")] []).env).2,
      trace := [] ++ [Event.begin] }
    rfl rfl rfl
  ⟨h.1, h.2.1, by rw [h.2.2]; rfl⟩


/-! ### Repository methods inside an open transaction -/

theorem Storage.getUserBalanceByLogin_tx {σ : Type} (s : Storage σ) (ctx : Context)
    (login : String) (w : World σ) (tx : Tx) (h : txFromContext ctx = some tx) :
    s.GetUserBalanceByLogin ctx login w =
      match s.conn.selectBalance tx login w.env with
      | (Except.ok b, e) =>
          ((b, none), { env := e, trace := w.trace ++
            [Event.call (Call.GetUserBalanceByLogin login), Event.sql tx (Sql.selectBalance login)] })
      | (Except.error err, e) =>
          ((0, some (if errorsIs err Error.pgxErrNoRows then Error.storageErrUserNotFound else err)),
            { env := e, trace := w.trace ++
              [Event.call (Call.GetUserBalanceByLogin login),
               Event.sql tx (Sql.selectBalance login)] }) := by
  unfold Storage.GetUserBalanceByLogin
  rw [Storage.runTx_some s ctx _ _ _ tx h]
  simp only [Storage.withTx, h, World.emit]
  rcases hq : s.conn.selectBalance tx login w.env with ⟨_ | b, e⟩
  · simp only [List.append_assoc, List.singleton_append]
    split_ifs <;> rfl
  · simp

theorem Storage.setUserBalanceByLogin_tx {σ : Type} (s : Storage σ) (ctx : Context)
    (login : String) (newBalance : Int) (w : World σ) (tx : Tx)
    (h : txFromContext ctx = some tx) :
    s.SetUserBalanceByLogin ctx login newBalance w =
      match s.conn.updateBalance tx newBalance login w.env with
      | (Except.error err, e) =>
          (some (Error.wrapped "error updating user balance: %w" err),
            { env := e, trace := w.trace ++
              [Event.call (Call.SetUserBalanceByLogin login newBalance),
               Event.sql tx (Sql.updateBalance newBalance login)] })
      | (Except.ok rowsAffected, e) =>
          (if rowsAffected = 0 then some Error.storageErrUserNotFound else none,
            { env := e, trace := w.trace ++
              [Event.call (Call.SetUserBalanceByLogin login newBalance),
               Event.sql tx (Sql.updateBalance newBalance login)] }) := by
  unfold Storage.SetUserBalanceByLogin
  rw [Storage.runTx_some s ctx _ _ _ tx h]
  simp only [Storage.withTx, h, World.emit]
  rcases hq : s.conn.updateBalance tx newBalance login w.env with ⟨_ | n, e⟩
  · simp
  · simp only [List.append_assoc, List.singleton_append]
    split_ifs <;> rfl

theorem Storage.createSpin_tx {σ : Type} (s : Storage σ) (ctx : Context)
    (userID combination : String) (result : SpinResult) (betAmount winAmount : Int)
    (w : World σ) (tx : Tx) (h : txFromContext ctx = some tx) :
    s.CreateSpin ctx userID combination result betAmount winAmount w =
      match s.conn.insertSpin tx userID combination result betAmount winAmount w.env with
      | (Except.ok (id, createdAt), e) =>
          ((some { ID := id, UserID := userID, Combination := combination, Result := result,
                   BetAmount := betAmount, WinAmount := winAmount, CreatedAt := createdAt },
            none),
            { env := e, trace := w.trace ++
              [Event.call (Call.CreateSpin userID combination result betAmount winAmount),
               Event.sql tx (Sql.insertSpin userID combination result betAmount winAmount)] })
      | (Except.error err, e) =>
          ((none, some err),
            { env := e, trace := w.trace ++
              [Event.call (Call.CreateSpin userID combination result betAmount winAmount),
               Event.sql tx (Sql.insertSpin userID combination result betAmount winAmount)] }) := by
  unfold Storage.CreateSpin
  simp only [Storage.runTx_some s ctx _ _ _ tx h, Storage.withTx, h, World.emit]
  rcases hq : s.conn.insertSpin tx userID combination result betAmount winAmount w.env with
    ⟨_ | ⟨id, t⟩, e⟩
  · simp
  · simp


/-! ### The shape of a `RunTx` run -/

theorem Storage.runTx_begin_error {σ κ : Type} (s : Storage σ) (ctx : Context) (f : TxFn σ κ)
    (k : κ) (w : World σ) (err : Error) (w1 : World σ)
    (hopen : s.runTxOpen ctx w = (Except.error err, w1)) :
    s.RunTx ctx f k w = ((some err, k), w1) ∧
    w1 = { env := (s.conn.Begin w.env).2, trace := w.trace ++ [Event.begin] } := by
  refine ⟨by simp [Storage.RunTx, hopen], ?_⟩
  unfold Storage.runTxOpen at hopen
  cases hctx : txFromContext ctx with
  | none =>
      rw [hctx] at hopen
      simp only [Storage.connBegin] at hopen
      rcases hb : s.conn.Begin w.env with ⟨_ | t, env1⟩
      · rw [hb] at hopen
        simp only [Prod.mk.injEq] at hopen
        exact hopen.2.symm
      · rw [hb] at hopen
        simp at hopen
  | some t =>
      rw [hctx] at hopen
      simp at hopen

theorem Storage.runTx_error_shape {σ κ : Type} (s : Storage σ) (ctx : Context) (f : TxFn σ κ)
    (k : κ) (w : World σ) (tx : Tx) (txOwner : Bool) (ctx1 : Context) (w1 : World σ)
    (e : Error) (k2 : κ) (w2 : World σ)
    (hopen : s.runTxOpen ctx w = (Except.ok (tx, txOwner, ctx1), w1))
    (hwork : f ctx1 k w1 = ((some e, k2), w2)) :
    ∃ (rest : List Event) (env3 : σ),
      s.RunTx ctx f k w = ((some e, k2), { env := env3, trace := w2.trace ++ rest }) ∧
      ((txOwner = false ∧ rest = [] ∧ env3 = w2.env) ∨
        (txOwner = true ∧ env3 = (s.conn.Rollback tx w2.env).2 ∧
          (rest = [Event.rollback tx] ∨
            ∃ r, rest = [Event.rollback tx,
              Event.logError "failed to rollback transaction" r]))) := by
  unfold Storage.RunTx
  rw [hopen]
  simp only [hwork]
  cases txOwner with
  | false => exact ⟨[], w2.env, by simp, Or.inl ⟨rfl, rfl, rfl⟩⟩
  | true =>
      simp only [if_true, Storage.txRollback]
      cases hrb : (s.conn.Rollback tx w2.env).1 with
      | none =>
          exact ⟨[Event.rollback tx], _, rfl, Or.inr ⟨by simp, rfl, Or.inl rfl⟩⟩
      | some rbErr =>
          exact ⟨[Event.rollback tx, Event.logError "failed to rollback transaction" rbErr], _,
            by simp [World.emit], Or.inr ⟨by simp, rfl, Or.inr ⟨rbErr, rfl⟩⟩⟩

theorem Storage.runTx_ok_shape {σ κ : Type} (s : Storage σ) (ctx : Context) (f : TxFn σ κ)
    (k : κ) (w : World σ) (tx : Tx) (txOwner : Bool) (ctx1 : Context) (w1 : World σ)
    (k2 : κ) (w2 : World σ)
    (hopen : s.runTxOpen ctx w = (Except.ok (tx, txOwner, ctx1), w1))
    (hwork : f ctx1 k w1 = ((none, k2), w2)) :
    (txOwner = false ∧ s.RunTx ctx f k w = ((none, k2), w2)) ∨
    (txOwner = true ∧ s.RunTx ctx f k w =
      (((s.conn.Commit tx w2.env).1, k2),
        { env := (s.conn.Commit tx w2.env).2, trace := w2.trace ++ [Event.commit tx] })) := by
  unfold Storage.RunTx
  rw [hopen]
  simp only [hwork]
  cases txOwner with
  | false => exact Or.inl ⟨rfl, by simp⟩
  | true => exact Or.inr ⟨rfl, by simp [Storage.txCommit]⟩

/-! ### The slot service -/

/-- C6: when the balance read of `SlotService.Spin` returns `B` and `B < betAmount`, the
call fails with `ErrInsufficientFunds`; of the repository only the balance read is
called, the only statement sent to the store is that read, and the generator is not
invoked. -/
theorem SlotService.spin_insufficient_funds {σ : Type} (ss : SlotService σ) (ctx : Context)
    (user : User) (betAmount : Int) (w : World σ) (tx : Tx) (txOwner : Bool) (ctx1 : Context)
    (w1 : World σ) (B : Int) (e2 : σ)
    (hopen : ss.storage.runTxOpen ctx w = (Except.ok (tx, txOwner, ctx1), w1))
    (hread : ss.storage.conn.selectBalance tx user.Login w1.env = (Except.ok B, e2))
    (hlt : B < betAmount) :
    (ss.Spin ctx user betAmount w).1 = (none, 0, some Error.ErrInsufficientFunds) ∧
    ∃ suffix : List Event,
      (ss.Spin ctx user betAmount w).2.trace = w.trace ++ suffix ∧
      generateCount suffix = 0 ∧
      callsOf suffix = [Call.GetUserBalanceByLogin user.Login] ∧
      sqlOf suffix = [Sql.selectBalance user.Login] := by
  have hctx1 := (Storage.runTxOpen_ok _ ctx w tx txOwner ctx1 w1 hopen).1
  have htr := Storage.runTxOpen_trace _ ctx w tx txOwner ctx1 w1 hopen
  have hwork : ss.spinWork user betAmount ctx1 (0, none) w1 =
      ((some Error.ErrInsufficientFunds, (0, none)),
        { env := e2, trace := w1.trace ++
          [Event.call (Call.GetUserBalanceByLogin user.Login),
           Event.sql tx (Sql.selectBalance user.Login)] }) := by
    simp [SlotService.spinWork, Storage.getUserBalanceByLogin_tx _ ctx1 _ _ tx hctx1, hread, hlt]
  obtain ⟨rest, env3, hrun, hshape⟩ :=
    Storage.runTx_error_shape _ ctx _ _ w tx txOwner ctx1 w1 _ _ _ hopen hwork
  unfold SlotService.Spin
  rw [hrun]
  refine ⟨rfl, (if txOwner then [Event.begin] else []) ++
    [Event.call (Call.GetUserBalanceByLogin user.Login),
     Event.sql tx (Sql.selectBalance user.Login)] ++ rest, ?_, ?_, ?_, ?_⟩
  · simp [htr]
  all_goals
    rcases hshape with ⟨rfl, rfl, -⟩ | ⟨rfl, -, rfl | ⟨r, rfl⟩⟩ <;>
      simp [generateCount, callsOf, sqlOf]

/-- C6 (witness): end-to-end scenario 3, balance 40 and bet 50. -/
theorem SlotService.spin_insufficient_funds_witness :
    (memSlotService.Spin ⟨none⟩ (memUser "bob" 40) 50
        (memInit "bob" 40 [] [(⟨5, 6, 7⟩, none)])).1 =
      (none, 0, some Error.ErrInsufficientFunds) ∧
    ∃ suffix : List Event,
      (memSlotService.Spin ⟨none⟩ (memUser "bob" 40) 50
          (memInit "bob" 40 [] [(⟨5, 6, 7⟩, none)])).2.trace =
        (memInit "bob" 40 [] [(⟨5, 6, 7⟩, none)]).trace ++ suffix ∧
      generateCount suffix = 0 ∧
      callsOf suffix = [Call.GetUserBalanceByLogin (memUser "bob" 40).Login] ∧
      sqlOf suffix = [Sql.selectBalance (memUser "bob" 40).Login] :=
  SlotService.spin_insufficient_funds memSlotService ⟨none⟩ (memUser "bob" 40) 50
    (memInit "bob" 40 [] [(⟨5, 6, 7⟩, none)]) 0 true ⟨some 0⟩
    (memStorage.runTxOpen ⟨none⟩ (memInit "bob" 40 [] [(⟨5, 6, 7⟩, none)])).2 40
    (memPool.selectBalance 0 "bob"
      (memStorage.runTxOpen ⟨none⟩ (memInit "bob" 40 [] [(⟨5, 6, 7⟩, none)])).2.env).2
    rfl rfl (by decide)


theorem SlotMachine.spin_ok_inv {σ : Type} (sm : SlotMachine σ) (b : Int) (w : World σ)
    (c : Combination) (win : Int) (w2 : World σ)
    (h : sm.Spin b w = ((c, win, none), w2)) :
    0 < b ∧ (sm.generate w.env).1 = (c, none) ∧
    w2 = { env := (sm.generate w.env).2, trace := w.trace ++ [Event.generate] } ∧
    win = (match c.type with
      | SpinResult.Lose => wrapInt64 (-b)
      | SpinResult.Win => wrapInt64 (2 * b)
      | SpinResult.SuperWin => wrapInt64 (10 * b)) := by
  unfold SlotMachine.Spin at h
  by_cases hb : b ≤ 0
  · simp [hb] at h
  · simp only [hb, if_false, SlotMachine.callGenerate] at h
    rcases hg : sm.generate w.env with ⟨⟨c0, _ | err⟩, env2⟩
    · rw [hg] at h
      simp only [Prod.mk.injEq] at h
      obtain ⟨⟨rfl, rfl, -⟩, rfl⟩ := h
      exact ⟨by omega, rfl, rfl, rfl⟩
    · rw [hg] at h
      simp at h

theorem SlotService.spinWork_nonpositive {σ : Type} (ss : SlotService σ) (user : User)
    (betAmount : Int) (ctx : Context) (cap : Int × Option SlotGame.Spin) (w : World σ) (tx : Tx)
    (hb : betAmount ≤ 0) (hctx : txFromContext ctx = some tx) :
    ∃ e : Error,
      ss.spinWork user betAmount ctx cap w =
        ((some e, cap),
          { env := (ss.storage.conn.selectBalance tx user.Login w.env).2,
            trace := w.trace ++ [Event.call (Call.GetUserBalanceByLogin user.Login),
              Event.sql tx (Sql.selectBalance user.Login)] }) ∧
      (∀ B : Int, (ss.storage.conn.selectBalance tx user.Login w.env).1 = Except.ok B →
        ¬ B < betAmount → errorsIs e Error.ErrInvalidBetAmount = true) := by
  unfold SlotService.spinWork
  rw [Storage.getUserBalanceByLogin_tx _ ctx _ _ tx hctx]
  rcases hq : ss.storage.conn.selectBalance tx user.Login w.env with ⟨err | B, e2⟩
  · by_cases hnf : errorsIs (if errorsIs err Error.pgxErrNoRows = true then
        Error.storageErrUserNotFound else err) Error.storageErrUserNotFound = true
    · exact ⟨Error.ErrUserNotFound, by simp [hnf], by intro B h; cases h⟩
    · exact ⟨_, by simp only [hnf]; rfl, by intro B h; cases h⟩
  · by_cases hlt : B < betAmount
    · refine ⟨Error.ErrInsufficientFunds, by simp [hlt], ?_⟩
      intro B2 h hn
      simp only [Except.ok.injEq] at h
      subst h
      exact absurd hlt hn
    · exact ⟨Error.wrapped "%w: bet amount must be positive" Error.ErrInvalidBetAmount,
        by simp [hlt, SlotMachine.Spin, hb], by intro _ _ _; simp [errorsIs]⟩

/-- C8 (counterexample): with bet 0 on an account holding 100, `SlotService.Spin` opens a
transaction and reads the balance before the bet is rejected; for a login without an
account the same bet fails with `ErrUserNotFound`, which is not `ErrInvalidBetAmount`. -/
theorem SlotService.spin_zero_bet_touches_storage :
    (memSlotService.Spin ⟨none⟩ (memUser "bob" 100) 0 (memInit "bob" 100 [] [])).2.trace =
      [Event.begin, Event.call (Call.GetUserBalanceByLogin "bob"),
       Event.sql 0 (Sql.selectBalance "bob"), Event.rollback 0] ∧
    (memSlotService.Spin ⟨none⟩ (memUser "eve" 100) 0 (memInit "bob" 100 [] [])).1 =
      (none, 0, some Error.ErrUserNotFound) ∧
    errorsIs Error.ErrUserNotFound Error.ErrInvalidBetAmount = false := by
  refine ⟨by rfl, by rfl, by rfl⟩

/-- C8 (amended): for every user and every bet amount that is 0 or negative,
`SlotService.Spin` fails, never invokes the generator, calls no repository method other
than the balance read and sends no statement other than that read; when the balance read
returns a balance not below the bet, the error is `ErrInvalidBetAmount`. -/
theorem SlotService.spin_nonpositive_bet {σ : Type} (ss : SlotService σ) (ctx : Context)
    (user : User) (betAmount : Int) (w : World σ) (hb : betAmount ≤ 0) :
    (∃ err : Error, (ss.Spin ctx user betAmount w).1 = (none, 0, some err)) ∧
    (∃ suffix : List Event,
      (ss.Spin ctx user betAmount w).2.trace = w.trace ++ suffix ∧
      generateCount suffix = 0 ∧
      (∀ c ∈ callsOf suffix, c = Call.GetUserBalanceByLogin user.Login) ∧
      (∀ q ∈ sqlOf suffix, q = Sql.selectBalance user.Login)) ∧
    (∀ (tx : Tx) (txOwner : Bool) (ctx1 : Context) (w1 : World σ) (B : Int) (e2 : σ),
      ss.storage.runTxOpen ctx w = (Except.ok (tx, txOwner, ctx1), w1) →
      ss.storage.conn.selectBalance tx user.Login w1.env = (Except.ok B, e2) →
      ¬ B < betAmount →
      ∃ err : Error, (ss.Spin ctx user betAmount w).1 = (none, 0, some err) ∧
        errorsIs err Error.ErrInvalidBetAmount = true) := by
  rcases hopen : ss.storage.runTxOpen ctx w with ⟨err | ⟨tx, txOwner, ctx1⟩, w1⟩
  · obtain ⟨hrun, hw1⟩ := Storage.runTx_begin_error ss.storage ctx
      (ss.spinWork user betAmount) (0, none) w err w1 hopen
    refine ⟨⟨err, by simp [SlotService.Spin, hrun]⟩,
      ⟨[Event.begin], by simp [SlotService.Spin, hrun, hw1], by simp [generateCount],
        by simp [callsOf], by simp [sqlOf]⟩, ?_⟩
    intro tx txOwner ctx1 w1' B e2 h
    simp at h
  · have hctx1 := (Storage.runTxOpen_ok _ ctx w tx txOwner ctx1 w1 hopen).1
    have htr := Storage.runTxOpen_trace _ ctx w tx txOwner ctx1 w1 hopen
    obtain ⟨e, hwork, hkind⟩ :=
      SlotService.spinWork_nonpositive ss user betAmount ctx1 (0, none) w1 tx hb hctx1
    obtain ⟨rest, env3, hrun, hshape⟩ :=
      Storage.runTx_error_shape _ ctx _ _ w tx txOwner ctx1 w1 _ _ _ hopen hwork
    have hres : (ss.Spin ctx user betAmount w).1 = (none, 0, some e) := by
      simp [SlotService.Spin, hrun]
    refine ⟨⟨e, hres⟩, ⟨(if txOwner then [Event.begin] else []) ++
      [Event.call (Call.GetUserBalanceByLogin user.Login),
       Event.sql tx (Sql.selectBalance user.Login)] ++ rest, ?_, ?_, ?_, ?_⟩, ?_⟩
    · simp [SlotService.Spin, hrun, htr]
    · rcases hshape with ⟨rfl, rfl, -⟩ | ⟨rfl, -, rfl | ⟨r, rfl⟩⟩ <;> simp [generateCount]
    · rcases hshape with ⟨rfl, rfl, -⟩ | ⟨rfl, -, rfl | ⟨r, rfl⟩⟩ <;> simp [callsOf]
    · rcases hshape with ⟨rfl, rfl, -⟩ | ⟨rfl, -, rfl | ⟨r, rfl⟩⟩ <;> simp [sqlOf]
    · intro tx' txOwner' ctx1' w1' B e2 h hread hB
      simp only [Prod.mk.injEq, Except.ok.injEq] at h
      obtain ⟨⟨rfl, rfl, rfl⟩, rfl⟩ := h
      exact ⟨e, hres, hkind B (by rw [hread]) hB⟩

/-- C8 (witness): bet 0 on an account holding 100 in the in-memory store. -/
theorem SlotService.spin_nonpositive_bet_witness :
    (∃ err : Error,
      (memSlotService.Spin ⟨none⟩ (memUser "bob" 100) 0 (memInit "bob" 100 [] [])).1 =
        (none, 0, some err)) ∧
    (∃ suffix : List Event,
      (memSlotService.Spin ⟨none⟩ (memUser "bob" 100) 0 (memInit "bob" 100 [] [])).2.trace =
        (memInit "bob" 100 [] []).trace ++ suffix ∧
      generateCount suffix = 0 ∧
      (∀ c ∈ callsOf suffix, c = Call.GetUserBalanceByLogin (memUser "bob" 100).Login) ∧
      (∀ q ∈ sqlOf suffix, q = Sql.selectBalance (memUser "bob" 100).Login)) :=
  have h := SlotService.spin_nonpositive_bet memSlotService ⟨none⟩ (memUser "bob" 100) 0
    (memInit "bob" 100 [] []) (by decide)
  ⟨h.1, h.2.1⟩


theorem SlotService.spinWork_ok_inv {σ : Type} (ss : SlotService σ) (user : User)
    (betAmount : Int) (ctx : Context) (cap k2 : Int × Option SlotGame.Spin) (w w2 : World σ)
    (tx : Tx) (hctx : txFromContext ctx = some tx)
    (h : ss.spinWork user betAmount ctx cap w = ((none, k2), w2)) :
    ∃ (B : Int) (e2 : σ) (c : Combination) (win : Int) (w3 : World σ) (id : String)
        (createdAt : Nat),
      ss.storage.conn.selectBalance tx user.Login w.env = (Except.ok B, e2) ∧
      ¬ B < betAmount ∧
      ss.slotMachine.Spin betAmount
        { env := e2, trace := w.trace ++ [Event.call (Call.GetUserBalanceByLogin user.Login),
            Event.sql tx (Sql.selectBalance user.Login)] } = ((c, win, none), w3) ∧
      k2 = (wrapInt64 (B + win),
        some { ID := id, UserID := user.ID, Combination := c.String, Result := c.type,
               BetAmount := betAmount, WinAmount := win, CreatedAt := createdAt }) ∧
      w2.trace = w3.trace ++
        [Event.call (Call.SetUserBalanceByLogin user.Login (wrapInt64 (B + win))),
         Event.sql tx (Sql.updateBalance (wrapInt64 (B + win)) user.Login),
         Event.call (Call.CreateSpin user.ID c.String c.type betAmount win),
         Event.sql tx (Sql.insertSpin user.ID c.String c.type betAmount win)] := by
  unfold SlotService.spinWork at h
  rw [Storage.getUserBalanceByLogin_tx _ ctx _ _ tx hctx] at h
  rcases hq : ss.storage.conn.selectBalance tx user.Login w.env with ⟨err | B, e2⟩
  · rw [hq] at h
    simp only at h
    split_ifs at h <;> simp at h
  · rw [hq] at h
    simp only at h
    by_cases hlt : B < betAmount
    · simp [hlt] at h
    · simp only [hlt, if_false] at h
      rcases hsp : ss.slotMachine.Spin betAmount
          { env := e2, trace := w.trace ++ [Event.call (Call.GetUserBalanceByLogin user.Login),
              Event.sql tx (Sql.selectBalance user.Login)] } with ⟨⟨c, win, _ | err⟩, w3⟩
      · rw [hsp] at h
        simp only at h
        rw [Storage.setUserBalanceByLogin_tx _ ctx _ _ _ tx hctx] at h
        rcases hu : ss.storage.conn.updateBalance tx (wrapInt64 (B + win)) user.Login w3.env
          with ⟨err | n, e4⟩
        · rw [hu] at h
          simp at h
        · rw [hu] at h
          simp only at h
          by_cases hn : n = 0
          · simp [hn] at h
          · simp only [hn, if_false] at h
            rw [Storage.createSpin_tx _ ctx _ _ _ _ _ _ tx hctx] at h
            rcases hi : ss.storage.conn.insertSpin tx user.ID c.String c.type betAmount win e4
              with ⟨err | ⟨id, t⟩, e5⟩
            · rw [hi] at h
              simp at h
            · rw [hi] at h
              simp only [Prod.mk.injEq, true_and] at h
              obtain ⟨rfl, rfl⟩ := h
              exact ⟨B, e2, c, win, w3, id, t, rfl, hlt, hsp, rfl, by simp⟩
      · rw [hsp] at h
        simp at h

/-- C5 (counterexample): on an account holding `2^63 - 1`, a winning spin with bet 1 on
`{7,7,5}` pays 2, succeeds, and writes and returns the balance `-(2^63 - 1)`, which is not
the old balance plus the payout. -/
theorem SlotService.spin_balance_overflow :
    (memSlotService.Spin ⟨none⟩ (memUser "bob" 9223372036854775807) 1
        (memInit "bob" 9223372036854775807 [] [(⟨7, 7, 5⟩, none)])).1 =
      (some { ID := "0", UserID := "u1", Combination := "7,7,5", Result := SpinResult.Win,
              BetAmount := 1, WinAmount := 2, CreatedAt := 0 },
        -9223372036854775807, none) ∧
    callsOf (memSlotService.Spin ⟨none⟩ (memUser "bob" 9223372036854775807) 1
        (memInit "bob" 9223372036854775807 [] [(⟨7, 7, 5⟩, none)])).2.trace =
      [Call.GetUserBalanceByLogin "bob",
       Call.SetUserBalanceByLogin "bob" (-9223372036854775807),
       Call.CreateSpin "u1" "7,7,5" SpinResult.Win 1 2] ∧
    (-9223372036854775807 : Int) ≠ 9223372036854775807 + 2 := by
  refine ⟨by rfl, by rfl, by decide⟩

/-- C5 (amended): every successful `SlotService.Spin` read a balance `B` and obtained a
payout `win` from the slot machine such that the returned balance is the `int64` sum of
`B` and `win`, equal to `B + win` whenever that is an `int64`; the repository calls of the
run are one balance read, one `SetUserBalanceByLogin` with the returned balance and one
`CreateSpin` with `winAmount = win`, in this order, and the returned record carries `win`. -/
theorem SlotService.spin_success {σ : Type} (ss : SlotService σ) (ctx : Context) (user : User)
    (betAmount : Int) (w : World σ) (spin : Option SlotGame.Spin) (newBalance : Int)
    (h : (ss.Spin ctx user betAmount w).1 = (spin, newBalance, none)) :
    ∃ (tx : Tx) (txOwner : Bool) (ctx1 : Context) (w1 : World σ) (B : Int) (e2 : σ)
        (c : Combination) (win : Int) (w3 : World σ) (id : String) (createdAt : Nat),
      ss.storage.runTxOpen ctx w = (Except.ok (tx, txOwner, ctx1), w1) ∧
      ss.storage.conn.selectBalance tx user.Login w1.env = (Except.ok B, e2) ∧
      ss.slotMachine.Spin betAmount
        { env := e2, trace := w1.trace ++ [Event.call (Call.GetUserBalanceByLogin user.Login),
            Event.sql tx (Sql.selectBalance user.Login)] } = ((c, win, none), w3) ∧
      newBalance = wrapInt64 (B + win) ∧
      (isInt64 (B + win) → newBalance = B + win) ∧
      spin = some { ID := id, UserID := user.ID, Combination := c.String, Result := c.type,
                    BetAmount := betAmount, WinAmount := win, CreatedAt := createdAt } ∧
      ∃ suffix : List Event,
        (ss.Spin ctx user betAmount w).2.trace = w.trace ++ suffix ∧
        callsOf suffix =
          [Call.GetUserBalanceByLogin user.Login,
           Call.SetUserBalanceByLogin user.Login newBalance,
           Call.CreateSpin user.ID c.String c.type betAmount win] := by
  rcases hopen : ss.storage.runTxOpen ctx w with ⟨err | ⟨tx, txOwner, ctx1⟩, w1⟩
  · have hrun := (Storage.runTx_begin_error ss.storage ctx
      (ss.spinWork user betAmount) (0, none) w err w1 hopen).1
    simp [SlotService.Spin, hrun] at h
  · have hctx1 := (Storage.runTxOpen_ok _ ctx w tx txOwner ctx1 w1 hopen).1
    have htr := Storage.runTxOpen_trace _ ctx w tx txOwner ctx1 w1 hopen
    rcases hwork : ss.spinWork user betAmount ctx1 (0, none) w1 with ⟨⟨_ | e, k2⟩, w2⟩
    · obtain ⟨B, e2, c, win, w3, id, t, hread, -, hsp, hk2, hw2⟩ :=
        SlotService.spinWork_ok_inv ss user betAmount ctx1 (0, none) k2 w1 w2 tx hctx1 hwork
      have hw3 := (SlotMachine.spin_ok_inv _ _ _ _ _ _ hsp).2.2.1
      have hrun := Storage.runTx_ok_shape _ ctx _ _ w tx txOwner ctx1 w1 _ _ hopen hwork
      subst hk2
      rcases hrun with ⟨rfl, hrun⟩ | ⟨rfl, hrun⟩
      · simp only [SlotService.Spin, hrun, Prod.mk.injEq, and_true] at h
        obtain ⟨rfl, rfl⟩ := h
        refine ⟨tx, false, ctx1, w1, B, e2, c, win, w3, id, t, rfl, hread, hsp, rfl,
          fun hi => wrapInt64_of_isInt64 hi, rfl, ?_⟩
        refine ⟨[Event.call (Call.GetUserBalanceByLogin user.Login),
           Event.sql tx (Sql.selectBalance user.Login), Event.generate,
           Event.call (Call.SetUserBalanceByLogin user.Login (wrapInt64 (B + win))),
           Event.sql tx (Sql.updateBalance (wrapInt64 (B + win)) user.Login),
           Event.call (Call.CreateSpin user.ID c.String c.type betAmount win),
           Event.sql tx (Sql.insertSpin user.ID c.String c.type betAmount win)], ?_, ?_⟩
        · simp [SlotService.Spin, hrun, hw2, hw3, htr]
        · simp [callsOf]
      · rcases hc : (ss.storage.conn.Commit tx w2.env).1 with _ | ce
        · simp only [SlotService.Spin, hrun, hc, Prod.mk.injEq, and_true] at h
          obtain ⟨rfl, rfl⟩ := h
          refine ⟨tx, true, ctx1, w1, B, e2, c, win, w3, id, t, rfl, hread, hsp, rfl,
            fun hi => wrapInt64_of_isInt64 hi, rfl, ?_⟩
          refine ⟨[Event.begin] ++ [Event.call (Call.GetUserBalanceByLogin user.Login),
           Event.sql tx (Sql.selectBalance user.Login), Event.generate,
           Event.call (Call.SetUserBalanceByLogin user.Login (wrapInt64 (B + win))),
           Event.sql tx (Sql.updateBalance (wrapInt64 (B + win)) user.Login),
           Event.call (Call.CreateSpin user.ID c.String c.type betAmount win),
           Event.sql tx (Sql.insertSpin user.ID c.String c.type betAmount win)] ++ [Event.commit tx], ?_, ?_⟩
          · simp [SlotService.Spin, hrun, hc, hw2, hw3, htr]
          · simp [callsOf]
        · simp [SlotService.Spin, hrun, hc] at h
    · obtain ⟨rest, env3, hrun, -⟩ :=
        Storage.runTx_error_shape _ ctx _ _ w tx txOwner ctx1 w1 _ _ _ hopen hwork
      simp [SlotService.Spin, hrun] at h


/-- C5 (witness): end-to-end scenario 1, balance 1000, bet 100, combination `{5,6,7}`. -/
theorem SlotService.spin_success_witness :
    ∃ (tx : Tx) (txOwner : Bool) (ctx1 : Context) (w1 : World MemStore) (B : Int)
        (e2 : MemStore) (c : Combination) (win : Int) (w3 : World MemStore) (id : String)
        (createdAt : Nat),
      memSlotService.storage.runTxOpen ⟨none⟩ (memInit "bob" 1000 [] [(⟨5, 6, 7⟩, none)]) =
        (Except.ok (tx, txOwner, ctx1), w1) ∧
      memSlotService.storage.conn.selectBalance tx (memUser "bob" 1000).Login w1.env =
        (Except.ok B, e2) ∧
      memSlotService.slotMachine.Spin 100
        { env := e2, trace := w1.trace ++
            [Event.call (Call.GetUserBalanceByLogin (memUser "bob" 1000).Login),
             Event.sql tx (Sql.selectBalance (memUser "bob" 1000).Login)] } =
          ((c, win, none), w3) ∧
      (900 : Int) = wrapInt64 (B + win) ∧
      (isInt64 (B + win) → (900 : Int) = B + win) ∧
      some ({ ID := "0", UserID := "u1", Combination := "5,6,7", Result := SpinResult.Lose,
              BetAmount := 100, WinAmount := -100, CreatedAt := 0 } : SlotGame.Spin) =
        some { ID := id, UserID := (memUser "bob" 1000).ID, Combination := c.String,
               Result := c.type, BetAmount := 100, WinAmount := win, CreatedAt := createdAt } ∧
      ∃ suffix : List Event,
        (memSlotService.Spin ⟨none⟩ (memUser "bob" 1000) 100
            (memInit "bob" 1000 [] [(⟨5, 6, 7⟩, none)])).2.trace =
          (memInit "bob" 1000 [] [(⟨5, 6, 7⟩, none)]).trace ++ suffix ∧
        callsOf suffix =
          [Call.GetUserBalanceByLogin (memUser "bob" 1000).Login,
           Call.SetUserBalanceByLogin (memUser "bob" 1000).Login 900,
           Call.CreateSpin (memUser "bob" 1000).ID c.String c.type 100 win] :=
  SlotService.spin_success memSlotService ⟨none⟩ (memUser "bob" 1000) 100
    (memInit "bob" 1000 [] [(⟨5, 6, 7⟩, none)])
    (some { ID := "0", UserID := "u1", Combination := "5,6,7", Result := SpinResult.Lose,
            BetAmount := 100, WinAmount := -100, CreatedAt := 0 }) 900 (by rfl)

/-! ### Failed operations and the committed data -/

section Keeps

variable {σ κ : Type} {gen : GenerateFn σ} {view : σ → κ}

theorem Storage.getUserBalanceByLogin_keeps (s : Storage σ)
    (T : Transactional s.conn gen view) (ctx : Context) (login : String) (w : World σ) (tx : Tx)
    (h : txFromContext ctx = some tx) :
    view (s.GetUserBalanceByLogin ctx login w).2.env = view w.env := by
  rw [Storage.getUserBalanceByLogin_tx s ctx login w tx h]
  have hk := T.selectBalance_keeps tx login w.env
  rcases hq : s.conn.selectBalance tx login w.env with ⟨_ | b, e⟩ <;>
    (rw [hq] at hk; simpa using hk)

theorem Storage.setUserBalanceByLogin_keeps (s : Storage σ)
    (T : Transactional s.conn gen view) (ctx : Context) (login : String) (b : Int)
    (w : World σ) (tx : Tx) (h : txFromContext ctx = some tx) :
    view (s.SetUserBalanceByLogin ctx login b w).2.env = view w.env := by
  rw [Storage.setUserBalanceByLogin_tx s ctx login b w tx h]
  have hk := T.updateBalance_keeps tx b login w.env
  rcases hq : s.conn.updateBalance tx b login w.env with ⟨_ | n, e⟩ <;>
    (rw [hq] at hk; simpa using hk)

theorem Storage.createSpin_keeps (s : Storage σ)
    (T : Transactional s.conn gen view) (ctx : Context) (userID combination : String)
    (result : SpinResult) (betAmount winAmount : Int) (w : World σ) (tx : Tx)
    (h : txFromContext ctx = some tx) :
    view (s.CreateSpin ctx userID combination result betAmount winAmount w).2.env =
      view w.env := by
  rw [Storage.createSpin_tx s ctx userID combination result betAmount winAmount w tx h]
  have hk := T.insertSpin_keeps tx userID combination result betAmount winAmount w.env
  rcases hq : s.conn.insertSpin tx userID combination result betAmount winAmount w.env with
    ⟨_ | ⟨id, t⟩, e⟩ <;> (rw [hq] at hk; simpa using hk)

theorem SlotMachine.spin_keeps (sm : SlotMachine σ) (hgen : ∀ s, view (sm.generate s).2 = view s)
    (b : Int) (w : World σ) : view (sm.Spin b w).2.env = view w.env := by
  unfold SlotMachine.Spin
  by_cases hb : b ≤ 0
  · simp [hb]
  · simp only [hb, if_false, SlotMachine.callGenerate]
    have hk := hgen w.env
    rcases hg : sm.generate w.env with ⟨⟨c, _ | err⟩, e⟩ <;>
      (rw [hg] at hk; simpa using hk)

theorem SlotService.spinWork_keeps (ss : SlotService σ)
    (T : Transactional ss.storage.conn ss.slotMachine.generate view) (user : User)
    (betAmount : Int) (ctx : Context) (cap : Int × Option SlotGame.Spin) (w : World σ) (tx : Tx)
    (h : txFromContext ctx = some tx) :
    view (ss.spinWork user betAmount ctx cap w).2.env = view w.env := by
  unfold SlotService.spinWork
  have h1 := Storage.getUserBalanceByLogin_keeps ss.storage T ctx user.Login w tx h
  rcases hg : ss.storage.GetUserBalanceByLogin ctx user.Login w with ⟨⟨B, _ | err⟩, w1⟩
  · rw [hg] at h1
    simp only
    split_ifs
    · exact h1
    · have h2 := SlotMachine.spin_keeps ss.slotMachine T.generate_keeps betAmount w1
      rcases hs : ss.slotMachine.Spin betAmount w1 with ⟨⟨c, win, _ | err⟩, w2⟩
      · rw [hs] at h2
        simp only
        have h3 := Storage.setUserBalanceByLogin_keeps ss.storage T ctx user.Login
          (wrapInt64 (B + win)) w2 tx h
        rcases hu : ss.storage.SetUserBalanceByLogin ctx user.Login (wrapInt64 (B + win)) w2
          with ⟨_ | err, w3⟩
        · rw [hu] at h3
          simp only
          have h4 := Storage.createSpin_keeps ss.storage T ctx user.ID c.String c.type
            betAmount win w3 tx h
          rcases hc : ss.storage.CreateSpin ctx user.ID c.String c.type betAmount win w3
            with ⟨⟨sp, err⟩, w4⟩
          rw [hc] at h4
          simp only
          rw [h4, h3, h2, h1]
        · rw [hu] at h3
          simp only
          rw [h3, h2, h1]
      · rw [hs] at h2
        simp only
        rw [h2, h1]
  · rw [hg] at h1
    simp only
    split_ifs <;> exact h1

theorem UserService.depositWork_keeps (us : UserService σ)
    (T : Transactional us.storage.conn gen view) (login : String)
    (amount : Int) (ctx : Context) (cap : Int) (w : World σ) (tx : Tx)
    (h : txFromContext ctx = some tx) :
    view (us.depositWork login amount ctx cap w).2.env = view w.env := by
  unfold UserService.depositWork
  have h1 := Storage.getUserBalanceByLogin_keeps us.storage T ctx login w tx h
  rcases hg : us.storage.GetUserBalanceByLogin ctx login w with ⟨⟨B, _ | err⟩, w1⟩
  · rw [hg] at h1
    simp only
    have h3 := Storage.setUserBalanceByLogin_keeps us.storage T ctx login
      (wrapInt64 (B + amount)) w1 tx h
    rcases hu : us.storage.SetUserBalanceByLogin ctx login (wrapInt64 (B + amount)) w1
      with ⟨_ | err, w3⟩
    · rw [hu] at h3
      simp only
      rw [h3, h1]
    · rw [hu] at h3
      simp only
      split_ifs <;> simp only [h3, h1]
  · rw [hg] at h1
    simp only
    split_ifs <;> exact h1

theorem UserService.withdrawWork_keeps (us : UserService σ)
    (T : Transactional us.storage.conn gen view) (login : String)
    (amount : Int) (ctx : Context) (cap : Int) (w : World σ) (tx : Tx)
    (h : txFromContext ctx = some tx) :
    view (us.withdrawWork login amount ctx cap w).2.env = view w.env := by
  unfold UserService.withdrawWork
  have h1 := Storage.getUserBalanceByLogin_keeps us.storage T ctx login w tx h
  rcases hg : us.storage.GetUserBalanceByLogin ctx login w with ⟨⟨B, _ | err⟩, w1⟩
  · rw [hg] at h1
    simp only
    split_ifs
    · exact h1
    · have h3 := Storage.setUserBalanceByLogin_keeps us.storage T ctx login
        (wrapInt64 (B - amount)) w1 tx h
      rcases hu : us.storage.SetUserBalanceByLogin ctx login (wrapInt64 (B - amount)) w1
        with ⟨_ | err, w3⟩
      · rw [hu] at h3
        simp only
        rw [h3, h1]
      · rw [hu] at h3
        simp only
        split_ifs <;> simp only [h3, h1]
  · rw [hg] at h1
    simp only
    split_ifs <;> exact h1

theorem Storage.runTx_error_keeps {α : Type} (s : Storage σ) (T : Transactional s.conn gen view)
    (ctx : Context) (f : TxFn σ α) (k : α) (w : World σ)
    (hf : ∀ ctx1 k1 w1 tx, txFromContext ctx1 = some tx →
      view (f ctx1 k1 w1).2.env = view w1.env)
    (herr : (s.RunTx ctx f k w).1.1 ≠ none) :
    view (s.RunTx ctx f k w).2.env = view w.env := by
  rcases hopen : s.runTxOpen ctx w with ⟨err | ⟨tx, txOwner, ctx1⟩, w1⟩
  · obtain ⟨hrun, hw1⟩ := Storage.runTx_begin_error s ctx f k w err w1 hopen
    rw [hrun, hw1]
    exact T.begin_keeps w.env
  · have ho := Storage.runTxOpen_ok s ctx w tx txOwner ctx1 w1 hopen
    have hw1 : view w1.env = view w.env := by
      cases txOwner with
      | false => rw [(ho.2.2.2 rfl).2]
      | true =>
          have hb := (ho.2.2.1 rfl).2.2
          have hk := T.begin_keeps w.env
          rw [hb] at hk
          exact hk
    have hwk := hf ctx1 k w1 tx ho.1
    rcases hwork : f ctx1 k w1 with ⟨⟨_ | e, k2⟩, w2⟩
    · rw [hwork] at hwk
      rcases Storage.runTx_ok_shape s ctx f k w tx txOwner ctx1 w1 k2 w2 hopen hwork with
        ⟨-, hrun⟩ | ⟨-, hrun⟩
      · rw [hrun] at herr
        exact absurd rfl herr
      · rw [hrun] at herr ⊢
        rcases hc : (s.conn.Commit tx w2.env).1 with _ | ce
        · rw [hc] at herr
          exact absurd rfl herr
        · simp only
          rw [T.commit_error_keeps tx w2.env ce hc, hwk, hw1]
    · rw [hwork] at hwk
      obtain ⟨rest, env3, hrun, hshape⟩ :=
        Storage.runTx_error_shape s ctx f k w tx txOwner ctx1 w1 e k2 w2 hopen hwork
      rw [hrun]
      rcases hshape with ⟨-, -, rfl⟩ | ⟨-, rfl, -⟩
      · simp only
        rw [hwk, hw1]
      · simp only
        rw [T.rollback_keeps, hwk, hw1]

end Keeps

/-- C7: over a store that is transactional for an observation `view` of the committed
data (writes are observed only through a successful `Commit`), whenever
`SlotService.Spin`, `DepositFunds` or `WithdrawFunds` returns an error, of any kind and
from any step, the observed committed data are the same after the call as before. -/
theorem failed_operation_keeps_committed {σ κ : Type} (p : Pool σ) (gen : GenerateFn σ)
    (view : σ → κ) (T : Transactional p gen view) :
    (∀ (ctx : Context) (user : User) (betAmount : Int) (w : World σ),
      (SlotService.Spin ⟨⟨p⟩, ⟨gen⟩⟩ ctx user betAmount w).1.2.2 ≠ none →
      view (SlotService.Spin ⟨⟨p⟩, ⟨gen⟩⟩ ctx user betAmount w).2.env = view w.env) ∧
    (∀ (ctx : Context) (login : String) (amount : Int) (w : World σ),
      (UserService.DepositFunds ⟨⟨p⟩⟩ ctx login amount w).1.2 ≠ none →
      view (UserService.DepositFunds ⟨⟨p⟩⟩ ctx login amount w).2.env = view w.env) ∧
    (∀ (ctx : Context) (login : String) (amount : Int) (w : World σ),
      (UserService.WithdrawFunds ⟨⟨p⟩⟩ ctx login amount w).1.2 ≠ none →
      view (UserService.WithdrawFunds ⟨⟨p⟩⟩ ctx login amount w).2.env = view w.env) := by
  refine ⟨?_, ?_, ?_⟩
  · intro ctx user betAmount w herr
    have hk := Storage.runTx_error_keeps (⟨p⟩ : Storage σ) T ctx
      (SlotService.spinWork ⟨⟨p⟩, ⟨gen⟩⟩ user betAmount) (0, none) w
      (fun ctx1 k1 w1 tx h =>
        SlotService.spinWork_keeps ⟨⟨p⟩, ⟨gen⟩⟩ T user betAmount ctx1 k1 w1 tx h)
    unfold SlotService.Spin at herr ⊢
    rcases hrun : Storage.RunTx (⟨p⟩ : Storage σ) ctx
        (SlotService.spinWork ⟨⟨p⟩, ⟨gen⟩⟩ user betAmount) (0, none) w with ⟨⟨_ | e, k2⟩, w2⟩
    · simp [hrun] at herr
    · rw [hrun] at hk
      simp only [hrun]
      exact hk (by simp)
  · intro ctx login amount w herr
    have hk := Storage.runTx_error_keeps (⟨p⟩ : Storage σ) T ctx
      (UserService.depositWork ⟨⟨p⟩⟩ login amount) 0
      (w.emit (Event.logDebug "funds deposit started"))
      (fun ctx1 k1 w1 tx h =>
        UserService.depositWork_keeps ⟨⟨p⟩⟩ T login amount ctx1 k1 w1 tx h)
    unfold UserService.DepositFunds at herr ⊢
    rcases hrun : Storage.RunTx (⟨p⟩ : Storage σ) ctx
        (UserService.depositWork ⟨⟨p⟩⟩ login amount) 0
        (w.emit (Event.logDebug "funds deposit started")) with ⟨⟨_ | e, k2⟩, w2⟩
    · simp [hrun] at herr
    · rw [hrun] at hk
      simp only [hrun, World.emit]
      exact hk (by simp)
  · intro ctx login amount w herr
    have hk := Storage.runTx_error_keeps (⟨p⟩ : Storage σ) T ctx
      (UserService.withdrawWork ⟨⟨p⟩⟩ login amount) 0
      (w.emit (Event.logDebug "funds withdrawal started"))
      (fun ctx1 k1 w1 tx h =>
        UserService.withdrawWork_keeps ⟨⟨p⟩⟩ T login amount ctx1 k1 w1 tx h)
    unfold UserService.WithdrawFunds at herr ⊢
    rcases hrun : Storage.RunTx (⟨p⟩ : Storage σ) ctx
        (UserService.withdrawWork ⟨⟨p⟩⟩ login amount) 0
        (w.emit (Event.logDebug "funds withdrawal started")) with ⟨⟨_ | e, k2⟩, w2⟩
    · simp [hrun] at herr
    · rw [hrun] at hk
      simp only [hrun, World.emit]
      exact hk (by simp)


/-! ### The in-memory store is transactional -/

theorem MemStore.step_committed (m : MemStore) : m.step.2.committed = m.committed := by
  unfold MemStore.step
  split <;> rfl

theorem MemStore.statement_committed {α : Type} (m : MemStore) (tx : Tx)
    (body : Db → Except Error α × Db) :
    (m.statement tx body).2.committed = m.committed := by
  have hs := MemStore.step_committed m
  unfold MemStore.statement
  rcases hst : m.step with ⟨_ | e, m1⟩
  · rw [hst] at hs
    simp only
    cases hw : m1.working tx with
    | none => exact hs
    | some db => exact hs
  · rw [hst] at hs
    exact hs

theorem memPool_transactional : Transactional memPool memGenerate MemStore.committed where
  begin_keeps := by
    intro m
    have hs := MemStore.step_committed m
    simp only [memPool]
    rcases hst : m.step with ⟨_ | e, m1⟩ <;> (rw [hst] at hs; exact hs)
  rollback_keeps := by
    intro tx m
    have hs := MemStore.step_committed m
    simp only [memPool]
    rcases hst : m.step with ⟨_ | e, m1⟩
    · rw [hst] at hs
      simp only
      cases hw : m1.working tx with
      | none => exact hs
      | some db => exact hs
    · rw [hst] at hs
      exact hs
  commit_error_keeps := by
    intro tx m e
    have hs := MemStore.step_committed m
    simp only [memPool]
    rcases hst : m.step with ⟨_ | e1, m1⟩
    · rw [hst] at hs
      simp only
      cases hw : m1.working tx with
      | none => intro _; exact hs
      | some db => intro h; simp at h
    · rw [hst] at hs
      intro _
      exact hs
  selectBalance_keeps := by
    intro tx login m
    exact MemStore.statement_committed m tx _
  updateBalance_keeps := by
    intro tx b login m
    exact MemStore.statement_committed m tx _
  insertSpin_keeps := by
    intro tx u c r b a m
    exact MemStore.statement_committed m tx _
  selectUser_keeps := by
    intro tx login m
    exact MemStore.statement_committed m tx _
  insertUser_keeps := by
    intro tx f l g q b m
    exact MemStore.statement_committed m tx _
  generate_keeps := by
    intro m
    unfold memGenerate
    split <;> rfl

/-- C7 (witness): on the in-memory store, a spin whose history insert fails after the
balance write, a deposit to a missing account, and a withdrawal above the balance each
return an error and leave the committed relations as they were. -/
theorem failed_operation_keeps_committed_witness :
    ((SlotService.Spin ⟨⟨memPool⟩, ⟨memGenerate⟩⟩ ⟨none⟩ (memUser "bob" 1000) 100
        (memInit "bob" 1000 [none, none, none, some (Error.other "insert failed")]
          [(⟨5, 6, 7⟩, none)])).1.2.2 = some (Error.other "insert failed") ∧
      (SlotService.Spin ⟨⟨memPool⟩, ⟨memGenerate⟩⟩ ⟨none⟩ (memUser "bob" 1000) 100
        (memInit "bob" 1000 [none, none, none, some (Error.other "insert failed")]
          [(⟨5, 6, 7⟩, none)])).2.env.committed =
        (memInit "bob" 1000 [none, none, none, some (Error.other "insert failed")]
          [(⟨5, 6, 7⟩, none)]).env.committed) ∧
    ((UserService.DepositFunds ⟨⟨memPool⟩⟩ ⟨none⟩ "eve" 10 (memInit "bob" 40 [] [])).1.2 =
        some Error.ErrUserNotFound ∧
      (UserService.DepositFunds ⟨⟨memPool⟩⟩ ⟨none⟩ "eve" 10
        (memInit "bob" 40 [] [])).2.env.committed = (memInit "bob" 40 [] []).env.committed) ∧
    ((UserService.WithdrawFunds ⟨⟨memPool⟩⟩ ⟨none⟩ "bob" 50 (memInit "bob" 40 [] [])).1.2 =
        some Error.ErrInsufficientFunds ∧
      (UserService.WithdrawFunds ⟨⟨memPool⟩⟩ ⟨none⟩ "bob" 50
        (memInit "bob" 40 [] [])).2.env.committed = (memInit "bob" 40 [] []).env.committed) :=
  have h := failed_operation_keeps_committed memPool memGenerate MemStore.committed
    memPool_transactional
  ⟨⟨by rfl, h.1 ⟨none⟩ (memUser "bob" 1000) 100
      (memInit "bob" 1000 [none, none, none, some (Error.other "insert failed")]
        [(⟨5, 6, 7⟩, none)]) (by decide)⟩,
   ⟨by rfl, h.2.1 ⟨none⟩ "eve" 10 (memInit "bob" 40 [] []) (by decide)⟩,
   ⟨by rfl, h.2.2 ⟨none⟩ "bob" 50 (memInit "bob" 40 [] []) (by decide)⟩⟩

/-! ### Nested `RunTx` calls -/

/-- C11: a `RunTx` call on a context that already carries a transaction handle is not the
owner, runs the work function on the same context in the same world, and its result and
resulting world are exactly those of the work function: the call itself issues no
`Begin` before the work function and no `Commit` or `Rollback` after it. -/
theorem Storage.runTx_nested {σ κ : Type} (s : Storage σ) (ctx : Context) (f : TxFn σ κ)
    (k : κ) (w : World σ) (tx : Tx) (h : txFromContext ctx = some tx) :
    s.runTxOpen ctx w = (Except.ok (tx, false, ctx), w) ∧
    s.RunTx ctx f k w = f ctx k w ∧
    txEventsOf ((s.RunTx ctx f k w).2.trace.drop (f ctx k w).2.trace.length) = [] := by
  have hopen : s.runTxOpen ctx w = (Except.ok (tx, false, ctx), w) := by
    simp [Storage.runTxOpen, h]
  have hrun : s.RunTx ctx f k w = f ctx k w := by
    unfold Storage.RunTx
    rw [hopen]
    rcases hf : f ctx k w with ⟨⟨_ | err, k2⟩, w2⟩ <;> simp [hf]
  exact ⟨hopen, hrun, by rw [hrun]; simp [txEventsOf]⟩

/-- C11 (witness): inside the transaction 0 of the in-memory store, a nested call whose
work function fails returns that error and adds nothing to the trace. -/
theorem Storage.runTx_nested_witness :
    memStorage.runTxOpen ⟨some 0⟩ (memStorage.runTxOpen ⟨none⟩ (memInit "bob" 40 [] [])).2 =
      (Except.ok (0, false, ⟨some 0⟩), (memStorage.runTxOpen ⟨none⟩ (memInit "bob" 40 [] [])).2) ∧
    memStorage.RunTx ⟨some 0⟩ (fun _ (k : Unit) w => ((some (Error.other "boom"), k), w)) ()
        (memStorage.runTxOpen ⟨none⟩ (memInit "bob" 40 [] [])).2 =
      ((some (Error.other "boom"), ()), (memStorage.runTxOpen ⟨none⟩ (memInit "bob" 40 [] [])).2) ∧
    txEventsOf ((memStorage.RunTx ⟨some 0⟩
        (fun _ (k : Unit) w => ((some (Error.other "boom"), k), w)) ()
        (memStorage.runTxOpen ⟨none⟩ (memInit "bob" 40 [] [])).2).2.trace.drop
      (memStorage.runTxOpen ⟨none⟩ (memInit "bob" 40 [] [])).2.trace.length) = [] :=
  Storage.runTx_nested memStorage ⟨some 0⟩
    (fun _ (k : Unit) w => ((some (Error.other "boom"), k), w)) ()
    (memStorage.runTxOpen ⟨none⟩ (memInit "bob" 40 [] [])).2 0 rfl

/-! ### The random combination -/

theorem symbolOf_val {n : Nat} (h : n < 9) : (symbolOf n).val = n + 1 := by
  unfold symbolOf
  simp only [Fin.ofNat, Fin.val_mk]
  omega

/-- C16: when the random source delivers `n1`, `n2`, `n3`, each below 9, in three
successive draws, `randomCombination` returns without error the three symbols
`n1 + 1`, `n2 + 1`, `n3 + 1`, one draw for each position in order, each in `[1, 9]`; and
`n ↦ n + 1` maps the 9 source values one-to-one onto the symbols 1 to 9. -/
theorem randomCombination_symbols {σ : Type} (rand : RandSource σ) (s0 s1 s2 s3 : σ)
    (n1 n2 n3 : Nat)
    (h1 : rand 9 s0 = (Except.ok n1, s1)) (h2 : rand 9 s1 = (Except.ok n2, s2))
    (h3 : rand 9 s2 = (Except.ok n3, s3))
    (b1 : n1 < 9) (b2 : n2 < 9) (b3 : n3 < 9) :
    randomCombination rand s0 = ((⟨symbolOf n1, symbolOf n2, symbolOf n3⟩, none), s3) ∧
    (randomCombination rand s0).1.1.toList.length = 3 ∧
    ((symbolOf n1).val = n1 + 1 ∧ (symbolOf n2).val = n2 + 1 ∧ (symbolOf n3).val = n3 + 1) ∧
    (∀ x ∈ (randomCombination rand s0).1.1.toList, 1 ≤ x.val ∧ x.val ≤ 9) ∧
    (∀ n m : Nat, n < 9 → m < 9 → symbolOf n = symbolOf m → n = m) ∧
    (∀ b : Byte, 1 ≤ b.val → b.val ≤ 9 →
      ∃ n : Nat, n < 9 ∧ symbolOf n = b ∧ ∀ m : Nat, m < 9 → symbolOf m = b → m = n) := by
  have hrun : randomCombination rand s0 =
      ((⟨symbolOf n1, symbolOf n2, symbolOf n3⟩, none), s3) := by
    simp [randomCombination, randomCombinationLoop, randomNum, h1, h2, h3, Combination.set]
  have v1 := symbolOf_val b1
  have v2 := symbolOf_val b2
  have v3 := symbolOf_val b3
  refine ⟨hrun, by rw [hrun]; rfl, ⟨v1, v2, v3⟩, ?_, ?_, ?_⟩
  · rw [hrun]
    intro x hx
    simp only [Combination.toList, List.mem_cons, List.mem_singleton, List.not_mem_nil,
      or_false] at hx
    rcases hx with rfl | rfl | rfl <;> omega
  · intro n m hn hm h
    have h' := congrArg Fin.val h
    rw [symbolOf_val hn, symbolOf_val hm] at h'
    omega
  · intro b hb1 hb9
    refine ⟨b.val - 1, by omega, ?_, ?_⟩
    · apply Fin.ext
      rw [symbolOf_val (by omega)]
      omega
    · intro m hm h
      have h' := congrArg Fin.val h
      rw [symbolOf_val hm] at h'
      omega

/-- C16 (witness): the source values 4, 0, 8 give the combination `{5,1,9}`. -/
theorem randomCombination_symbols_witness :
    randomCombination replayRand [4, 0, 8] =
      ((⟨symbolOf 4, symbolOf 0, symbolOf 8⟩, none), []) ∧
    (⟨symbolOf 4, symbolOf 0, symbolOf 8⟩ : Combination) = ⟨5, 1, 9⟩ :=
  ⟨(randomCombination_symbols replayRand [4, 0, 8] [0, 8] [8] [] 4 0 8 rfl rfl rfl
      (by decide) (by decide) (by decide)).1, by decide⟩

/-! ### The sign of the win amount -/

/-- C18 (counterexample): a Win on `{7,7,5}` with the bet `2^62 + 1` yields the win amount
`-2^63 + 2`, and a SuperWin on `{7,7,7}` with the bet `2^63 - 1` yields `-10`; both are
negative. -/
theorem SlotMachine.spin_win_amount_negative :
    ((0 : Int) < 4611686018427387905 ∧ isInt64 4611686018427387905 ∧
      (⟨7, 7, 5⟩ : Combination).type = SpinResult.Win ∧
      (SlotMachine.Spin (⟨constGenerate ⟨7, 7, 5⟩ none⟩ : SlotMachine Unit)
        4611686018427387905 ⟨(), []⟩).1 = (⟨7, 7, 5⟩, -9223372036854775806, none) ∧
      ¬ (0 : Int) < -9223372036854775806) ∧
    ((0 : Int) < 9223372036854775807 ∧ isInt64 9223372036854775807 ∧
      (⟨7, 7, 7⟩ : Combination).type = SpinResult.SuperWin ∧
      (SlotMachine.Spin (⟨constGenerate ⟨7, 7, 7⟩ none⟩ : SlotMachine Unit)
        9223372036854775807 ⟨(), []⟩).1 = (⟨7, 7, 7⟩, -10, none) ∧
      ¬ (0 : Int) < -10) := by
  refine ⟨⟨by decide, by decide, by decide, by decide, by decide⟩,
    ⟨by decide, by decide, by decide, by decide, by decide⟩⟩

/-- C18 (amended): for every `int64` bet `b > 0` and every combination the generator
returns, the win amount of `SlotMachine.Spin` is strictly negative for a Lose; for a Win
it is strictly positive exactly when `2 * b` does not exceed the greatest `int64`; for a
SuperWin it is strictly positive when `10 * b` does not exceed the greatest `int64`. -/
theorem SlotMachine.spin_win_amount_sign {σ : Type} (sm : SlotMachine σ) (b : Int)
    (w : World σ) (c : Combination) (hb : 0 < b) (hb64 : isInt64 b)
    (hgen : (sm.generate w.env).1 = (c, none)) :
    ∃ win : Int, (sm.Spin b w).1 = (c, win, none) ∧
      (c.type = SpinResult.Lose → win < 0) ∧
      (c.type = SpinResult.Win → (0 < win ↔ 2 * b ≤ maxInt64)) ∧
      (c.type = SpinResult.SuperWin → 10 * b ≤ maxInt64 → 0 < win) := by
  have hnot : ¬ b ≤ 0 := by omega
  have hcall : sm.callGenerate w =
      ((c, none), { env := (sm.generate w.env).2, trace := w.trace ++ [Event.generate] }) := by
    simp [SlotMachine.callGenerate, hgen]
  unfold isInt64 minInt64 maxInt64 at hb64
  cases hty : c.type
  · refine ⟨wrapInt64 (-b), by simp [SlotMachine.Spin, hnot, hcall, hty], ?_, ?_, ?_⟩
    · intro _
      rw [wrapInt64_of_isInt64 (by unfold isInt64 minInt64 maxInt64; omega)]
      omega
    · intro h; cases h
    · intro h; cases h
  · refine ⟨wrapInt64 (2 * b), by simp [SlotMachine.Spin, hnot, hcall, hty], ?_, ?_, ?_⟩
    · intro h; cases h
    · intro _
      unfold wrapInt64 maxInt64
      constructor
      · intro hpos
        by_contra hlt
        have hmod : (2 * b + 9223372036854775808) % 18446744073709551616 =
            2 * b + 9223372036854775808 - 18446744073709551616 := by
          rw [Int.emod_eq_sub_self_emod, Int.emod_eq_of_lt (by omega) (by omega)]
        omega
      · intro hle
        rw [Int.emod_eq_of_lt (by omega) (by omega)]
        omega
    · intro h; cases h
  · refine ⟨wrapInt64 (10 * b), by simp [SlotMachine.Spin, hnot, hcall, hty], ?_, ?_, ?_⟩
    · intro h; cases h
    · intro h; cases h
    · intro _ hle
      rw [wrapInt64_of_isInt64 (by unfold isInt64 minInt64; unfold maxInt64 at *; omega)]
      omega

/-- C18 (witness): bet 10 on the Win `{5,7,7}` pays 20. -/
theorem SlotMachine.spin_win_amount_sign_witness :
    ∃ win : Int,
      (SlotMachine.Spin (⟨constGenerate ⟨5, 7, 7⟩ none⟩ : SlotMachine Unit) 10 ⟨(), []⟩).1 =
        (⟨5, 7, 7⟩, win, none) ∧
      ((⟨5, 7, 7⟩ : Combination).type = SpinResult.Lose → win < 0) ∧
      ((⟨5, 7, 7⟩ : Combination).type = SpinResult.Win → (0 < win ↔ 2 * 10 ≤ maxInt64)) ∧
      ((⟨5, 7, 7⟩ : Combination).type = SpinResult.SuperWin → 10 * 10 ≤ maxInt64 → 0 < win) :=
  SlotMachine.spin_win_amount_sign (⟨constGenerate ⟨5, 7, 7⟩ none⟩ : SlotMachine Unit) 10
    ⟨(), []⟩ ⟨5, 7, 7⟩ (by decide) (by decide) rfl

/-! ### Nested storage operations issue no transaction call -/

theorem txEventsOf_append (a b : List Event) :
    txEventsOf (a ++ b) = txEventsOf a ++ txEventsOf b := by
  simp [txEventsOf]

theorem callsOf_append (a b : List Event) : callsOf (a ++ b) = callsOf a ++ callsOf b := by
  simp [callsOf]

theorem sqlOf_append (a b : List Event) : sqlOf (a ++ b) = sqlOf a ++ sqlOf b := by
  simp [sqlOf]

theorem extendsQuietly_refl (t : List Event) : extendsQuietly t t :=
  ⟨[], by simp, rfl⟩

theorem extendsQuietly_trans {a b c : List Event} (h1 : extendsQuietly a b)
    (h2 : extendsQuietly b c) : extendsQuietly a c := by
  obtain ⟨m1, rfl, q1⟩ := h1
  obtain ⟨m2, rfl, q2⟩ := h2
  exact ⟨m1 ++ m2, by simp, by rw [txEventsOf_append, q1, q2]; rfl⟩

theorem Storage.getUserByLogin_tx {σ : Type} (s : Storage σ) (ctx : Context)
    (login : String) (w : World σ) (tx : Tx) (h : txFromContext ctx = some tx) :
    s.GetUserByLogin ctx login w =
      match s.conn.selectUser tx login w.env with
      | (Except.ok u, e) =>
          ((some u, none), { env := e, trace := w.trace ++
            [Event.call (Call.GetUserByLogin login), Event.sql tx (Sql.selectUser login)] })
      | (Except.error err, e) =>
          ((none, if errorsIs err Error.pgxErrNoRows then none else some err),
            { env := e, trace := w.trace ++
              [Event.call (Call.GetUserByLogin login), Event.sql tx (Sql.selectUser login)] }) := by
  unfold Storage.GetUserByLogin
  simp only [Storage.runTx_some s ctx _ _ _ tx h, Storage.withTx, h, World.emit]
  rcases hq : s.conn.selectUser tx login w.env with ⟨err | u, e⟩
  · simp only [List.append_assoc, List.singleton_append]
    split_ifs <;> rfl
  · simp

theorem Storage.getUserBalanceByLogin_quiet {σ : Type} (s : Storage σ) (ctx : Context)
    (login : String) (w : World σ) (tx : Tx) (h : txFromContext ctx = some tx) :
    extendsQuietly w.trace (s.GetUserBalanceByLogin ctx login w).2.trace := by
  rw [Storage.getUserBalanceByLogin_tx s ctx login w tx h]
  rcases s.conn.selectBalance tx login w.env with ⟨_ | b, e⟩ <;>
    exact ⟨_, rfl, by simp [txEventsOf]⟩

theorem Storage.setUserBalanceByLogin_quiet {σ : Type} (s : Storage σ) (ctx : Context)
    (login : String) (b : Int) (w : World σ) (tx : Tx) (h : txFromContext ctx = some tx) :
    extendsQuietly w.trace (s.SetUserBalanceByLogin ctx login b w).2.trace := by
  rw [Storage.setUserBalanceByLogin_tx s ctx login b w tx h]
  rcases s.conn.updateBalance tx b login w.env with ⟨_ | n, e⟩ <;>
    exact ⟨_, rfl, by simp [txEventsOf]⟩

theorem Storage.createSpin_quiet {σ : Type} (s : Storage σ) (ctx : Context)
    (userID combination : String) (result : SpinResult) (betAmount winAmount : Int)
    (w : World σ) (tx : Tx) (h : txFromContext ctx = some tx) :
    extendsQuietly w.trace
      (s.CreateSpin ctx userID combination result betAmount winAmount w).2.trace := by
  rw [Storage.createSpin_tx s ctx userID combination result betAmount winAmount w tx h]
  rcases s.conn.insertSpin tx userID combination result betAmount winAmount w.env with
    ⟨_ | ⟨id, t⟩, e⟩ <;> exact ⟨_, rfl, by simp [txEventsOf]⟩

theorem Storage.getUserByLogin_quiet {σ : Type} (s : Storage σ) (ctx : Context)
    (login : String) (w : World σ) (tx : Tx) (h : txFromContext ctx = some tx) :
    extendsQuietly w.trace (s.GetUserByLogin ctx login w).2.trace := by
  rw [Storage.getUserByLogin_tx s ctx login w tx h]
  rcases s.conn.selectUser tx login w.env with ⟨_ | u, e⟩ <;>
    exact ⟨_, rfl, by simp [txEventsOf]⟩

theorem Storage.withTx_quiet {σ α : Type} (ctx : Context) (stmt : Tx → Sql)
    (run : Tx → σ → Except Error α × σ) (w : World σ) :
    extendsQuietly w.trace (Storage.withTx ctx stmt run w).2.trace := by
  unfold Storage.withTx
  cases txFromContext ctx with
  | none => exact extendsQuietly_refl _
  | some tx => exact ⟨_, rfl, by simp [txEventsOf]⟩

theorem SlotMachine.spin_quiet {σ : Type} (sm : SlotMachine σ) (b : Int) (w : World σ) :
    extendsQuietly w.trace (sm.Spin b w).2.trace := by
  unfold SlotMachine.Spin
  by_cases hb : b ≤ 0
  · simp only [hb, if_true]
    exact extendsQuietly_refl _
  · simp only [hb, if_false, SlotMachine.callGenerate]
    rcases sm.generate w.env with ⟨⟨c, _ | err⟩, e⟩ <;>
      exact ⟨[Event.generate], rfl, by simp [txEventsOf]⟩

theorem SlotService.spinWork_quiet {σ : Type} (ss : SlotService σ) (user : User)
    (betAmount : Int) (ctx : Context) (cap : Int × Option SlotGame.Spin) (w : World σ) (tx : Tx)
    (h : txFromContext ctx = some tx) :
    extendsQuietly w.trace (ss.spinWork user betAmount ctx cap w).2.trace := by
  unfold SlotService.spinWork
  have h1 := Storage.getUserBalanceByLogin_quiet ss.storage ctx user.Login w tx h
  rcases hg : ss.storage.GetUserBalanceByLogin ctx user.Login w with ⟨⟨B, _ | err⟩, w1⟩
  · rw [hg] at h1
    simp only
    split_ifs
    · exact h1
    · have h2 := SlotMachine.spin_quiet ss.slotMachine betAmount w1
      rcases hs : ss.slotMachine.Spin betAmount w1 with ⟨⟨c, win, _ | err⟩, w2⟩
      · rw [hs] at h2
        simp only
        have h3 := Storage.setUserBalanceByLogin_quiet ss.storage ctx user.Login
          (wrapInt64 (B + win)) w2 tx h
        rcases hu : ss.storage.SetUserBalanceByLogin ctx user.Login (wrapInt64 (B + win)) w2
          with ⟨_ | err, w3⟩
        · rw [hu] at h3
          simp only
          have h4 := Storage.createSpin_quiet ss.storage ctx user.ID c.String c.type
            betAmount win w3 tx h
          rcases hc : ss.storage.CreateSpin ctx user.ID c.String c.type betAmount win w3
            with ⟨⟨sp, err⟩, w4⟩
          rw [hc] at h4
          exact extendsQuietly_trans (extendsQuietly_trans (extendsQuietly_trans h1 h2) h3) h4
        · rw [hu] at h3
          exact extendsQuietly_trans (extendsQuietly_trans h1 h2) h3
      · rw [hs] at h2
        exact extendsQuietly_trans h1 h2
  · rw [hg] at h1
    simp only
    split_ifs <;> exact h1

theorem UserService.depositWork_quiet {σ : Type} (us : UserService σ) (login : String)
    (amount : Int) (ctx : Context) (cap : Int) (w : World σ) (tx : Tx)
    (h : txFromContext ctx = some tx) :
    extendsQuietly w.trace (us.depositWork login amount ctx cap w).2.trace := by
  unfold UserService.depositWork
  have h1 := Storage.getUserBalanceByLogin_quiet us.storage ctx login w tx h
  rcases hg : us.storage.GetUserBalanceByLogin ctx login w with ⟨⟨B, _ | err⟩, w1⟩
  · rw [hg] at h1
    simp only
    have h3 := Storage.setUserBalanceByLogin_quiet us.storage ctx login
      (wrapInt64 (B + amount)) w1 tx h
    rcases hu : us.storage.SetUserBalanceByLogin ctx login (wrapInt64 (B + amount)) w1
      with ⟨_ | err, w3⟩
    · rw [hu] at h3
      exact extendsQuietly_trans h1 h3
    · rw [hu] at h3
      simp only
      split_ifs <;> exact extendsQuietly_trans h1 h3
  · rw [hg] at h1
    simp only
    split_ifs <;> exact h1

theorem UserService.withdrawWork_quiet {σ : Type} (us : UserService σ) (login : String)
    (amount : Int) (ctx : Context) (cap : Int) (w : World σ) (tx : Tx)
    (h : txFromContext ctx = some tx) :
    extendsQuietly w.trace (us.withdrawWork login amount ctx cap w).2.trace := by
  unfold UserService.withdrawWork
  have h1 := Storage.getUserBalanceByLogin_quiet us.storage ctx login w tx h
  rcases hg : us.storage.GetUserBalanceByLogin ctx login w with ⟨⟨B, _ | err⟩, w1⟩
  · rw [hg] at h1
    simp only
    split_ifs
    · exact h1
    · have h3 := Storage.setUserBalanceByLogin_quiet us.storage ctx login
        (wrapInt64 (B - amount)) w1 tx h
      rcases hu : us.storage.SetUserBalanceByLogin ctx login (wrapInt64 (B - amount)) w1
        with ⟨_ | err, w3⟩
      · rw [hu] at h3
        exact extendsQuietly_trans h1 h3
      · rw [hu] at h3
        simp only
        split_ifs <;> exact extendsQuietly_trans h1 h3
  · rw [hg] at h1
    simp only
    split_ifs <;> exact h1

theorem Storage.createUserWork_quiet {σ : Type} (s : Storage σ)
    (login password firstName lastName : String) (balance : Int) (ctx : Context) (cap : User)
    (w : World σ) (tx : Tx) (h : txFromContext ctx = some tx) :
    extendsQuietly w.trace
      (s.createUserWork login password firstName lastName balance ctx cap w).2.trace := by
  unfold Storage.createUserWork
  have h1 := Storage.getUserByLogin_quiet s ctx login w tx h
  rcases hg : s.GetUserByLogin ctx login w with ⟨⟨_ | u, _ | err⟩, w1⟩
  · rw [hg] at h1
    simp only
    have h2 := Storage.withTx_quiet ctx
      (fun _ => Sql.insertUser firstName lastName login password balance)
      (fun tx => s.conn.insertUser tx firstName lastName login password balance) w1
    rcases hi : Storage.withTx ctx
        (fun _ => Sql.insertUser firstName lastName login password balance)
        (fun tx => s.conn.insertUser tx firstName lastName login password balance) w1
      with ⟨_ | id, w2⟩
    · rw [hi] at h2
      exact extendsQuietly_trans h1 h2
    · rw [hi] at h2
      exact extendsQuietly_trans h1 h2
  · rw [hg] at h1
    exact h1
  · rw [hg] at h1
    exact h1
  · rw [hg] at h1
    exact h1

theorem Storage.runTx_owner_events {σ κ : Type} (s : Storage σ) (ctx : Context) (f : TxFn σ κ)
    (k : κ) (w : World σ) (tx : Tx) (env1 : σ)
    (hctx : txFromContext ctx = none)
    (hbegin : s.conn.Begin w.env = (Except.ok tx, env1))
    (hq : ∀ (k1 : κ) (w1 : World σ),
      extendsQuietly w1.trace (f (ctx.WithValue tx) k1 w1).2.trace) :
    ∃ suffix : List Event,
      (s.RunTx ctx f k w).2.trace = w.trace ++ suffix ∧
      txEventsOf suffix =
        [Event.begin,
         if (f (ctx.WithValue tx) k
              { env := env1, trace := w.trace ++ [Event.begin] }).1.1.isNone
         then Event.commit tx else Event.rollback tx] := by
  have hopen : s.runTxOpen ctx w =
      (Except.ok (tx, true, ctx.WithValue tx),
        { env := env1, trace := w.trace ++ [Event.begin] }) := by
    simp [Storage.runTxOpen, hctx, Storage.connBegin, hbegin]
  obtain ⟨mid, hmid, hquiet⟩ := hq k { env := env1, trace := w.trace ++ [Event.begin] }
  rcases hwork : f (ctx.WithValue tx) k { env := env1, trace := w.trace ++ [Event.begin] }
    with ⟨⟨_ | e, k2⟩, w2⟩
  · rw [hwork] at hmid
    simp only at hmid
    rcases Storage.runTx_ok_shape s ctx f k w tx true _ _ k2 w2 hopen hwork with
      ⟨h, -⟩ | ⟨-, hrun⟩
    · cases h
    · refine ⟨[Event.begin] ++ mid ++ [Event.commit tx], ?_, ?_⟩
      · rw [hrun]
        simp [hmid]
      · rw [txEventsOf_append, txEventsOf_append, hquiet]
        rfl
  · rw [hwork] at hmid
    simp only at hmid
    obtain ⟨rest, env3, hrun, hshape⟩ :=
      Storage.runTx_error_shape s ctx f k w tx true _ _ e k2 w2 hopen hwork
    refine ⟨[Event.begin] ++ mid ++ rest, ?_, ?_⟩
    · rw [hrun]
      simp [hmid]
    · rcases hshape with ⟨h, -, -⟩ | ⟨-, -, rfl | ⟨r, rfl⟩⟩
      · cases h
      · rw [txEventsOf_append, txEventsOf_append, hquiet]
        rfl
      · rw [txEventsOf_append, txEventsOf_append, hquiet]
        rfl

/-- C12: an execution of `SlotService.Spin`, `DepositFunds`, `WithdrawFunds` or
`Storage.CreateUser` that starts from a context without a transaction handle and whose
`Begin` succeeds with `tx` issues, whatever the nested storage operations do, exactly one
`Begin` followed by exactly one terminating call on `tx`: `Commit` if the work function
returned no error, `Rollback` otherwise. -/
theorem single_begin_single_end {σ : Type} (p : Pool σ) (gen : GenerateFn σ) (ctx : Context)
    (w : World σ) (tx : Tx) (env1 : σ)
    (hctx : txFromContext ctx = none)
    (hbegin : p.Begin w.env = (Except.ok tx, env1)) :
    (∀ (user : User) (betAmount : Int), ∃ suffix : List Event,
      (SlotService.Spin ⟨⟨p⟩, ⟨gen⟩⟩ ctx user betAmount w).2.trace = w.trace ++ suffix ∧
      txEventsOf suffix =
        [Event.begin,
         if (SlotService.spinWork ⟨⟨p⟩, ⟨gen⟩⟩ user betAmount (ctx.WithValue tx) (0, none)
              { env := env1, trace := w.trace ++ [Event.begin] }).1.1.isNone
         then Event.commit tx else Event.rollback tx]) ∧
    (∀ (login : String) (amount : Int), ∃ suffix : List Event,
      (UserService.DepositFunds ⟨⟨p⟩⟩ ctx login amount w).2.trace = w.trace ++ suffix ∧
      txEventsOf suffix =
        [Event.begin,
         if (UserService.depositWork ⟨⟨p⟩⟩ login amount (ctx.WithValue tx) 0
              { env := env1,
                trace := w.trace ++ [Event.logDebug "funds deposit started"] ++
                  [Event.begin] }).1.1.isNone
         then Event.commit tx else Event.rollback tx]) ∧
    (∀ (login : String) (amount : Int), ∃ suffix : List Event,
      (UserService.WithdrawFunds ⟨⟨p⟩⟩ ctx login amount w).2.trace = w.trace ++ suffix ∧
      txEventsOf suffix =
        [Event.begin,
         if (UserService.withdrawWork ⟨⟨p⟩⟩ login amount (ctx.WithValue tx) 0
              { env := env1,
                trace := w.trace ++ [Event.logDebug "funds withdrawal started"] ++
                  [Event.begin] }).1.1.isNone
         then Event.commit tx else Event.rollback tx]) ∧
    (∀ (login password firstName lastName : String) (balance : Int), ∃ suffix : List Event,
      (Storage.CreateUser ⟨p⟩ ctx login password firstName lastName balance w).2.trace =
        w.trace ++ suffix ∧
      txEventsOf suffix =
        [Event.begin,
         if (Storage.createUserWork ⟨p⟩ login password firstName lastName balance
              (ctx.WithValue tx)
              { ID := "", FirstName := firstName, LastName := lastName, Login := login,
                Password := password, Balance := balance }
              { env := env1,
                trace := w.trace ++
                  [Event.call (Call.CreateUser login password firstName lastName balance)] ++
                  [Event.begin] }).1.1.isNone
         then Event.commit tx else Event.rollback tx]) := by
  have hwv : txFromContext (ctx.WithValue tx) = some tx := rfl
  refine ⟨?_, ?_, ?_, ?_⟩
  · intro user betAmount
    obtain ⟨suffix, htr, hev⟩ := Storage.runTx_owner_events (⟨p⟩ : Storage σ) ctx
      (SlotService.spinWork ⟨⟨p⟩, ⟨gen⟩⟩ user betAmount) (0, none) w tx env1 hctx hbegin
      (fun k1 w1 => SlotService.spinWork_quiet _ user betAmount _ k1 w1 tx hwv)
    refine ⟨suffix, ?_, hev⟩
    unfold SlotService.Spin
    rcases hrun : Storage.RunTx (⟨p⟩ : Storage σ) ctx
        (SlotService.spinWork ⟨⟨p⟩, ⟨gen⟩⟩ user betAmount) (0, none) w with ⟨⟨_ | e, k2⟩, w2⟩ <;>
      (rw [hrun] at htr; simpa [hrun] using htr)
  · intro login amount
    obtain ⟨suffix, htr, hev⟩ := Storage.runTx_owner_events (⟨p⟩ : Storage σ) ctx
      (UserService.depositWork ⟨⟨p⟩⟩ login amount) 0
      (w.emit (Event.logDebug "funds deposit started")) tx env1 hctx hbegin
      (fun k1 w1 => UserService.depositWork_quiet _ login amount _ k1 w1 tx hwv)
    refine ⟨[Event.logDebug "funds deposit started"] ++ suffix ++
      [Event.logDebug "funds deposit completed"], ?_, ?_⟩
    · unfold UserService.DepositFunds
      rcases hrun : Storage.RunTx (⟨p⟩ : Storage σ) ctx
          (UserService.depositWork ⟨⟨p⟩⟩ login amount) 0
          (w.emit (Event.logDebug "funds deposit started")) with ⟨⟨_ | e, k2⟩, w2⟩ <;>
        (rw [hrun] at htr; simp only [World.emit] at htr; simp [hrun, World.emit, htr])
    · rw [txEventsOf_append, txEventsOf_append, hev]
      rfl
  · intro login amount
    obtain ⟨suffix, htr, hev⟩ := Storage.runTx_owner_events (⟨p⟩ : Storage σ) ctx
      (UserService.withdrawWork ⟨⟨p⟩⟩ login amount) 0
      (w.emit (Event.logDebug "funds withdrawal started")) tx env1 hctx hbegin
      (fun k1 w1 => UserService.withdrawWork_quiet _ login amount _ k1 w1 tx hwv)
    refine ⟨[Event.logDebug "funds withdrawal started"] ++ suffix ++
      [Event.logDebug "funds withdrawal completed"], ?_, ?_⟩
    · unfold UserService.WithdrawFunds
      rcases hrun : Storage.RunTx (⟨p⟩ : Storage σ) ctx
          (UserService.withdrawWork ⟨⟨p⟩⟩ login amount) 0
          (w.emit (Event.logDebug "funds withdrawal started")) with ⟨⟨_ | e, k2⟩, w2⟩ <;>
        (rw [hrun] at htr; simp only [World.emit] at htr; simp [hrun, World.emit, htr])
    · rw [txEventsOf_append, txEventsOf_append, hev]
      rfl
  · intro login password firstName lastName balance
    obtain ⟨suffix, htr, hev⟩ := Storage.runTx_owner_events (⟨p⟩ : Storage σ) ctx
      (Storage.createUserWork ⟨p⟩ login password firstName lastName balance)
      { ID := "", FirstName := firstName, LastName := lastName, Login := login,
        Password := password, Balance := balance }
      (w.emit (Event.call (Call.CreateUser login password firstName lastName balance)))
      tx env1 hctx hbegin
      (fun k1 w1 => Storage.createUserWork_quiet _ login password firstName lastName balance
        _ k1 w1 tx hwv)
    refine ⟨[Event.call (Call.CreateUser login password firstName lastName balance)] ++ suffix,
      ?_, ?_⟩
    · unfold Storage.CreateUser
      simp only
      rcases hrun : Storage.RunTx (⟨p⟩ : Storage σ) ctx
          (Storage.createUserWork ⟨p⟩ login password firstName lastName balance)
          { ID := "", FirstName := firstName, LastName := lastName, Login := login,
            Password := password, Balance := balance }
          (w.emit (Event.call (Call.CreateUser login password firstName lastName balance)))
        with ⟨⟨_ | e, k2⟩, w2⟩ <;>
        (rw [hrun] at htr; simp only [World.emit] at htr; simp [htr])
    · rw [txEventsOf_append, hev]
      rfl

/-- C12 (witness): on the in-memory store holding "bob" with balance 1000, a losing spin
of 100, a deposit of 10, a withdrawal of 5000 and the creation of "eve". -/
theorem single_begin_single_end_witness :
    (∃ suffix : List Event,
      (memSlotService.Spin ⟨none⟩ (memUser "bob" 1000) 100
        (memInit "bob" 1000 [] [(⟨5, 6, 7⟩, none)])).2.trace =
        (memInit "bob" 1000 [] [(⟨5, 6, 7⟩, none)]).trace ++ suffix ∧
      txEventsOf suffix = [Event.begin, Event.commit 0]) ∧
    (∃ suffix : List Event,
      (memUserService.DepositFunds ⟨none⟩ "bob" 10
        (memInit "bob" 1000 [] [(⟨5, 6, 7⟩, none)])).2.trace =
        (memInit "bob" 1000 [] [(⟨5, 6, 7⟩, none)]).trace ++ suffix ∧
      txEventsOf suffix = [Event.begin, Event.commit 0]) ∧
    (∃ suffix : List Event,
      (memUserService.WithdrawFunds ⟨none⟩ "bob" 5000
        (memInit "bob" 1000 [] [(⟨5, 6, 7⟩, none)])).2.trace =
        (memInit "bob" 1000 [] [(⟨5, 6, 7⟩, none)]).trace ++ suffix ∧
      txEventsOf suffix = [Event.begin, Event.rollback 0]) ∧
    (∃ suffix : List Event,
      (memStorage.CreateUser ⟨none⟩ "eve" "hash" "Eve" "Vee" 5
        (memInit "bob" 1000 [] [(⟨5, 6, 7⟩, none)])).2.trace =
        (memInit "bob" 1000 [] [(⟨5, 6, 7⟩, none)]).trace ++ suffix ∧
      txEventsOf suffix = [Event.begin, Event.commit 0]) :=
  have h := single_begin_single_end memPool memGenerate ⟨none⟩
    (memInit "bob" 1000 [] [(⟨5, 6, 7⟩, none)]) 0
    (memPool.Begin (memInit "bob" 1000 [] [(⟨5, 6, 7⟩, none)]).env).2 rfl rfl
  ⟨h.1 (memUser "bob" 1000) 100, h.2.1 "bob" 10, h.2.2.1 "bob" 5000,
    h.2.2.2 "eve" "hash" "Eve" "Vee" 5⟩

/-! ### Deposit and withdrawal -/

theorem UserService.withdrawWork_insufficient {σ : Type} (us : UserService σ) (login : String)
    (amount : Int) (ctx : Context) (cap : Int) (w : World σ) (tx : Tx) (B : Int) (e2 : σ)
    (hctx : txFromContext ctx = some tx)
    (hread : us.storage.conn.selectBalance tx login w.env = (Except.ok B, e2))
    (hlt : B < amount) :
    us.withdrawWork login amount ctx cap w =
      ((some Error.ErrInsufficientFunds, cap),
        { env := e2, trace := w.trace ++
          [Event.call (Call.GetUserBalanceByLogin login), Event.sql tx (Sql.selectBalance login)] }) := by
  simp [UserService.withdrawWork, Storage.getUserBalanceByLogin_tx _ ctx _ _ tx hctx, hread, hlt]

theorem UserService.withdrawWork_write {σ : Type} (us : UserService σ) (login : String)
    (amount : Int) (ctx : Context) (cap : Int) (w : World σ) (tx : Tx) (B : Int) (e2 : σ)
    (hctx : txFromContext ctx = some tx)
    (hread : us.storage.conn.selectBalance tx login w.env = (Except.ok B, e2))
    (hge : ¬ B < amount) :
    us.withdrawWork login amount ctx cap w =
      ((match (us.storage.conn.updateBalance tx (wrapInt64 (B - amount)) login e2).1 with
        | Except.error err =>
            some (if errorsIs (Error.wrapped "error updating user balance: %w" err)
                Error.storageErrUserNotFound
              then Error.ErrUserNotFound
              else Error.wrapped "error updating user balance: %w" err)
        | Except.ok n => if n = 0 then some Error.ErrUserNotFound else none,
        wrapInt64 (B - amount)),
        { env := (us.storage.conn.updateBalance tx (wrapInt64 (B - amount)) login e2).2,
          trace := w.trace ++
            [Event.call (Call.GetUserBalanceByLogin login), Event.sql tx (Sql.selectBalance login),
             Event.call (Call.SetUserBalanceByLogin login (wrapInt64 (B - amount))),
             Event.sql tx (Sql.updateBalance (wrapInt64 (B - amount)) login)] }) := by
  simp only [UserService.withdrawWork, Storage.getUserBalanceByLogin_tx _ ctx _ _ tx hctx, hread,
    hge, if_false, Storage.setUserBalanceByLogin_tx _ ctx _ _ _ tx hctx]
  rcases hu : us.storage.conn.updateBalance tx (wrapInt64 (B - amount)) login e2 with
    ⟨err | n, e3⟩
  · simp only [List.append_assoc, List.cons_append, List.nil_append]
    split_ifs <;> rfl
  · by_cases hn : n = 0
    · simp [hn, errorsIs]
    · simp [hn]

theorem UserService.depositWork_write {σ : Type} (us : UserService σ) (login : String)
    (amount : Int) (ctx : Context) (cap : Int) (w : World σ) (tx : Tx) (B : Int) (e2 : σ)
    (hctx : txFromContext ctx = some tx)
    (hread : us.storage.conn.selectBalance tx login w.env = (Except.ok B, e2)) :
    us.depositWork login amount ctx cap w =
      ((match (us.storage.conn.updateBalance tx (wrapInt64 (B + amount)) login e2).1 with
        | Except.error err =>
            some (if errorsIs (Error.wrapped "error updating user balance: %w" err)
                Error.storageErrUserNotFound
              then Error.ErrUserNotFound
              else Error.wrapped "error updating user balance: %w" err)
        | Except.ok n => if n = 0 then some Error.ErrUserNotFound else none,
        wrapInt64 (B + amount)),
        { env := (us.storage.conn.updateBalance tx (wrapInt64 (B + amount)) login e2).2,
          trace := w.trace ++
            [Event.call (Call.GetUserBalanceByLogin login), Event.sql tx (Sql.selectBalance login),
             Event.call (Call.SetUserBalanceByLogin login (wrapInt64 (B + amount))),
             Event.sql tx (Sql.updateBalance (wrapInt64 (B + amount)) login)] }) := by
  simp only [UserService.depositWork, Storage.getUserBalanceByLogin_tx _ ctx _ _ tx hctx, hread,
    Storage.setUserBalanceByLogin_tx _ ctx _ _ _ tx hctx]
  rcases hu : us.storage.conn.updateBalance tx (wrapInt64 (B + amount)) login e2 with
    ⟨err | n, e3⟩
  · simp only [List.append_assoc, List.cons_append, List.nil_append]
    split_ifs <;> rfl
  · by_cases hn : n = 0
    · simp [hn, errorsIs]
    · simp [hn]

/-- The result and the trace of `DepositFunds` or `WithdrawFunds`, whose bodies differ
only in the work function and the log messages, from the outcome of the work function. -/
theorem Storage.runTx_wallet {σ : Type} (s : Storage σ) (ctx : Context) (f : TxFn σ Int)
    (w : World σ) (tx : Tx) (txOwner : Bool) (ctx1 : Context) (w1 w2 : World σ)
    (r : Option Error) (k2 : Int)
    (hopen : s.runTxOpen ctx w = (Except.ok (tx, txOwner, ctx1), w1))
    (hwork : f ctx1 0 w1 = ((r, k2), w2)) :
    ∃ rest : List Event,
      (s.RunTx ctx f 0 w).2.trace = w2.trace ++ rest ∧ callsOf rest = [] ∧ sqlOf rest = [] ∧
      (∀ e, r = some e → (s.RunTx ctx f 0 w).1 = (some e, k2)) ∧
      (r = none → (txOwner = true → (s.conn.Commit tx w2.env).1 = none) →
        (s.RunTx ctx f 0 w).1 = (none, k2)) ∧
      (r = none → (s.RunTx ctx f 0 w).1.1 = none → (s.RunTx ctx f 0 w).1 = (none, k2)) := by
  cases r with
  | some e =>
      obtain ⟨rest, env3, hrun, hshape⟩ :=
        Storage.runTx_error_shape s ctx f 0 w tx txOwner ctx1 w1 e k2 w2 hopen hwork
      refine ⟨rest, by rw [hrun], ?_, ?_, ?_, ?_, ?_⟩
      · rcases hshape with ⟨-, rfl, -⟩ | ⟨-, -, rfl | ⟨r, rfl⟩⟩ <;> simp [callsOf]
      · rcases hshape with ⟨-, rfl, -⟩ | ⟨-, -, rfl | ⟨r, rfl⟩⟩ <;> simp [sqlOf]
      · intro e' he
        cases he
        rw [hrun]
      · intro h; cases h
      · intro h; cases h
  | none =>
      rcases Storage.runTx_ok_shape s ctx f 0 w tx txOwner ctx1 w1 k2 w2 hopen hwork with
        ⟨rfl, hrun⟩ | ⟨rfl, hrun⟩
      · refine ⟨[], by rw [hrun]; simp, rfl, rfl, ?_, ?_, ?_⟩
        · intro e he; cases he
        · intro _ _; rw [hrun]
        · intro _ _; rw [hrun]
      · refine ⟨[Event.commit tx], by rw [hrun], rfl, rfl, ?_, ?_, ?_⟩
        · intro e he; cases he
        · intro _ hc
          rw [hrun, hc rfl]
        · intro _ hc
          rw [hrun] at hc ⊢
          simp only at hc
          rw [hc]

theorem UserService.withdrawFunds_unfold {σ : Type} (us : UserService σ) (ctx : Context)
    (login : String) (amount : Int) (w : World σ) :
    (us.WithdrawFunds ctx login amount w).1 =
      (match (us.storage.RunTx ctx (us.withdrawWork login amount) 0
          (w.emit (Event.logDebug "funds withdrawal started"))).1 with
        | (some err, _) => (0, some err)
        | (none, balance) => (balance, none)) ∧
    (us.WithdrawFunds ctx login amount w).2.trace =
      (us.storage.RunTx ctx (us.withdrawWork login amount) 0
          (w.emit (Event.logDebug "funds withdrawal started"))).2.trace ++
        [Event.logDebug "funds withdrawal completed"] := by
  unfold UserService.WithdrawFunds
  rcases us.storage.RunTx ctx (us.withdrawWork login amount) 0
      (w.emit (Event.logDebug "funds withdrawal started")) with ⟨⟨_ | e, k2⟩, w2⟩ <;>
    exact ⟨rfl, rfl⟩

theorem UserService.depositFunds_unfold {σ : Type} (us : UserService σ) (ctx : Context)
    (login : String) (amount : Int) (w : World σ) :
    (us.DepositFunds ctx login amount w).1 =
      (match (us.storage.RunTx ctx (us.depositWork login amount) 0
          (w.emit (Event.logDebug "funds deposit started"))).1 with
        | (some err, _) => (0, some err)
        | (none, balance) => (balance, none)) ∧
    (us.DepositFunds ctx login amount w).2.trace =
      (us.storage.RunTx ctx (us.depositWork login amount) 0
          (w.emit (Event.logDebug "funds deposit started"))).2.trace ++
        [Event.logDebug "funds deposit completed"] := by
  unfold UserService.DepositFunds
  rcases us.storage.RunTx ctx (us.depositWork login amount) 0
      (w.emit (Event.logDebug "funds deposit started")) with ⟨⟨_ | e, k2⟩, w2⟩ <;>
    exact ⟨rfl, rfl⟩

/-- C13 (counterexample): withdrawing the amount `-1` from the balance `2^63 - 1`
succeeds, and the balance written and returned is `-2^63`, not `B - amount = 2^63`. -/
theorem UserService.withdraw_balance_overflow :
    (memUserService.WithdrawFunds ⟨none⟩ "bob" (-1)
        (memInit "bob" 9223372036854775807 [] [])).1 = (-9223372036854775808, none) ∧
    callsOf (memUserService.WithdrawFunds ⟨none⟩ "bob" (-1)
        (memInit "bob" 9223372036854775807 [] [])).2.trace =
      [Call.GetUserBalanceByLogin "bob",
       Call.SetUserBalanceByLogin "bob" (-9223372036854775808)] ∧
    (-9223372036854775808 : Int) ≠ 9223372036854775807 - (-1) := by
  refine ⟨by rfl, by rfl, by decide⟩

/-- C13 (amended): for a `WithdrawFunds` call whose balance read returns `B` and whose
store calls do not fail (the balance write affects a row and, for the owner, `Commit`
succeeds), the call fails with `ErrInsufficientFunds` exactly when `amount > B`, and then
issues no balance write; otherwise it writes and returns the `int64` difference of `B` and
`amount`, which is `B - amount` whenever that is an `int64`. -/
theorem UserService.withdraw_outcome {σ : Type} (us : UserService σ) (ctx : Context)
    (login : String) (amount : Int) (w : World σ) (tx : Tx) (txOwner : Bool) (ctx1 : Context)
    (w1 : World σ) (B : Int) (e2 : σ)
    (hopen : us.storage.runTxOpen ctx (w.emit (Event.logDebug "funds withdrawal started")) =
      (Except.ok (tx, txOwner, ctx1), w1))
    (hread : us.storage.conn.selectBalance tx login w1.env = (Except.ok B, e2))
    (hstore : ¬ B < amount → ∃ (n : Nat) (e3 : σ),
      us.storage.conn.updateBalance tx (wrapInt64 (B - amount)) login e2 = (Except.ok n, e3) ∧
      n ≠ 0 ∧ (txOwner = true → (us.storage.conn.Commit tx e3).1 = none)) :
    ((us.WithdrawFunds ctx login amount w).1.2 = some Error.ErrInsufficientFunds ↔ amount > B) ∧
    (amount > B →
      (us.WithdrawFunds ctx login amount w).1 = (0, some Error.ErrInsufficientFunds) ∧
      ∃ suffix : List Event,
        (us.WithdrawFunds ctx login amount w).2.trace = w.trace ++ suffix ∧
        callsOf suffix = [Call.GetUserBalanceByLogin login] ∧
        sqlOf suffix = [Sql.selectBalance login]) ∧
    (¬ amount > B →
      (us.WithdrawFunds ctx login amount w).1 = (wrapInt64 (B - amount), none) ∧
      (isInt64 (B - amount) → (us.WithdrawFunds ctx login amount w).1.1 = B - amount) ∧
      ∃ suffix : List Event,
        (us.WithdrawFunds ctx login amount w).2.trace = w.trace ++ suffix ∧
        callsOf suffix = [Call.GetUserBalanceByLogin login,
          Call.SetUserBalanceByLogin login (wrapInt64 (B - amount))] ∧
        sqlOf suffix = [Sql.selectBalance login,
          Sql.updateBalance (wrapInt64 (B - amount)) login]) := by
  have hctx1 := (Storage.runTxOpen_ok _ ctx _ tx txOwner ctx1 w1 hopen).1
  have htr := Storage.runTxOpen_trace _ ctx _ tx txOwner ctx1 w1 hopen
  obtain ⟨hres, htrace⟩ := UserService.withdrawFunds_unfold us ctx login amount w
  have hlow : amount > B →
      (us.WithdrawFunds ctx login amount w).1 = (0, some Error.ErrInsufficientFunds) ∧
      ∃ suffix : List Event,
        (us.WithdrawFunds ctx login amount w).2.trace = w.trace ++ suffix ∧
        callsOf suffix = [Call.GetUserBalanceByLogin login] ∧
        sqlOf suffix = [Sql.selectBalance login] := by
    intro hgt
    have hwork := UserService.withdrawWork_insufficient us login amount ctx1 0 w1 tx B e2
      hctx1 hread hgt
    obtain ⟨rest, hrt, hcalls, hsql, herr, -, -⟩ :=
      Storage.runTx_wallet us.storage ctx _ _ tx txOwner ctx1 w1 _ _ _ hopen hwork
    refine ⟨by rw [hres, herr _ rfl], ?_⟩
    refine ⟨[Event.logDebug "funds withdrawal started"] ++
      (if txOwner then [Event.begin] else []) ++
      [Event.call (Call.GetUserBalanceByLogin login), Event.sql tx (Sql.selectBalance login)] ++
      rest ++ [Event.logDebug "funds withdrawal completed"], ?_, ?_, ?_⟩
    · rw [htrace, hrt]
      simp [htr, World.emit]
    · simp only [callsOf_append, hcalls]
      cases txOwner <;> rfl
    · simp only [sqlOf_append, hsql]
      cases txOwner <;> rfl
  have hhigh : ¬ amount > B →
      (us.WithdrawFunds ctx login amount w).1 = (wrapInt64 (B - amount), none) ∧
      ∃ suffix : List Event,
        (us.WithdrawFunds ctx login amount w).2.trace = w.trace ++ suffix ∧
        callsOf suffix = [Call.GetUserBalanceByLogin login,
          Call.SetUserBalanceByLogin login (wrapInt64 (B - amount))] ∧
        sqlOf suffix = [Sql.selectBalance login,
          Sql.updateBalance (wrapInt64 (B - amount)) login] := by
    intro hle
    have hge : ¬ B < amount := hle
    obtain ⟨n, e3, hupd, hn, hcommit⟩ := hstore hge
    have hwork := UserService.withdrawWork_write us login amount ctx1 0 w1 tx B e2
      hctx1 hread hge
    rw [hupd] at hwork
    simp only [hn, if_false] at hwork
    obtain ⟨rest, hrt, hcalls, hsql, -, hok, -⟩ :=
      Storage.runTx_wallet us.storage ctx _ _ tx txOwner ctx1 w1 _ _ _ hopen hwork
    refine ⟨by rw [hres, hok rfl hcommit], ?_⟩
    refine ⟨[Event.logDebug "funds withdrawal started"] ++
      (if txOwner then [Event.begin] else []) ++
      [Event.call (Call.GetUserBalanceByLogin login), Event.sql tx (Sql.selectBalance login),
       Event.call (Call.SetUserBalanceByLogin login (wrapInt64 (B - amount))),
       Event.sql tx (Sql.updateBalance (wrapInt64 (B - amount)) login)] ++
      rest ++ [Event.logDebug "funds withdrawal completed"], ?_, ?_, ?_⟩
    · rw [htrace, hrt]
      simp [htr, World.emit]
    · simp only [callsOf_append, hcalls]
      cases txOwner <;> rfl
    · simp only [sqlOf_append, hsql]
      cases txOwner <;> rfl
  refine ⟨⟨?_, fun h => by rw [(hlow h).1]⟩, hlow, ?_⟩
  · intro herr
    by_contra hle
    rw [(hhigh hle).1] at herr
    cases herr
  · intro hle
    obtain ⟨h1, h2⟩ := hhigh hle
    refine ⟨h1, ?_, h2⟩
    intro hi
    rw [h1]
    exact wrapInt64_of_isInt64 hi

/-- C13 (witness): end-to-end scenario 4 on the in-memory store: withdrawing 30 from 40
gives 10; withdrawing 30 again fails with `ErrInsufficientFunds` and the committed
balance stays 10. -/
theorem UserService.withdraw_outcome_witness :
    (memUserService.WithdrawFunds ⟨none⟩ "bob" 30 (memInit "bob" 40 [] [])).1 =
      (wrapInt64 (40 - 30), none) ∧
    wrapInt64 (40 - 30) = 10 ∧
    (memUserService.WithdrawFunds ⟨none⟩ "bob" 30
      (memUserService.WithdrawFunds ⟨none⟩ "bob" 30 (memInit "bob" 40 [] [])).2).1 =
      (0, some Error.ErrInsufficientFunds) ∧
    ((memUserService.WithdrawFunds ⟨none⟩ "bob" 30
      (memUserService.WithdrawFunds ⟨none⟩ "bob" 30
        (memInit "bob" 40 [] [])).2).2.env.committed.users.map (fun u => u.Balance)) = [10] :=
  have h := UserService.withdraw_outcome memUserService ⟨none⟩ "bob" 30 (memInit "bob" 40 [] [])
    0 true ⟨some 0⟩
    (memStorage.runTxOpen ⟨none⟩
      ((memInit "bob" 40 [] []).emit (Event.logDebug "funds withdrawal started"))).2
    40
    (memPool.selectBalance 0 "bob" (memStorage.runTxOpen ⟨none⟩
      ((memInit "bob" 40 [] []).emit (Event.logDebug "funds withdrawal started"))).2.env).2
    rfl rfl (fun _ => ⟨1, _, rfl, by decide, fun _ => rfl⟩)
  ⟨(h.2.2 (by decide)).1, by decide, by rfl, by rfl⟩

/-- C14 (counterexample): after the balance read has found the account, `DepositFunds`
fails when the balance write fails and when the write affects no row; and a deposit of 1
on the balance `2^63 - 1` succeeds, writing and returning `-2^63`. -/
theorem UserService.deposit_can_fail_or_overflow :
    (memUserService.DepositFunds ⟨none⟩ "bob" 10
        (memInit "bob" 40 [none, none, some (Error.other "update failed")] [])).1 =
      (0, some (Error.wrapped "error updating user balance: %w"
        (Error.other "update failed"))) ∧
    (UserService.DepositFunds ⟨⟨memPoolVanished⟩⟩ ⟨none⟩ "bob" 10 (memInit "bob" 40 [] [])).1 =
      (0, some Error.ErrUserNotFound) ∧
    (memUserService.DepositFunds ⟨none⟩ "bob" 1
        (memInit "bob" 9223372036854775807 [] [])).1 = (-9223372036854775808, none) ∧
    callsOf (memUserService.DepositFunds ⟨none⟩ "bob" 1
        (memInit "bob" 9223372036854775807 [] [])).2.trace =
      [Call.GetUserBalanceByLogin "bob",
       Call.SetUserBalanceByLogin "bob" (-9223372036854775808)] ∧
    (-9223372036854775808 : Int) ≠ 9223372036854775807 + 1 := by
  refine ⟨by rfl, by rfl, by rfl, by rfl, by decide⟩

/-- C14 (amended): for every login and every amount, once the balance read of
`DepositFunds` has found the account with balance `B`, and provided the balance write
affects a row and neither it nor, for the owner, `Commit` fails, `DepositFunds` succeeds,
writes the `int64` sum of `B` and `amount` and returns it; that sum is `B + amount`
whenever that is an `int64`. No upper bound or sufficiency check is applied. -/
theorem UserService.deposit_outcome {σ : Type} (us : UserService σ) (ctx : Context)
    (login : String) (amount : Int) (w : World σ) (tx : Tx) (txOwner : Bool) (ctx1 : Context)
    (w1 : World σ) (B : Int) (e2 : σ) (n : Nat) (e3 : σ)
    (hopen : us.storage.runTxOpen ctx (w.emit (Event.logDebug "funds deposit started")) =
      (Except.ok (tx, txOwner, ctx1), w1))
    (hread : us.storage.conn.selectBalance tx login w1.env = (Except.ok B, e2))
    (hupd : us.storage.conn.updateBalance tx (wrapInt64 (B + amount)) login e2 =
      (Except.ok n, e3))
    (hn : n ≠ 0)
    (hcommit : txOwner = true → (us.storage.conn.Commit tx e3).1 = none) :
    (us.DepositFunds ctx login amount w).1 = (wrapInt64 (B + amount), none) ∧
    (isInt64 (B + amount) → (us.DepositFunds ctx login amount w).1.1 = B + amount) ∧
    ∃ suffix : List Event,
      (us.DepositFunds ctx login amount w).2.trace = w.trace ++ suffix ∧
      callsOf suffix = [Call.GetUserBalanceByLogin login,
        Call.SetUserBalanceByLogin login (wrapInt64 (B + amount))] ∧
      sqlOf suffix = [Sql.selectBalance login,
        Sql.updateBalance (wrapInt64 (B + amount)) login] := by
  have hctx1 := (Storage.runTxOpen_ok _ ctx _ tx txOwner ctx1 w1 hopen).1
  have htr := Storage.runTxOpen_trace _ ctx _ tx txOwner ctx1 w1 hopen
  obtain ⟨hres, htrace⟩ := UserService.depositFunds_unfold us ctx login amount w
  have hwork := UserService.depositWork_write us login amount ctx1 0 w1 tx B e2 hctx1 hread
  rw [hupd] at hwork
  simp only [hn, if_false] at hwork
  obtain ⟨rest, hrt, hcalls, hsql, -, hok, -⟩ :=
    Storage.runTx_wallet us.storage ctx _ _ tx txOwner ctx1 w1 _ _ _ hopen hwork
  have h1 : (us.DepositFunds ctx login amount w).1 = (wrapInt64 (B + amount), none) := by
    rw [hres, hok rfl hcommit]
  refine ⟨h1, fun hi => by rw [h1]; exact wrapInt64_of_isInt64 hi, ?_⟩
  refine ⟨[Event.logDebug "funds deposit started"] ++
    (if txOwner then [Event.begin] else []) ++
    [Event.call (Call.GetUserBalanceByLogin login), Event.sql tx (Sql.selectBalance login),
     Event.call (Call.SetUserBalanceByLogin login (wrapInt64 (B + amount))),
     Event.sql tx (Sql.updateBalance (wrapInt64 (B + amount)) login)] ++
    rest ++ [Event.logDebug "funds deposit completed"], ?_, ?_, ?_⟩
  · rw [htrace, hrt]
    simp [htr, World.emit]
  · simp only [callsOf_append, hcalls]
    cases txOwner <;> rfl
  · simp only [sqlOf_append, hsql]
    cases txOwner <;> rfl

/-- C14 (witness): a deposit of 25 on the balance 40 of the in-memory store returns 65;
so does a "deposit" of `-100`, which returns `-60` without any sufficiency check. -/
theorem UserService.deposit_outcome_witness :
    ((memUserService.DepositFunds ⟨none⟩ "bob" 25 (memInit "bob" 40 [] [])).1 =
        (wrapInt64 (40 + 25), none) ∧ wrapInt64 (40 + 25) = 65) ∧
    ((memUserService.DepositFunds ⟨none⟩ "bob" (-100) (memInit "bob" 40 [] [])).1 =
        (wrapInt64 (40 + -100), none) ∧ wrapInt64 (40 + -100) = -60) :=
  ⟨⟨(UserService.deposit_outcome memUserService ⟨none⟩ "bob" 25 (memInit "bob" 40 [] [])
      0 true ⟨some 0⟩
      (memStorage.runTxOpen ⟨none⟩
        ((memInit "bob" 40 [] []).emit (Event.logDebug "funds deposit started"))).2
      40
      (memPool.selectBalance 0 "bob" (memStorage.runTxOpen ⟨none⟩
        ((memInit "bob" 40 [] []).emit (Event.logDebug "funds deposit started"))).2.env).2
      1 _ rfl rfl rfl (by decide) (fun _ => rfl)).1, by decide⟩,
   ⟨(UserService.deposit_outcome memUserService ⟨none⟩ "bob" (-100) (memInit "bob" 40 [] [])
      0 true ⟨some 0⟩
      (memStorage.runTxOpen ⟨none⟩
        ((memInit "bob" 40 [] []).emit (Event.logDebug "funds deposit started"))).2
      40
      (memPool.selectBalance 0 "bob" (memStorage.runTxOpen ⟨none⟩
        ((memInit "bob" 40 [] []).emit (Event.logDebug "funds deposit started"))).2.env).2
      1 _ rfl rfl rfl (by decide) (fun _ => rfl)).1, by decide⟩⟩

theorem UserService.withdraw_success_inv {σ : Type} (us : UserService σ) (ctx : Context)
    (login : String) (amount : Int) (w : World σ) (tx : Tx) (txOwner : Bool) (ctx1 : Context)
    (w1 : World σ) (B : Int) (e2 : σ) (nb : Int)
    (hopen : us.storage.runTxOpen ctx (w.emit (Event.logDebug "funds withdrawal started")) =
      (Except.ok (tx, txOwner, ctx1), w1))
    (hread : us.storage.conn.selectBalance tx login w1.env = (Except.ok B, e2))
    (hs : (us.WithdrawFunds ctx login amount w).1 = (nb, none)) :
    ¬ B < amount ∧ nb = wrapInt64 (B - amount) ∧
    ∃ suffix : List Event,
      (us.WithdrawFunds ctx login amount w).2.trace = w.trace ++ suffix ∧
      callsOf suffix = [Call.GetUserBalanceByLogin login,
        Call.SetUserBalanceByLogin login nb] := by
  have hctx1 := (Storage.runTxOpen_ok _ ctx _ tx txOwner ctx1 w1 hopen).1
  have htr := Storage.runTxOpen_trace _ ctx _ tx txOwner ctx1 w1 hopen
  obtain ⟨hres, htrace⟩ := UserService.withdrawFunds_unfold us ctx login amount w
  rw [hres] at hs
  by_cases hlt : B < amount
  · have hwork := UserService.withdrawWork_insufficient us login amount ctx1 0 w1 tx B e2
      hctx1 hread hlt
    obtain ⟨rest, -, -, -, herr, -, -⟩ :=
      Storage.runTx_wallet us.storage ctx _ _ tx txOwner ctx1 w1 _ _ _ hopen hwork
    rw [herr _ rfl] at hs
    simp at hs
  · have hwork := UserService.withdrawWork_write us login amount ctx1 0 w1 tx B e2
      hctx1 hread hlt
    obtain ⟨rest, hrt, hcalls, -, herr, -, hok⟩ :=
      Storage.runTx_wallet us.storage ctx _ _ tx txOwner ctx1 w1 _ _ _ hopen hwork
    rcases hr : (match (us.storage.conn.updateBalance tx (wrapInt64 (B - amount)) login e2).1 with
        | Except.error err =>
            some (if errorsIs (Error.wrapped "error updating user balance: %w" err)
                Error.storageErrUserNotFound
              then Error.ErrUserNotFound
              else Error.wrapped "error updating user balance: %w" err)
        | Except.ok n => if n = 0 then some Error.ErrUserNotFound else none) with _ | e
    · have hnone : (us.storage.RunTx ctx (us.withdrawWork login amount) 0
          (w.emit (Event.logDebug "funds withdrawal started"))).1.1 = none := by
        rcases hx : (us.storage.RunTx ctx (us.withdrawWork login amount) 0
          (w.emit (Event.logDebug "funds withdrawal started"))).1 with ⟨_ | e, b⟩
        · rfl
        · rw [hx] at hs
          simp at hs
      have hrun := hok hr hnone
      rw [hrun] at hs
      simp only [Prod.mk.injEq, and_true] at hs
      subst hs
      refine ⟨hlt, rfl, ?_⟩
      refine ⟨[Event.logDebug "funds withdrawal started"] ++
        (if txOwner then [Event.begin] else []) ++
        [Event.call (Call.GetUserBalanceByLogin login), Event.sql tx (Sql.selectBalance login),
         Event.call (Call.SetUserBalanceByLogin login (wrapInt64 (B - amount))),
         Event.sql tx (Sql.updateBalance (wrapInt64 (B - amount)) login)] ++
        rest ++ [Event.logDebug "funds withdrawal completed"], ?_, ?_⟩
      · rw [htrace, hrt]
        simp [htr, World.emit]
      · simp only [callsOf_append, hcalls]
        cases txOwner <;> rfl
    · rw [herr e hr] at hs
      simp at hs

/-! ### The spin record and the new balance -/

theorem SlotService.spin_success_shape {σ : Type} (ss : SlotService σ) (ctx : Context)
    (user : User) (betAmount : Int) (w : World σ) (spin : Option SlotGame.Spin)
    (newBalance : Int)
    (h : (ss.Spin ctx user betAmount w).1 = (spin, newBalance, none)) :
    ∃ (tx : Tx) (txOwner : Bool) (ctx1 : Context) (w1 : World σ) (B : Int) (e2 : σ)
        (c : Combination) (win : Int) (id : String) (createdAt : Nat),
      ss.storage.runTxOpen ctx w = (Except.ok (tx, txOwner, ctx1), w1) ∧
      ss.storage.conn.selectBalance tx user.Login w1.env = (Except.ok B, e2) ∧
      ¬ B < betAmount ∧ 0 < betAmount ∧
      (ss.slotMachine.generate e2).1 = (c, none) ∧
      win = (match c.type with
        | SpinResult.Lose => wrapInt64 (-betAmount)
        | SpinResult.Win => wrapInt64 (2 * betAmount)
        | SpinResult.SuperWin => wrapInt64 (10 * betAmount)) ∧
      newBalance = wrapInt64 (B + win) ∧
      spin = some { ID := id, UserID := user.ID, Combination := c.String, Result := c.type,
                    BetAmount := betAmount, WinAmount := win, CreatedAt := createdAt } ∧
      ∃ suffix : List Event,
        (ss.Spin ctx user betAmount w).2.trace = w.trace ++ suffix ∧
        callsOf suffix =
          [Call.GetUserBalanceByLogin user.Login,
           Call.SetUserBalanceByLogin user.Login newBalance,
           Call.CreateSpin user.ID c.String c.type betAmount win] ∧
        sqlOf suffix =
          [Sql.selectBalance user.Login,
           Sql.updateBalance newBalance user.Login,
           Sql.insertSpin user.ID c.String c.type betAmount win] := by
  rcases hopen : ss.storage.runTxOpen ctx w with ⟨err | ⟨tx, txOwner, ctx1⟩, w1⟩
  · have hrun := (Storage.runTx_begin_error ss.storage ctx
      (ss.spinWork user betAmount) (0, none) w err w1 hopen).1
    simp [SlotService.Spin, hrun] at h
  · have hctx1 := (Storage.runTxOpen_ok _ ctx w tx txOwner ctx1 w1 hopen).1
    have htr := Storage.runTxOpen_trace _ ctx w tx txOwner ctx1 w1 hopen
    rcases hwork : ss.spinWork user betAmount ctx1 (0, none) w1 with ⟨⟨_ | e, k2⟩, w2⟩
    · obtain ⟨B, e2, c, win, w3, id, t, hread, hge, hsp, hk2, hw2⟩ :=
        SlotService.spinWork_ok_inv ss user betAmount ctx1 (0, none) k2 w1 w2 tx hctx1 hwork
      obtain ⟨hpos, hgen, hw3, hwin⟩ := SlotMachine.spin_ok_inv _ _ _ _ _ _ hsp
      have hrun := Storage.runTx_ok_shape _ ctx _ _ w tx txOwner ctx1 w1 _ _ hopen hwork
      subst hk2
      have hfin : (ss.Spin ctx user betAmount w).1 = (spin, newBalance, none) →
          ∃ rest : List Event, (ss.Spin ctx user betAmount w).2.trace = w2.trace ++ rest ∧
            callsOf rest = [] ∧ sqlOf rest = [] ∧ newBalance = wrapInt64 (B + win) ∧
            spin = some { ID := id, UserID := user.ID, Combination := c.String,
                          Result := c.type, BetAmount := betAmount, WinAmount := win,
                          CreatedAt := t } := by
        intro h
        rcases hrun with ⟨-, hrun⟩ | ⟨-, hrun⟩
        · simp only [SlotService.Spin, hrun, Prod.mk.injEq, and_true] at h
          obtain ⟨rfl, rfl⟩ := h
          exact ⟨[], by simp [SlotService.Spin, hrun], rfl, rfl, rfl, rfl⟩
        · rcases hc : (ss.storage.conn.Commit tx w2.env).1 with _ | ce
          · simp only [SlotService.Spin, hrun, hc, Prod.mk.injEq, and_true] at h
            obtain ⟨rfl, rfl⟩ := h
            exact ⟨[Event.commit tx], by simp [SlotService.Spin, hrun, hc], rfl, rfl, rfl, rfl⟩
          · simp [SlotService.Spin, hrun, hc] at h
      obtain ⟨rest, hrt, hcalls, hsql, rfl, rfl⟩ := hfin h
      refine ⟨tx, txOwner, ctx1, w1, B, e2, c, win, id, t, rfl, hread, hge, hpos, hgen, hwin,
        rfl, rfl, ?_⟩
      refine ⟨(if txOwner then [Event.begin] else []) ++
        [Event.call (Call.GetUserBalanceByLogin user.Login),
         Event.sql tx (Sql.selectBalance user.Login), Event.generate,
         Event.call (Call.SetUserBalanceByLogin user.Login (wrapInt64 (B + win))),
         Event.sql tx (Sql.updateBalance (wrapInt64 (B + win)) user.Login),
         Event.call (Call.CreateSpin user.ID c.String c.type betAmount win),
         Event.sql tx (Sql.insertSpin user.ID c.String c.type betAmount win)] ++ rest,
        ?_, ?_, ?_⟩
      · rw [hrt, hw2, hw3]
        simp [htr]
      · simp only [callsOf_append, hcalls]
        cases txOwner <;> rfl
      · simp only [sqlOf_append, hsql]
        cases txOwner <;> rfl
    · obtain ⟨rest, env3, hrun, -⟩ :=
        Storage.runTx_error_shape _ ctx _ _ w tx txOwner ctx1 w1 _ _ _ hopen hwork
      simp [SlotService.Spin, hrun] at h

/-- C15 (the failing input): the account is found by the balance read and has vanished
at the balance write, which affects no row. `SlotService.Spin` returns the storage-level
`storage.ErrUserNotFound` unmapped, which is not `service.ErrUserNotFound`, whereas
`DepositFunds` and `WithdrawFunds` return `service.ErrUserNotFound` on the same store. -/
theorem SlotService.spin_vanished_account_error :
    (SlotService.Spin ⟨⟨memPoolVanished⟩, ⟨memGenerate⟩⟩ ⟨none⟩ (memUser "bob" 1000) 100
        (memInit "bob" 1000 [] [(⟨5, 6, 7⟩, none)])).1 =
      (none, 0, some Error.storageErrUserNotFound) ∧
    errorsIs Error.storageErrUserNotFound Error.ErrUserNotFound = false ∧
    sqlOf (SlotService.Spin ⟨⟨memPoolVanished⟩, ⟨memGenerate⟩⟩ ⟨none⟩ (memUser "bob" 1000) 100
        (memInit "bob" 1000 [] [(⟨5, 6, 7⟩, none)])).2.trace =
      [Sql.selectBalance "bob", Sql.updateBalance 900 "bob"] ∧
    (UserService.DepositFunds ⟨⟨memPoolVanished⟩⟩ ⟨none⟩ "bob" 10
        (memInit "bob" 1000 [] [])).1 = (0, some Error.ErrUserNotFound) ∧
    (UserService.WithdrawFunds ⟨⟨memPoolVanished⟩⟩ ⟨none⟩ "bob" 10
        (memInit "bob" 1000 [] [])).1 = (0, some Error.ErrUserNotFound) ∧
    (memSlotService.Spin ⟨none⟩ (memUser "eve" 1000) 100
        (memInit "bob" 1000 [] [(⟨5, 6, 7⟩, none)])).1 = (none, 0, some Error.ErrUserNotFound) := by
  refine ⟨by rfl, by rfl, by rfl, by rfl, by rfl, by rfl⟩

/-- C17 (counterexample): on the balance `2^63 - 1`, the bet `2^62` on the Win `{7,7,5}`
succeeds and hands to `CreateSpin` the win amount `-2^63`, which is not `2 * BetAmount`. -/
theorem SlotService.spin_record_overflow :
    (memSlotService.Spin ⟨none⟩ (memUser "bob" 9223372036854775807) 4611686018427387904
        (memInit "bob" 9223372036854775807 [] [(⟨7, 7, 5⟩, none)])).1 =
      (some { ID := "0", UserID := "u1", Combination := "7,7,5", Result := SpinResult.Win,
              BetAmount := 4611686018427387904, WinAmount := -9223372036854775808,
              CreatedAt := 0 },
        -1, none) ∧
    callsOf (memSlotService.Spin ⟨none⟩ (memUser "bob" 9223372036854775807)
        4611686018427387904
        (memInit "bob" 9223372036854775807 [] [(⟨7, 7, 5⟩, none)])).2.trace =
      [Call.GetUserBalanceByLogin "bob",
       Call.SetUserBalanceByLogin "bob" (-1),
       Call.CreateSpin "u1" "7,7,5" SpinResult.Win 4611686018427387904
         (-9223372036854775808)] ∧
    (-9223372036854775808 : Int) ≠ 2 * 4611686018427387904 := by
  refine ⟨by rfl, by rfl, by decide⟩

/-- C17 (amended): in every successful `SlotService.Spin` with an `int64` bet, `CreateSpin`
is called once, with the `String()` and the `Type()` of the drawn combination, the
requested bet, and a win amount that depends on the bet and the result alone: the `int64`
value of `-bet`, `2 * bet` or `10 * bet`, which is `-bet` for a Lose, `2 * bet` for a Win
when `2 * bet` does not exceed the greatest `int64`, and `10 * bet` for a SuperWin when
`10 * bet` does not exceed it. -/
theorem SlotService.spin_record_consistent {σ : Type} (ss : SlotService σ) (ctx : Context)
    (user : User) (betAmount : Int) (w : World σ) (spin : Option SlotGame.Spin)
    (newBalance : Int) (hb64 : isInt64 betAmount)
    (h : (ss.Spin ctx user betAmount w).1 = (spin, newBalance, none)) :
    ∃ (c : Combination) (win : Int) (e2 : σ) (suffix : List Event),
      (ss.slotMachine.generate e2).1 = (c, none) ∧
      (ss.Spin ctx user betAmount w).2.trace = w.trace ++ suffix ∧
      callsOf suffix =
        [Call.GetUserBalanceByLogin user.Login,
         Call.SetUserBalanceByLogin user.Login newBalance,
         Call.CreateSpin user.ID c.String c.type betAmount win] ∧
      win = (match c.type with
        | SpinResult.Lose => wrapInt64 (-betAmount)
        | SpinResult.Win => wrapInt64 (2 * betAmount)
        | SpinResult.SuperWin => wrapInt64 (10 * betAmount)) ∧
      (c.type = SpinResult.Lose → win = -betAmount) ∧
      (c.type = SpinResult.Win → 2 * betAmount ≤ maxInt64 → win = 2 * betAmount) ∧
      (c.type = SpinResult.SuperWin → 10 * betAmount ≤ maxInt64 → win = 10 * betAmount) := by
  obtain ⟨tx, txOwner, ctx1, w1, B, e2, c, win, id, t, -, -, -, hpos, hgen, hwin, -, -,
    suffix, htr, hcalls, -⟩ := SlotService.spin_success_shape ss ctx user betAmount w spin
      newBalance h
  refine ⟨c, win, e2, suffix, hgen, htr, hcalls, hwin, ?_, ?_, ?_⟩
  · intro hty
    rw [hwin, hty]
    apply wrapInt64_of_isInt64
    unfold isInt64 minInt64 maxInt64 at *
    omega
  · intro hty hle
    rw [hwin, hty]
    apply wrapInt64_of_isInt64
    unfold isInt64 minInt64 maxInt64 at *
    omega
  · intro hty hle
    rw [hwin, hty]
    apply wrapInt64_of_isInt64
    unfold isInt64 minInt64 maxInt64 at *
    omega

/-- C17 (witness): end-to-end scenario 2, balance 1000, bet 50, combination `{3,3,3}`:
the record is a SuperWin with bet 50 and win amount 500, and the new balance is 1500. -/
theorem SlotService.spin_record_consistent_witness :
    (memSlotService.Spin ⟨none⟩ (memUser "bob" 1000) 50
        (memInit "bob" 1000 [] [(⟨3, 3, 3⟩, none)])).1 =
      (some { ID := "0", UserID := "u1", Combination := "3,3,3", Result := SpinResult.SuperWin,
              BetAmount := 50, WinAmount := 500, CreatedAt := 0 }, 1500, none) ∧
    ∃ (c : Combination) (win : Int) (e2 : MemStore) (suffix : List Event),
      (memSlotService.slotMachine.generate e2).1 = (c, none) ∧
      (memSlotService.Spin ⟨none⟩ (memUser "bob" 1000) 50
          (memInit "bob" 1000 [] [(⟨3, 3, 3⟩, none)])).2.trace =
        (memInit "bob" 1000 [] [(⟨3, 3, 3⟩, none)]).trace ++ suffix ∧
      callsOf suffix =
        [Call.GetUserBalanceByLogin (memUser "bob" 1000).Login,
         Call.SetUserBalanceByLogin (memUser "bob" 1000).Login 1500,
         Call.CreateSpin (memUser "bob" 1000).ID c.String c.type 50 win] ∧
      win = (match c.type with
        | SpinResult.Lose => wrapInt64 (-50)
        | SpinResult.Win => wrapInt64 (2 * 50)
        | SpinResult.SuperWin => wrapInt64 (10 * 50)) ∧
      (c.type = SpinResult.Lose → win = -50) ∧
      (c.type = SpinResult.Win → 2 * 50 ≤ maxInt64 → win = 2 * 50) ∧
      (c.type = SpinResult.SuperWin → 10 * 50 ≤ maxInt64 → win = 10 * 50) :=
  ⟨by rfl,
    SlotService.spin_record_consistent memSlotService ⟨none⟩ (memUser "bob" 1000) 50
      (memInit "bob" 1000 [] [(⟨3, 3, 3⟩, none)])
      (some { ID := "0", UserID := "u1", Combination := "3,3,3", Result := SpinResult.SuperWin,
              BetAmount := 50, WinAmount := 500, CreatedAt := 0 }) 1500 (by decide) (by rfl)⟩

/-- C20: when the balance read returns a non-negative `int64` balance `B`, a successful
`WithdrawFunds` with `amount > 0` writes `B - amount`, with `amount ≤ B`, and a successful
`SlotService.Spin` with `bet > 0` and `B + 10 * bet` within the `int64` range writes a
balance that is `B - bet` for a Lose, with `bet ≤ B`; in both cases the balance written
with `SetUserBalanceByLogin` is non-negative. -/
theorem balance_stays_nonnegative {σ : Type} (p : Pool σ) (gen : GenerateFn σ) (ctx : Context)
    (w : World σ) (B : Int) (hB : 0 ≤ B) :
    (∀ (login : String) (amount : Int) (tx : Tx) (txOwner : Bool) (ctx1 : Context)
        (w1 : World σ) (e2 : σ) (nb : Int),
      Storage.runTxOpen ⟨p⟩ ctx (w.emit (Event.logDebug "funds withdrawal started")) =
        (Except.ok (tx, txOwner, ctx1), w1) →
      p.selectBalance tx login w1.env = (Except.ok B, e2) →
      isInt64 B → 0 < amount →
      (UserService.WithdrawFunds ⟨⟨p⟩⟩ ctx login amount w).1 = (nb, none) →
      0 ≤ nb ∧ amount ≤ B ∧ nb = B - amount ∧
      Call.SetUserBalanceByLogin login nb ∈
        callsOf (UserService.WithdrawFunds ⟨⟨p⟩⟩ ctx login amount w).2.trace) ∧
    (∀ (user : User) (betAmount : Int) (tx : Tx) (txOwner : Bool) (ctx1 : Context)
        (w1 : World σ) (e2 : σ) (spin : Option SlotGame.Spin) (nb : Int),
      Storage.runTxOpen ⟨p⟩ ctx w = (Except.ok (tx, txOwner, ctx1), w1) →
      p.selectBalance tx user.Login w1.env = (Except.ok B, e2) →
      0 < betAmount → isInt64 (B + 10 * betAmount) →
      (SlotService.Spin ⟨⟨p⟩, ⟨gen⟩⟩ ctx user betAmount w).1 = (spin, nb, none) →
      0 ≤ nb ∧ betAmount ≤ B ∧
      ((gen e2).1.1.type = SpinResult.Lose → nb = B - betAmount) ∧
      Call.SetUserBalanceByLogin user.Login nb ∈
        callsOf (SlotService.Spin ⟨⟨p⟩, ⟨gen⟩⟩ ctx user betAmount w).2.trace) := by
  refine ⟨?_, ?_⟩
  · intro login amount tx txOwner ctx1 w1 e2 nb hopen hread hB64 hpos hs
    obtain ⟨hge, hnb, suffix, htr, hcalls⟩ :=
      UserService.withdraw_success_inv ⟨⟨p⟩⟩ ctx login amount w tx txOwner ctx1 w1 B e2 nb
        hopen hread hs
    have hexact : nb = B - amount := by
      rw [hnb]
      apply wrapInt64_of_isInt64
      unfold isInt64 minInt64 maxInt64 at *
      omega
    refine ⟨by omega, by omega, hexact, ?_⟩
    rw [htr, callsOf_append, hcalls]
    simp
  · intro user betAmount tx txOwner ctx1 w1 e2 spin nb hopen hread hpos hrange hs
    obtain ⟨tx', txOwner', ctx1', w1', B', e2', c, win, id, t, hopen', hread', hge, -, hgen,
      hwin, hnb, -, suffix, htr, hcalls, -⟩ :=
      SlotService.spin_success_shape ⟨⟨p⟩, ⟨gen⟩⟩ ctx user betAmount w spin nb hs
    rw [hopen] at hopen'
    simp only [Prod.mk.injEq, Except.ok.injEq] at hopen'
    obtain ⟨⟨rfl, rfl, rfl⟩, rfl⟩ := hopen'
    have hread2 : p.selectBalance tx user.Login w1.env = (Except.ok B', e2') := hread'
    rw [hread] at hread2
    simp only [Prod.mk.injEq, Except.ok.injEq] at hread2
    obtain ⟨rfl, rfl⟩ := hread2
    have hgen2 : (gen e2).1 = (c, none) := hgen
    unfold isInt64 minInt64 maxInt64 at hrange
    have hcall : Call.SetUserBalanceByLogin user.Login nb ∈
        callsOf (SlotService.Spin ⟨⟨p⟩, ⟨gen⟩⟩ ctx user betAmount w).2.trace := by
      rw [htr, callsOf_append, hcalls]
      simp
    have key : 0 ≤ nb ∧ (c.type = SpinResult.Lose → nb = B - betAmount) := by
      rw [hnb, hwin]
      cases hty : c.type
      · simp only
        rw [wrapInt64_of_isInt64 (x := -betAmount)
          (by unfold isInt64 minInt64 maxInt64; omega)]
        rw [wrapInt64_of_isInt64 (by unfold isInt64 minInt64 maxInt64; omega)]
        exact ⟨by omega, fun _ => by omega⟩
      · simp only
        rw [wrapInt64_of_isInt64 (x := 2 * betAmount)
          (by unfold isInt64 minInt64 maxInt64; omega)]
        rw [wrapInt64_of_isInt64 (by unfold isInt64 minInt64 maxInt64; omega)]
        exact ⟨by omega, fun h => by cases h⟩
      · simp only
        rw [wrapInt64_of_isInt64 (x := 10 * betAmount)
          (by unfold isInt64 minInt64 maxInt64; omega)]
        rw [wrapInt64_of_isInt64 (by unfold isInt64 minInt64 maxInt64; omega)]
        exact ⟨by omega, fun h => by cases h⟩
    refine ⟨key.1, by omega, ?_, hcall⟩
    rw [hgen2]
    exact key.2

/-- C20 (witness): on the balance 1000 of the in-memory store, withdrawing 30 writes 970
and a losing spin of 100 on `{5,6,7}` writes 900. -/
theorem balance_stays_nonnegative_witness :
    ((0 : Int) ≤ 970 ∧ (30 : Int) ≤ 1000 ∧ (970 : Int) = 1000 - 30 ∧
      Call.SetUserBalanceByLogin "bob" 970 ∈
        callsOf (UserService.WithdrawFunds ⟨⟨memPool⟩⟩ ⟨none⟩ "bob" 30
          (memInit "bob" 1000 [] [(⟨5, 6, 7⟩, none)])).2.trace) ∧
    ((0 : Int) ≤ 900 ∧ (100 : Int) ≤ 1000 ∧
      ((memGenerate (memPool.selectBalance 0 "bob"
          (memStorage.runTxOpen ⟨none⟩
            (memInit "bob" 1000 [] [(⟨5, 6, 7⟩, none)])).2.env).2).1.1.type = SpinResult.Lose →
        (900 : Int) = 1000 - 100) ∧
      Call.SetUserBalanceByLogin (memUser "bob" 1000).Login 900 ∈
        callsOf (SlotService.Spin ⟨⟨memPool⟩, ⟨memGenerate⟩⟩ ⟨none⟩ (memUser "bob" 1000) 100
          (memInit "bob" 1000 [] [(⟨5, 6, 7⟩, none)])).2.trace) :=
  have h := balance_stays_nonnegative memPool memGenerate ⟨none⟩
    (memInit "bob" 1000 [] [(⟨5, 6, 7⟩, none)]) 1000 (by decide)
  ⟨h.1 "bob" 30 0 true ⟨some 0⟩
      (memStorage.runTxOpen ⟨none⟩ ((memInit "bob" 1000 [] [(⟨5, 6, 7⟩, none)]).emit
        (Event.logDebug "funds withdrawal started"))).2
      (memPool.selectBalance 0 "bob" (memStorage.runTxOpen ⟨none⟩
        ((memInit "bob" 1000 [] [(⟨5, 6, 7⟩, none)]).emit
          (Event.logDebug "funds withdrawal started"))).2.env).2
      970 rfl rfl (by decide) (by decide) (by rfl),
    h.2 (memUser "bob" 1000) 100 0 true ⟨some 0⟩
      (memStorage.runTxOpen ⟨none⟩ (memInit "bob" 1000 [] [(⟨5, 6, 7⟩, none)])).2
      (memPool.selectBalance 0 "bob"
        (memStorage.runTxOpen ⟨none⟩ (memInit "bob" 1000 [] [(⟨5, 6, 7⟩, none)])).2.env).2
      (some { ID := "0", UserID := "u1", Combination := "5,6,7", Result := SpinResult.Lose,
              BetAmount := 100, WinAmount := -100, CreatedAt := 0 })
      900 rfl rfl (by decide) (by decide) (by rfl)⟩

/-! ### Creating a user -/

theorem Storage.createUserWork_exists {σ : Type} (s : Storage σ)
    (login password firstName lastName : String) (balance : Int) (ctx : Context) (cap : User)
    (w : World σ) (tx : Tx) (u : User) (e2 : σ)
    (hctx : txFromContext ctx = some tx)
    (hsel : s.conn.selectUser tx login w.env = (Except.ok u, e2)) :
    s.createUserWork login password firstName lastName balance ctx cap w =
      ((some (Error.wrapped "cannot create user %q: %w" Error.storageErrUserExists), cap),
        { env := e2, trace := w.trace ++
          [Event.call (Call.GetUserByLogin login), Event.sql tx (Sql.selectUser login)] }) := by
  simp [Storage.createUserWork, Storage.getUserByLogin_tx s ctx login w tx hctx, hsel]

theorem Storage.createUserWork_insert {σ : Type} (s : Storage σ)
    (login password firstName lastName : String) (balance : Int) (ctx : Context) (cap : User)
    (w : World σ) (tx : Tx) (err : Error) (e2 : σ) (id : String) (e3 : σ)
    (hctx : txFromContext ctx = some tx)
    (hsel : s.conn.selectUser tx login w.env = (Except.error err, e2))
    (hnone : errorsIs err Error.pgxErrNoRows = true)
    (hins : s.conn.insertUser tx firstName lastName login password balance e2 =
      (Except.ok id, e3)) :
    s.createUserWork login password firstName lastName balance ctx cap w =
      ((none, { cap with ID := id }),
        { env := e3, trace := w.trace ++
          [Event.call (Call.GetUserByLogin login), Event.sql tx (Sql.selectUser login),
           Event.sql tx (Sql.insertUser firstName lastName login password balance)] }) := by
  simp [Storage.createUserWork, Storage.getUserByLogin_tx s ctx login w tx hctx, hsel, hnone,
    Storage.withTx, hctx, hins]

theorem Storage.createUser_unfold {σ : Type} (s : Storage σ) (ctx : Context)
    (login password firstName lastName : String) (balance : Int) (w : World σ) :
    s.CreateUser ctx login password firstName lastName balance w =
      ((match (s.RunTx ctx (s.createUserWork login password firstName lastName balance)
            { ID := "", FirstName := firstName, LastName := lastName, Login := login,
              Password := password, Balance := balance }
            (w.emit (Event.call
              (Call.CreateUser login password firstName lastName balance)))).1 with
        | (some err, _) => (none, some err)
        | (none, usr) => (some usr, none)),
       (s.RunTx ctx (s.createUserWork login password firstName lastName balance)
            { ID := "", FirstName := firstName, LastName := lastName, Login := login,
              Password := password, Balance := balance }
            (w.emit (Event.call
              (Call.CreateUser login password firstName lastName balance)))).2) := by
  unfold Storage.CreateUser
  simp only
  rcases s.RunTx ctx (s.createUserWork login password firstName lastName balance)
      { ID := "", FirstName := firstName, LastName := lastName, Login := login,
        Password := password, Balance := balance }
      (w.emit (Event.call (Call.CreateUser login password firstName lastName balance)))
    with ⟨⟨_ | e, k2⟩, w2⟩ <;> rfl

/-- C19 (counterexample): called inside an open transaction whose work function ignores
the error, `CreateUser` on the taken login "bob" fails with `ErrUserExists`, no `Rollback`
is issued and the transaction is committed; and for the free login "eve", with no query
failing, a failing `Commit` makes `CreateUser` return an error and no user. -/
theorem Storage.createUser_not_rolled_back :
    (memStorage.RunTx ⟨none⟩
        (fun ctx (_ : Option Error) w =>
          ((none, (memStorage.CreateUser ctx "bob" "hash" "Bob" "Bee" 5 w).1.2),
            (memStorage.CreateUser ctx "bob" "hash" "Bob" "Bee" 5 w).2))
        none (memInit "bob" 40 [] [])).1 =
      (none, some (Error.wrapped "cannot create user %q: %w" Error.storageErrUserExists)) ∧
    txEventsOf (memStorage.RunTx ⟨none⟩
        (fun ctx (_ : Option Error) w =>
          ((none, (memStorage.CreateUser ctx "bob" "hash" "Bob" "Bee" 5 w).1.2),
            (memStorage.CreateUser ctx "bob" "hash" "Bob" "Bee" 5 w).2))
        none (memInit "bob" 40 [] [])).2.trace = [Event.begin, Event.commit 0] ∧
    (memStorage.CreateUser ⟨none⟩ "eve" "hash" "Eve" "Vee" 5
        (memInit "bob" 40 [none, none, none, some (Error.other "commit failed")] [])).1 =
      (none, some (Error.other "commit failed")) ∧
    sqlOf (memStorage.CreateUser ⟨none⟩ "eve" "hash" "Eve" "Vee" 5
        (memInit "bob" 40 [none, none, none, some (Error.other "commit failed")] [])).2.trace =
      [Sql.selectUser "eve", Sql.insertUser "Eve" "Vee" "eve" "hash" 5] := by
  refine ⟨by rfl, by rfl, by rfl, by rfl⟩

/-- C19 (amended): when the lookup inside the transaction finds an account with the
login, `Storage.CreateUser` fails with an error that is `ErrUserExists`, sends no `INSERT`
and, if this call opened the transaction, rolls it back (a call on a context that already
carries a handle issues no `Rollback`); when the lookup finds none and neither the insert
nor, for the owner, `Commit` fails, it sends one `INSERT` and returns a user carrying the
inserted id and the given login, names, password hash and balance. -/
theorem Storage.createUser_outcome {σ : Type} (s : Storage σ) (ctx : Context)
    (login password firstName lastName : String) (balance : Int) (w : World σ) (tx : Tx)
    (txOwner : Bool) (ctx1 : Context) (w1 : World σ)
    (hopen : s.runTxOpen ctx
        (w.emit (Event.call (Call.CreateUser login password firstName lastName balance))) =
      (Except.ok (tx, txOwner, ctx1), w1)) :
    (∀ (u : User) (e2 : σ), s.conn.selectUser tx login w1.env = (Except.ok u, e2) →
      ∃ err : Error,
        (s.CreateUser ctx login password firstName lastName balance w).1 = (none, some err) ∧
        errorsIs err Error.storageErrUserExists = true ∧
        ∃ suffix : List Event,
          (s.CreateUser ctx login password firstName lastName balance w).2.trace =
            w.trace ++ suffix ∧
          sqlOf suffix = [Sql.selectUser login] ∧
          txEventsOf suffix =
            (if txOwner then [Event.begin, Event.rollback tx] else [])) ∧
    (∀ (err : Error) (e2 : σ) (id : String) (e3 : σ),
      s.conn.selectUser tx login w1.env = (Except.error err, e2) →
      errorsIs err Error.pgxErrNoRows = true →
      s.conn.insertUser tx firstName lastName login password balance e2 = (Except.ok id, e3) →
      (txOwner = true → (s.conn.Commit tx e3).1 = none) →
      (s.CreateUser ctx login password firstName lastName balance w).1 =
        (some { ID := id, FirstName := firstName, LastName := lastName, Login := login,
                Password := password, Balance := balance }, none) ∧
      ∃ suffix : List Event,
        (s.CreateUser ctx login password firstName lastName balance w).2.trace =
          w.trace ++ suffix ∧
        sqlOf suffix =
          [Sql.selectUser login, Sql.insertUser firstName lastName login password balance] ∧
        txEventsOf suffix = (if txOwner then [Event.begin, Event.commit tx] else [])) := by
  have hctx1 := (Storage.runTxOpen_ok _ ctx _ tx txOwner ctx1 w1 hopen).1
  have htr := Storage.runTxOpen_trace _ ctx _ tx txOwner ctx1 w1 hopen
  have hun := Storage.createUser_unfold s ctx login password firstName lastName balance w
  refine ⟨?_, ?_⟩
  · intro u e2 hsel
    have hwork := Storage.createUserWork_exists s login password firstName lastName balance
      ctx1 { ID := "", FirstName := firstName, LastName := lastName, Login := login,
             Password := password, Balance := balance } w1 tx u e2 hctx1 hsel
    obtain ⟨rest, env3, hrun, hshape⟩ :=
      Storage.runTx_error_shape s ctx _ _ _ tx txOwner ctx1 w1 _ _ _ hopen hwork
    refine ⟨Error.wrapped "cannot create user %q: %w" Error.storageErrUserExists, ?_,
      by simp [errorsIs], ?_⟩
    · rw [hun, hrun]
    · refine ⟨[Event.call (Call.CreateUser login password firstName lastName balance)] ++
        (if txOwner then [Event.begin] else []) ++
        [Event.call (Call.GetUserByLogin login), Event.sql tx (Sql.selectUser login)] ++ rest,
        ?_, ?_, ?_⟩
      · rw [hun, hrun]
        simp [htr, World.emit]
      · rcases hshape with ⟨rfl, rfl, -⟩ | ⟨rfl, -, rfl | ⟨r, rfl⟩⟩ <;> rfl
      · rcases hshape with ⟨rfl, rfl, -⟩ | ⟨rfl, -, rfl | ⟨r, rfl⟩⟩ <;> rfl
  · intro err e2 id e3 hsel hnone hins hcommit
    have hwork := Storage.createUserWork_insert s login password firstName lastName balance
      ctx1 { ID := "", FirstName := firstName, LastName := lastName, Login := login,
             Password := password, Balance := balance } w1 tx err e2 id e3 hctx1 hsel hnone hins
    rcases Storage.runTx_ok_shape s ctx _ _ _ tx txOwner ctx1 w1 _ _ hopen hwork with
      ⟨rfl, hrun⟩ | ⟨rfl, hrun⟩
    · refine ⟨by rw [hun, hrun], ?_⟩
      refine ⟨[Event.call (Call.CreateUser login password firstName lastName balance),
        Event.call (Call.GetUserByLogin login), Event.sql tx (Sql.selectUser login),
        Event.sql tx (Sql.insertUser firstName lastName login password balance)], ?_, rfl, rfl⟩
      rw [hun, hrun]
      simp [htr, World.emit]
    · have hc := hcommit rfl
      simp only at hc
      refine ⟨by rw [hun, hrun, hc], ?_⟩
      refine ⟨[Event.call (Call.CreateUser login password firstName lastName balance),
        Event.begin,
        Event.call (Call.GetUserByLogin login), Event.sql tx (Sql.selectUser login),
        Event.sql tx (Sql.insertUser firstName lastName login password balance),
        Event.commit tx], ?_, rfl, rfl⟩
      rw [hun, hrun]
      simp [htr, World.emit]

/-- C19 (witness): on the in-memory store holding "bob", creating "bob" again from a
context without a handle fails with `ErrUserExists`, sends only the lookup and rolls the
transaction back. -/
theorem Storage.createUser_outcome_witness :
    ∃ err : Error,
      (memStorage.CreateUser ⟨none⟩ "bob" "hash" "Bob" "Bee" 5 (memInit "bob" 40 [] [])).1 =
        (none, some err) ∧
      errorsIs err Error.storageErrUserExists = true ∧
      ∃ suffix : List Event,
        (memStorage.CreateUser ⟨none⟩ "bob" "hash" "Bob" "Bee" 5
            (memInit "bob" 40 [] [])).2.trace = (memInit "bob" 40 [] []).trace ++ suffix ∧
        sqlOf suffix = [Sql.selectUser "bob"] ∧
        txEventsOf suffix = (if true then [Event.begin, Event.rollback 0] else []) :=
  (Storage.createUser_outcome memStorage ⟨none⟩ "bob" "hash" "Bob" "Bee" 5
    (memInit "bob" 40 [] []) 0 true ⟨some 0⟩
    (memStorage.runTxOpen ⟨none⟩ ((memInit "bob" 40 [] []).emit
      (Event.call (Call.CreateUser "bob" "hash" "Bob" "Bee" 5)))).2 rfl).1
    (memUser "bob" 40)
    (memPool.selectUser 0 "bob" (memStorage.runTxOpen ⟨none⟩ ((memInit "bob" 40 [] []).emit
      (Event.call (Call.CreateUser "bob" "hash" "Bob" "Bee" 5)))).2.env).2
    rfl

/-! ### The textual forms -/

/-- C21: for every combination `c`, `c.Type()` is one of the three constants, and
`SpinResult.String` applied to it returns `"Lose"`, `"Win"` or `"SuperWin"` respectively;
the panic branch, which a byte such as 3 does reach, is not reached. -/
theorem type_string_total (c : Combination) :
    SpinResult.String 3 = Except.error "unknown spin result type: 3" ∧
    (c.type = SpinResult.Lose ∨ c.type = SpinResult.Win ∨ c.type = SpinResult.SuperWin) ∧
    (c.type = SpinResult.Lose → SpinResult.String c.type.code = Except.ok "Lose") ∧
    (c.type = SpinResult.Win → SpinResult.String c.type.code = Except.ok "Win") ∧
    (c.type = SpinResult.SuperWin → SpinResult.String c.type.code = Except.ok "SuperWin") ∧
    (∀ msg : String, SpinResult.String c.type.code ≠ Except.error msg) := by
  refine ⟨rfl, ?_⟩
  cases hty : c.type
  · refine ⟨Or.inl rfl, (fun _ => rfl), (fun h => nomatch h), (fun h => nomatch h), ?_⟩
    intro msg h
    cases h
  · refine ⟨Or.inr (Or.inl rfl), (fun h => nomatch h), (fun _ => rfl), (fun h => nomatch h), ?_⟩
    intro msg h
    cases h
  · refine ⟨Or.inr (Or.inr rfl), (fun h => nomatch h), (fun h => nomatch h), (fun _ => rfl), ?_⟩
    intro msg h
    cases h

set_option maxRecDepth 100000 in
theorem reprByte_digits :
    ∀ n : Fin 256,
      (Nat.repr n.val).data.all (fun ch => decide (48 ≤ ch.toNat ∧ ch.toNat ≤ 57)) = true := by
  decide

set_option maxRecDepth 100000 in
theorem reprByte_decode : ∀ n : Fin 256, decodeDigits (Nat.repr n.val).data = n.val := by
  decide

theorem reprByte_digit_mem (n : Fin 256) (ch : Char) (h : ch ∈ (Nat.repr n.val).data) :
    48 ≤ ch.toNat ∧ ch.toNat ≤ 57 := by
  have hall := reprByte_digits n
  rw [List.all_eq_true] at hall
  simpa using hall ch h

theorem reprByte_no_comma (n : Fin 256) : ',' ∉ (Nat.repr n.val).data := by
  intro h
  have hd := reprByte_digit_mem n ',' h
  have : (',' : Char).toNat = 44 := by decide
  omega

theorem reprByte_injective (a b : Fin 256) (h : Nat.repr a.val = Nat.repr b.val) : a = b := by
  apply Fin.ext
  rw [← reprByte_decode a, ← reprByte_decode b, h]

theorem append_cons_unique {α : Type} (sep : α) :
    ∀ (l1 m1 l2 m2 : List α), sep ∉ l1 → sep ∉ m1 →
      l1 ++ sep :: l2 = m1 ++ sep :: m2 → l1 = m1 ∧ l2 = m2
  | [], [], l2, m2, _, _, h => by
      simp only [List.nil_append, List.cons.injEq, true_and] at h
      exact ⟨rfl, h⟩
  | [], y :: m1, l2, m2, _, hm, h => by
      simp only [List.nil_append, List.cons_append, List.cons.injEq] at h
      exact absurd (by rw [h.1]; exact List.mem_cons_self _ _) hm
  | x :: l1, [], l2, m2, hl, _, h => by
      simp only [List.nil_append, List.cons_append, List.cons.injEq] at h
      exact absurd (by rw [← h.1]; exact List.mem_cons_self _ _) hl
  | x :: l1, y :: m1, l2, m2, hl, hm, h => by
      simp only [List.cons_append, List.cons.injEq] at h
      have ih := append_cons_unique sep l1 m1 l2 m2
        (fun hh => hl (List.mem_cons_of_mem _ hh)) (fun hh => hm (List.mem_cons_of_mem _ hh)) h.2
      exact ⟨by rw [h.1, ih.1], ih.2⟩

theorem Combination.string_data (c : Combination) :
    c.String.data =
      (Nat.repr c.s0.val).data ++ ',' :: ((Nat.repr c.s1.val).data ++
        ',' :: (Nat.repr c.s2.val).data) := by
  simp [Combination.String, String.intercalate, String.intercalate.go]

/-- C22: `c.String()` is the decimal numerals of the three symbols, in order, with a
single comma between them and no other character (`{5,6,7}` gives `"5,6,7"`); each
numeral reads back as its symbol; and `String` is injective, so the text determines the
combination and its classification. -/
theorem combination_string_injective (c d : Combination) :
    c.String = Nat.repr c.s0.val ++ "," ++ Nat.repr c.s1.val ++ "," ++ Nat.repr c.s2.val ∧
    (∀ x ∈ c.toList,
      (∀ ch ∈ (Nat.repr x.val).data, 48 ≤ ch.toNat ∧ ch.toNat ≤ 57) ∧
      decodeDigits (Nat.repr x.val).data = x.val) ∧
    (∀ ch ∈ c.String.data, (48 ≤ ch.toNat ∧ ch.toNat ≤ 57) ∨ ch = ',') ∧
    c.String.data.count ',' = 2 ∧
    (⟨5, 6, 7⟩ : Combination).String = "5,6,7" ∧
    (c.String = d.String → c = d) ∧
    (c.String = d.String → c.type = d.type) := by
  have hinj : c.String = d.String → c = d := by
    intro h
    have hdata := congrArg String.data h
    rw [Combination.string_data, Combination.string_data] at hdata
    obtain ⟨h0, hrest⟩ := append_cons_unique ',' _ _ _ _ (reprByte_no_comma c.s0)
      (reprByte_no_comma d.s0) hdata
    obtain ⟨h1, h2⟩ := append_cons_unique ',' _ _ _ _ (reprByte_no_comma c.s1)
      (reprByte_no_comma d.s1) hrest
    have e0 := reprByte_injective c.s0 d.s0 (String.ext h0)
    have e1 := reprByte_injective c.s1 d.s1 (String.ext h1)
    have e2 := reprByte_injective c.s2 d.s2 (String.ext h2)
    rcases c with ⟨a0, a1, a2⟩
    rcases d with ⟨b0, b1, b2⟩
    simp only at e0 e1 e2
    rw [e0, e1, e2]
  refine ⟨?_, ?_, ?_, ?_, by decide, hinj, fun h => by rw [hinj h]⟩
  · simp [Combination.String, String.intercalate, String.intercalate.go]
  · intro x _
    exact ⟨fun ch hch => reprByte_digit_mem x ch hch, reprByte_decode x⟩
  · intro ch hch
    rw [Combination.string_data] at hch
    simp only [List.mem_append, List.mem_cons] at hch
    rcases hch with h | h | h | h | h
    · exact Or.inl (reprByte_digit_mem _ ch h)
    · exact Or.inr h
    · exact Or.inl (reprByte_digit_mem _ ch h)
    · exact Or.inr h
    · exact Or.inl (reprByte_digit_mem _ ch h)
  · rw [Combination.string_data]
    simp only [List.count_append, List.count_cons_self,
      List.count_eq_zero_of_not_mem (reprByte_no_comma _)]

end SlotGame
